import Mathlib

/-!
Verification of chainidio/dashboard: authorization gate, listing filters and proxy handlers

A shallow embedding of the request-security layer of the dashboard API
(`api/http/security`, `api/http/handler`) together with the properties its
specification states about it.

Conventions of the embedding:

* Go `int`-based identifiers (`UserID`, `TeamID`, `EndpointID`, ...) are `Int`.
* Go slices are `List`s; a `nil` slice and an empty slice are both `[]`.
* A Go `error` result is an `Option Error` (`none` is `nil`), a `(value, error)`
  pair is an `Except Error value`.
* Collaborator services (persistence, token verification, proxy manager) are
  fields of function type; every call to one of them is recorded as an `Event`
  so that "is never called" and "is called exactly once" are statements about
  the produced event list.
* An HTTP handler is a function from the request to the list of events it
  produces, in program order.
* A handler that writes to the database is a function from the store and the
  request to the events it produces and the store it leaves; the store is the
  BoltDB buckets of package `bolt`.
-/

namespace Chainid

/-! ## Data model (package `chainid`) -/

abbrev UserID := Int
abbrev TeamID := Int
abbrev TeamMembershipID := Int
abbrev EndpointID := Int
abbrev EndpointGroupID := Int
abbrev RegistryID := Int
abbrev UserRole := Int
abbrev MembershipRole := Int
abbrev EndpointExtensionType := Int

/-- Modelled from the spec: the declaration of the `UserRole` constants is not part of the
available sources; `AdministratorRole` is the first non-zero role. -/
def AdministratorRole : UserRole := 1

/-- Modelled from the spec: the second `UserRole` constant, a regular user. -/
def StandardUserRole : UserRole := 2

/-- Modelled from the spec: membership roles are leader and member; the declaration of the
`MembershipRole` constants is not part of the available sources. -/
def TeamLeader : MembershipRole := 1

/-- Modelled from the spec: the member role of a team membership. -/
def TeamMember : MembershipRole := 2

/-- Modelled from the spec: the only extension kind the handlers refer to. -/
def StoridgeEndpointExtension : EndpointExtensionType := 1

/-- Errors of package `chainid` that the modelled code refers to by name, and any other error
value a collaborator may return. -/
inductive Error where
  | ErrUnauthorized
  | ErrResourceAccessDenied
  | ErrEndpointAccessDenied
  | ErrUserNotFound
  | ErrMissingContextData
  | ErrMissingSecurityContext
  | ErrEndpointExtensionNotSupported
  | ErrCannotRemoveDefaultGroup
  | ErrEndpointGroupNotFound
  | ErrEndpointNotFound
  | ErrEndpointManagementDisabled
  | ErrResourceControlNotFound
  | ErrResourceControlAlreadyExists
  | ErrInvalidResourceControlType
  | ErrTeamMembershipNotFound
  | ErrTeamMembershipAlreadyExists
  | ErrInvalidJSON
  | ErrInvalidRequestFormat
  | ErrInvalidQueryFormat
  | ErrStackNotFound
  | ErrStackAlreadyExists
  | other (msg : String)
  deriving DecidableEq, Repr

structure TokenData where
  ID : UserID := 0
  Username : String := ""
  Role : UserRole := 0
  deriving DecidableEq, Repr

structure User where
  ID : UserID
  Username : String
  Role : UserRole
  deriving DecidableEq, Repr

structure Team where
  ID : TeamID
  Name : String
  deriving DecidableEq, Repr

structure TeamMembership where
  ID : TeamMembershipID
  UserID : UserID
  TeamID : TeamID
  Role : MembershipRole
  deriving DecidableEq, Repr

/-- An endpoint extension; the Go field `Type` is a reserved word here and is named `Type_`. -/
structure EndpointExtension where
  Type_ : EndpointExtensionType
  URL : String
  deriving DecidableEq, Repr

/-- The TLS settings of an endpoint, as far as the handlers read them. -/
structure TLSConfiguration where
  TLS : Bool := false
  TLSSkipVerify : Bool := false
  TLSCACertPath : String := ""
  TLSCertPath : String := ""
  TLSKeyPath : String := ""
  deriving DecidableEq, Repr

structure Endpoint where
  ID : EndpointID
  Name : String
  URL : String
  GroupID : EndpointGroupID
  AuthorizedUsers : List UserID
  AuthorizedTeams : List TeamID
  Extensions : List EndpointExtension
  TLSConfig : TLSConfiguration := {}
  PublicURL : String := ""
  deriving DecidableEq, Repr

structure EndpointGroup where
  ID : EndpointGroupID
  Name : String
  AuthorizedUsers : List UserID
  AuthorizedTeams : List TeamID
  deriving DecidableEq, Repr

structure Registry where
  ID : RegistryID
  Name : String
  URL : String
  Username : String
  Password : String
  AuthorizedUsers : List UserID
  AuthorizedTeams : List TeamID
  deriving DecidableEq, Repr

abbrev StackID := String

structure Pair where
  Name : String
  Value : String
  deriving DecidableEq, Repr

structure Stack where
  ID : StackID
  Name : String
  EntryPoint : String
  SwarmID : String
  ProjectPath : String
  Env : List Pair
  deriving DecidableEq, Repr

abbrev ResourceControlID := Int
abbrev ResourceControlType := Int
abbrev ResourceAccessLevel := Int

/-- Modelled from the spec: the resource-kind tags container, service, volume, network,
secret, stack and config, numbered in that order from 1; the declaration of the
`ResourceControlType` constants is not part of the available sources. -/
def ContainerResourceControl : ResourceControlType := 1
def ServiceResourceControl : ResourceControlType := 2
def VolumeResourceControl : ResourceControlType := 3
def NetworkResourceControl : ResourceControlType := 4
def SecretResourceControl : ResourceControlType := 5
def StackResourceControl : ResourceControlType := 6
def ConfigResourceControl : ResourceControlType := 7

/-- Modelled from the spec: the one access level, read-write. -/
def ReadWriteAccessLevel : ResourceAccessLevel := 1

structure UserResourceAccess where
  UserID : UserID
  AccessLevel : ResourceAccessLevel
  deriving DecidableEq, Repr

structure TeamResourceAccess where
  TeamID : TeamID
  AccessLevel : ResourceAccessLevel
  deriving DecidableEq, Repr

/-- An ownership record; the Go field `Type` is named `Type_`. -/
structure ResourceControl where
  ID : ResourceControlID := 0
  ResourceID : String
  SubResourceIDs : List String
  Type_ : ResourceControlType
  AdministratorsOnly : Bool
  UserAccesses : List UserResourceAccess
  TeamAccesses : List TeamResourceAccess
  deriving DecidableEq, Repr

/-! ## Package `security`: request context (bouncer.go) -/

/-- The per-request authorization snapshot of `bouncer.go`. -/
structure RestrictedRequestContext where
  IsAdmin : Bool
  IsTeamLeader : Bool
  UserID : UserID
  UserMemberships : List TeamMembership
  deriving DecidableEq, Repr

/-! ## Package `security`: access predicates

`authorization.go` is not part of the available sources; the three predicates that
`filter.go` and the proxy handlers call are modelled from section 4.1 of the specification. -/

/-- Modelled from the spec: the shared shape of the `Authorized*Access` predicates: the user
id is in the authorized-user list, or some membership's team id is in the authorized-team
list. -/
def authorizedAccess (userID : UserID) (memberships : List TeamMembership)
    (authorizedUsers : List UserID) (authorizedTeams : List TeamID) : Bool :=
  authorizedUsers.any (fun id => id == userID) ||
    memberships.any (fun membership => authorizedTeams.any (fun id => id == membership.TeamID))

/-- Modelled from the spec: `AuthorizedEndpointAccess` of the missing `authorization.go`:
true iff the user is authorized by the endpoint's own lists or by the lists of its group. -/
def AuthorizedEndpointAccess (endpoint : Endpoint) (endpointGroup : EndpointGroup)
    (userID : UserID) (memberships : List TeamMembership) : Bool :=
  authorizedAccess userID memberships endpointGroup.AuthorizedUsers endpointGroup.AuthorizedTeams ||
    authorizedAccess userID memberships endpoint.AuthorizedUsers endpoint.AuthorizedTeams

/-- Modelled from the spec: `AuthorizedEndpointGroupAccess` of the missing
`authorization.go`: the same shape on the group's own lists. -/
def AuthorizedEndpointGroupAccess (endpointGroup : EndpointGroup)
    (userID : UserID) (memberships : List TeamMembership) : Bool :=
  authorizedAccess userID memberships endpointGroup.AuthorizedUsers endpointGroup.AuthorizedTeams

/-- Modelled from the spec: `AuthorizedRegistryAccess` of the missing `authorization.go`:
the same shape on the registry's own lists. -/
def AuthorizedRegistryAccess (registry : Registry)
    (userID : UserID) (memberships : List TeamMembership) : Bool :=
  authorizedAccess userID memberships registry.AuthorizedUsers registry.AuthorizedTeams

/-! ## Package `security`: filter.go -/

/-- The inner loop of `FilterUserTeams` / `FilterLeaderTeams`: scan `teams` in order and
append the first team accepted by `p` to the accumulator, then `break`. -/
def appendFirstTeam (p : Team → Bool) : List Team → List Team → List Team
  | [], filteredTeams => filteredTeams
  | team :: rest, filteredTeams =>
    if p team then filteredTeams ++ [team] else appendFirstTeam p rest filteredTeams

/-- The outer loop of `FilterUserTeams` (filter.go, lines 12-19). -/
def filterUserTeamsLoop (teams : List Team) : List TeamMembership → List Team → List Team
  | [], filteredTeams => filteredTeams
  | membership :: rest, filteredTeams =>
    filterUserTeamsLoop teams rest
      (appendFirstTeam (fun team => team.ID == membership.TeamID) teams filteredTeams)

/-- `FilterUserTeams` (filter.go, lines 7-23). -/
def FilterUserTeams (teams : List Team) (context : RestrictedRequestContext) : List Team :=
  if !context.IsAdmin then
    filterUserTeamsLoop teams context.UserMemberships []
  else teams

/-- The outer loop of `FilterLeaderTeams` (filter.go, lines 32-39). -/
def filterLeaderTeamsLoop (teams : List Team) : List TeamMembership → List Team → List Team
  | [], filteredTeams => filteredTeams
  | membership :: rest, filteredTeams =>
    filterLeaderTeamsLoop teams rest
      (appendFirstTeam (fun team => team.ID == membership.TeamID && membership.Role == TeamLeader)
        teams filteredTeams)

/-- `FilterLeaderTeams` (filter.go, lines 27-43). -/
def FilterLeaderTeams (teams : List Team) (context : RestrictedRequestContext) : List Team :=
  if context.IsTeamLeader then
    filterLeaderTeamsLoop teams context.UserMemberships []
  else teams

/-- The loop of `FilterUsers` (filter.go, lines 53-57). -/
def filterUsersLoop : List User → List User → List User
  | [], filteredUsers => filteredUsers
  | user :: rest, filteredUsers =>
    if user.Role != AdministratorRole then filterUsersLoop rest (filteredUsers ++ [user])
    else filterUsersLoop rest filteredUsers

/-- `FilterUsers` (filter.go, lines 47-61). -/
def FilterUsers (users : List User) (context : RestrictedRequestContext) : List User :=
  if !context.IsAdmin then filterUsersLoop users [] else users

/-- The loop of `FilterRegistries` (filter.go, lines 71-75). -/
def filterRegistriesLoop (context : RestrictedRequestContext) :
    List Registry → List Registry → List Registry
  | [], filteredRegistries => filteredRegistries
  | registry :: rest, filteredRegistries =>
    if AuthorizedRegistryAccess registry context.UserID context.UserMemberships then
      filterRegistriesLoop context rest (filteredRegistries ++ [registry])
    else filterRegistriesLoop context rest filteredRegistries

/-- `FilterRegistries` (filter.go, lines 65-79): the filtered list and the (always nil)
error. -/
def FilterRegistries (registries : List Registry) (context : RestrictedRequestContext) :
    List Registry × Option Error :=
  if !context.IsAdmin then (filterRegistriesLoop context registries [], none)
  else (registries, none)

/-- `getAssociatedGroup` (filter.go, lines 119-126): the first group whose ID is the
endpoint's GroupID, `none` for the nil pointer. -/
def getAssociatedGroup (endpoint : Endpoint) : List EndpointGroup → Option EndpointGroup
  | [] => none
  | group :: rest => if group.ID == endpoint.GroupID then some group
                     else getAssociatedGroup endpoint rest

/-- The loop of `FilterEndpoints` (filter.go, lines 89-95). The group pointer returned by
`getAssociatedGroup` is handed to `AuthorizedEndpointAccess`, which reads the group's lists:
with a nil pointer the program stops with a nil-pointer dereference, modelled by `none`. -/
def filterEndpointsLoop (groups : List EndpointGroup) (context : RestrictedRequestContext) :
    List Endpoint → List Endpoint → Option (List Endpoint)
  | [], filteredEndpoints => some filteredEndpoints
  | endpoint :: rest, filteredEndpoints =>
    match getAssociatedGroup endpoint groups with
    | none => none
    | some endpointGroup =>
      if AuthorizedEndpointAccess endpoint endpointGroup context.UserID context.UserMemberships then
        filterEndpointsLoop groups context rest (filteredEndpoints ++ [endpoint])
      else filterEndpointsLoop groups context rest filteredEndpoints

/-- `FilterEndpoints` (filter.go, lines 83-99): `none` when the run stops with a nil-pointer
dereference, otherwise the filtered list and the (always nil) error. -/
def FilterEndpoints (endpoints : List Endpoint) (groups : List EndpointGroup)
    (context : RestrictedRequestContext) : Option (List Endpoint × Option Error) :=
  if !context.IsAdmin then
    (filterEndpointsLoop groups context endpoints []).map (fun filtered => (filtered, none))
  else some (endpoints, none)

/-- The loop of `FilterEndpointGroups` (filter.go, lines 109-113). -/
def filterEndpointGroupsLoop (context : RestrictedRequestContext) :
    List EndpointGroup → List EndpointGroup → List EndpointGroup
  | [], filteredEndpointGroups => filteredEndpointGroups
  | group :: rest, filteredEndpointGroups =>
    if AuthorizedEndpointGroupAccess group context.UserID context.UserMemberships then
      filterEndpointGroupsLoop context rest (filteredEndpointGroups ++ [group])
    else filterEndpointGroupsLoop context rest filteredEndpointGroups

/-- `FilterEndpointGroups` (filter.go, lines 103-117). -/
def FilterEndpointGroups (endpointGroups : List EndpointGroup)
    (context : RestrictedRequestContext) : List EndpointGroup × Option Error :=
  if !context.IsAdmin then (filterEndpointGroupsLoop context endpointGroups [], none)
  else (endpointGroups, none)

/-- The decision `FilterEndpoints` takes for one endpoint whose group is in the list. -/
def endpointKept (groups : List EndpointGroup) (context : RestrictedRequestContext)
    (endpoint : Endpoint) : Bool :=
  match groups.find? (fun g => g.ID == endpoint.GroupID) with
  | some endpointGroup =>
    AuthorizedEndpointAccess endpoint endpointGroup context.UserID context.UserMemberships
  | none => false


/-! ## HTTP layer: requests, events and collaborators -/

/-- Status codes of package `net/http` used by the handlers. -/
def StatusBadRequest : Nat := 400
def StatusUnauthorized : Nat := 401
def StatusForbidden : Nat := 403
def StatusInternalServerError : Nat := 500
def StatusNotFound : Nat := 404
def StatusConflict : Nat := 409
def StatusServiceUnavailable : Nat := 503

/-- The parts of an `*http.Request` the modelled code reads: the values of the
`Authorization` header (`none` when the key is absent from the header map), the `id` route
variable, the two values the security middleware stores in the request context, the text of
the body, the remaining route variables of `mux.Vars`, and the values and the files of
the request's form (the content of a file by the name of its field). -/
structure Request where
  Authorization : Option (List String)
  id : String
  tokenData : Option TokenData
  restrictedRequest : Option RestrictedRequestContext
  Body : String := ""
  vars : List (String × String) := []
  form : List (String × String) := []
  files : List (String × String) := []
  deriving DecidableEq, Repr

/-- A cached proxy handler, identified by a number. -/
abbrev Proxy := Nat

/-- The calls by which `handlePostStacksRepositoryMethod` and `handlePostStacksFileMethod`
bring the files of a new stack into place: `FileService.GetStackProjectPath`, the two
clone methods of the git service, and `FileService.StoreStackFileFromReader`. -/
inductive StackSourceCall where
  | GetStackProjectPath (stackIdentifier : String)
  | ClonePublicRepository (repositoryURL destination : String)
  | ClonePrivateRepositoryWithBasicAuth (repositoryURL destination username password : String)
  | StoreStackFileFromReader (stackIdentifier fileName content : String)
  deriving DecidableEq, Repr

set_option maxHeartbeats 1000000 in
/-- What a handler does that is visible outside of it, in program order: response writes,
calls to collaborator services, and a nil dereference that stops the run. -/
inductive Event where
  | HeaderAdd (key value : String)
  | WriteErrorResponse (err : Error) (code : Nat)
  | ParseAndVerifyToken (token : String)
  | User (id : UserID)
  | TeamMembershipsByUserID (userID : UserID)
  | Endpoint (id : EndpointID)
  | EndpointGroup (id : EndpointGroupID)
  | GetProxy (key : String)
  | CreateAndRegisterProxy (endpoint : Endpoint)
  | GetExtensionProxy (key : String)
  | CreateAndRegisterExtensionProxy (key : String) (url : String)
  | ServeProxy (stripped : String) (proxy : Proxy)
  | nilDereference
  | sliceBoundsOutOfRange
  | Endpoints
  | UpdateEndpoint (id : EndpointID) (endpoint : Endpoint)
  | DeleteEndpoint (id : EndpointID)
  | DeleteEndpointGroup (id : EndpointGroupID)
  | DeleteProxy (key : String)
  | DeleteExtensionProxies (key : String)
  | DeleteTLSFiles (folder : String)
  | ResourceControlByResourceID (resourceID : String)
  | CreateResourceControl (resourceControl : ResourceControl)
  | TeamMembership (id : TeamMembershipID)
  | CreateTeamMembership (membership : TeamMembership)
  | UpdateTeamMembership (id : TeamMembershipID) (membership : TeamMembership)
  | DeleteTeamMembership (id : TeamMembershipID)
  | encodeJSON (id : Int)
  | encodeJSONExtension (extension : Option EndpointExtension)
  | encodeJSONStack (stack : Stack) (resourceControl : ResourceControl)
  | encodeJSONString (id : String)
  | Lock (mutex : String)
  | Unlock (mutex : String)
  | Stack (id : StackID)
  | Stacks
  | CreateStack (stack : Stack)
  | DeleteStack (id : StackID)
  | StoreStackFileFromString (stackIdentifier fileName content : String)
  | RemoveDirectory (path : String)
  | DockerHub
  | Registries
  | Login (registries : List Registry) (endpoint : Endpoint)
  | Deploy (stack : Stack) (prune : Bool) (endpoint : Endpoint)
  | Logout (endpoint : Endpoint)
  | Remove (stack : Stack) (endpoint : Endpoint)
  | GetPathForTLSFile (folder : String) (fileType : Int)
  | DeleteTLSFile (folder : String) (fileType : Int)
  | StackSource (call : StackSourceCall)
  deriving DecidableEq, Repr

/-- An `http.Handler`: the events serving one request produces. -/
abbrev Handler := Request → List Event

/-- Interface `chainid.JWTService`, as far as the bouncer uses it. -/
structure JWTService where
  ParseAndVerifyToken : String → Except Error TokenData

/-- Interface `chainid.UserService`, as far as the bouncer uses it. -/
structure UserService where
  User : UserID → Except Error User

/-- Interface `chainid.TeamMembershipService`, as far as the modelled code uses it. -/
structure TeamMembershipService where
  TeamMembershipsByUserID : UserID → Except Error (List TeamMembership)

/-- Interface `chainid.EndpointService`, as far as the proxy handlers use it. -/
structure EndpointService where
  Endpoint : EndpointID → Except Error Endpoint

/-- Interface `chainid.EndpointGroupService`, as far as the proxy handlers use it. -/
structure EndpointGroupService where
  EndpointGroup : EndpointGroupID → Except Error EndpointGroup

/-- The operations of `proxy.Manager` the handlers call. The manager itself is not part of
the available sources; a lookup answers `none` for a nil handler. -/
structure ProxyManager where
  GetProxy : String → Option Proxy
  CreateAndRegisterProxy : Endpoint → Except Error Proxy
  GetExtensionProxy : String → Option Proxy
  CreateAndRegisterExtensionProxy : String → String → Except Error Proxy

/-- Go's `strings.TrimPrefix`. -/
def TrimPrefix (s pre : String) : String :=
  if pre.data.isPrefixOf s.data then String.mk (s.data.drop pre.data.length) else s

/-- Go's conversion `string(n)` of an integer: the UTF-8 text of the code point `n`, and
U+FFFD for a value that is not a valid code point. -/
def stringOfInt (n : Int) : String :=
  if 0 ≤ n ∧ Nat.isValidChar n.toNat then String.singleton (Char.ofNat n.toNat)
  else String.singleton (Char.ofNat 0xFFFD)

/-! ## Package `security`: context.go -/

/-- `storeTokenData` (context.go, lines 19-22). -/
def storeTokenData (request : Request) (tokenData : TokenData) : Request :=
  { request with tokenData := some tokenData }

/-- `RetrieveTokenData` (context.go, lines 24-33). -/
def RetrieveTokenData (request : Request) : Except Error TokenData :=
  match request.tokenData with
  | none => .error Error.ErrMissingContextData
  | some tokenData => .ok tokenData

/-- `storeRestrictedRequestContext` (context.go, lines 35-39). -/
def storeRestrictedRequestContext (request : Request)
    (requestContext : RestrictedRequestContext) : Request :=
  { request with restrictedRequest := some requestContext }

/-- `RetrieveRestrictedRequestContext` (context.go, lines 41-50). -/
def RetrieveRestrictedRequestContext (request : Request) :
    Except Error RestrictedRequestContext :=
  match request.restrictedRequest with
  | none => .error Error.ErrMissingSecurityContext
  | some requestContext => .ok requestContext

/-! ## Package `security`: bouncer.go -/

/-- `RequestBouncer` (bouncer.go, lines 11-17); `jwtService` is `none` for the nil interface
that `initJWTService` returns when authentication is disabled. -/
structure RequestBouncer where
  jwtService : Option JWTService
  userService : UserService
  teamMembershipService : TeamMembershipService
  authDisabled : Bool

/-- `initJWTService` (main.go, lines 70-79): the service built by `jwt.NewService` when
authentication is enabled, nil otherwise. -/
def initJWTService (authenticationEnabled : Bool) (newService : JWTService) :
    Option JWTService :=
  if authenticationEnabled then some newService else none

/-- `NewRequestBouncer` (bouncer.go, lines 31-38). -/
def NewRequestBouncer (jwtService : Option JWTService) (userService : UserService)
    (teamMembershipService : TeamMembershipService) (authDisabled : Bool) : RequestBouncer :=
  { jwtService := jwtService, userService := userService,
    teamMembershipService := teamMembershipService, authDisabled := authDisabled }

/-- `mwSecureHeaders` (bouncer.go, lines 74-80). -/
def mwSecureHeaders (next : Handler) : Handler := fun r =>
  Event.HeaderAdd "X-Content-Type-Options" "nosniff" ::
    Event.HeaderAdd "X-Frame-Options" "DENY" :: next r

/-- The loop of `newRestrictedContextRequest` (bouncer.go, lines 176-180). -/
def isTeamLeaderLoop : List TeamMembership → Bool → Bool
  | [], isTeamLeader => isTeamLeader
  | membership :: rest, isTeamLeader =>
    if membership.Role == TeamLeader then isTeamLeaderLoop rest true
    else isTeamLeaderLoop rest isTeamLeader

/-- `newRestrictedContextRequest` (bouncer.go, lines 162-187): the service calls made and
the returned `(context, error)` pair. -/
def newRestrictedContextRequest (bouncer : RequestBouncer) (userID : UserID)
    (userRole : UserRole) : List Event × Except Error RestrictedRequestContext :=
  let requestContext : RestrictedRequestContext :=
    { IsAdmin := true, IsTeamLeader := false, UserID := userID, UserMemberships := [] }
  if userRole != AdministratorRole then
    match bouncer.teamMembershipService.TeamMembershipsByUserID userID with
    | .error err => ([Event.TeamMembershipsByUserID userID], .error err)
    | .ok memberships =>
      ([Event.TeamMembershipsByUserID userID],
        .ok { requestContext with
              IsAdmin := false
              IsTeamLeader := isTeamLeaderLoop memberships false
              UserMemberships := memberships })
  else ([], .ok requestContext)

/-- `mwUpgradeToRestrictedRequest` (bouncer.go, lines 84-101). -/
def mwUpgradeToRestrictedRequest (bouncer : RequestBouncer) (next : Handler) : Handler :=
  fun r =>
    match RetrieveTokenData r with
    | .error _ => [Event.WriteErrorResponse Error.ErrResourceAccessDenied StatusForbidden]
    | .ok tokenData =>
      let result := newRestrictedContextRequest bouncer tokenData.ID tokenData.Role
      match result.2 with
      | .error err => result.1 ++ [Event.WriteErrorResponse err StatusInternalServerError]
      | .ok requestContext => result.1 ++ next (storeRestrictedRequestContext r requestContext)

/-- `mwCheckAdministratorRole` (bouncer.go, lines 104-114). -/
def mwCheckAdministratorRole (next : Handler) : Handler := fun r =>
  match RetrieveTokenData r with
  | .error _ => [Event.WriteErrorResponse Error.ErrResourceAccessDenied StatusForbidden]
  | .ok tokenData =>
    if tokenData.Role != AdministratorRole then
      [Event.WriteErrorResponse Error.ErrResourceAccessDenied StatusForbidden]
    else next r

/-- The token `mwCheckAuthentication` reads from the request (bouncer.go, lines 121-128):
the first `Authorization` value without a leading "Bearer ", the empty string when the
header is absent or has no value. -/
def bearerToken (r : Request) : String :=
  match r.Authorization with
  | some (first :: _) => TrimPrefix first "Bearer "
  | _ => ""

/-- `mwCheckAuthentication` (bouncer.go, lines 117-160). -/
def mwCheckAuthentication (bouncer : RequestBouncer) (next : Handler) : Handler := fun r =>
  if !bouncer.authDisabled then
    let token := bearerToken r
    if token == "" then
      [Event.WriteErrorResponse Error.ErrUnauthorized StatusUnauthorized]
    else
      match bouncer.jwtService with
      | none => [Event.nilDereference]
      | some jwtService =>
        Event.ParseAndVerifyToken token ::
          match jwtService.ParseAndVerifyToken token with
          | .error err => [Event.WriteErrorResponse err StatusUnauthorized]
          | .ok tokenData =>
            Event.User tokenData.ID ::
              match bouncer.userService.User tokenData.ID with
              | .error err =>
                if err == Error.ErrUserNotFound then
                  [Event.WriteErrorResponse Error.ErrUnauthorized StatusUnauthorized]
                else [Event.WriteErrorResponse err StatusInternalServerError]
              | .ok _ => next (storeTokenData r tokenData)
  else next (storeTokenData r { Role := AdministratorRole })

/-- `PublicAccess` (bouncer.go, lines 42-45). -/
def PublicAccess (_bouncer : RequestBouncer) (h : Handler) : Handler :=
  mwSecureHeaders h

/-- `AuthenticatedAccess` (bouncer.go, lines 49-53). -/
def AuthenticatedAccess (bouncer : RequestBouncer) (h : Handler) : Handler :=
  mwSecureHeaders (mwCheckAuthentication bouncer h)

/-- `RestrictedAccess` (bouncer.go, lines 59-63). -/
def RestrictedAccess (bouncer : RequestBouncer) (h : Handler) : Handler :=
  AuthenticatedAccess bouncer (mwUpgradeToRestrictedRequest bouncer h)

/-- `AdministratorAccess` (bouncer.go, lines 67-71). -/
def AdministratorAccess (bouncer : RequestBouncer) (h : Handler) : Handler :=
  AuthenticatedAccess bouncer (mwCheckAdministratorRole h)

/-! ## Package `handler`: the proxy handlers (docker.go, azure.go, extensions/storidge.go)

`strconv.Atoi` of the Go standard library is a parameter of the handlers. -/

/-- `DockerHandler` (docker.go, lines 19-26): the collaborators the handler calls. -/
structure DockerHandler where
  EndpointService : EndpointService
  EndpointGroupService : EndpointGroupService
  TeamMembershipService : TeamMembershipService
  ProxyManager : ProxyManager

/-- `AzureHandler` (azure.go, lines 19-26): the collaborators the handler calls. -/
structure AzureHandler where
  EndpointService : EndpointService
  EndpointGroupService : EndpointGroupService
  TeamMembershipService : TeamMembershipService
  ProxyManager : ProxyManager

/-- `StoridgeHandler` (storidge.go, lines 19-26): the collaborators the handler calls. -/
structure StoridgeHandler where
  EndpointService : EndpointService
  EndpointGroupService : EndpointGroupService
  TeamMembershipService : TeamMembershipService
  ProxyManager : ProxyManager

/-- The common tail of the Docker and Azure handlers (docker.go, lines 81-91; azure.go,
lines 91-101): look the proxy up under `string(endpointID)`, create and register it when
the lookup answers nil, and serve the request through it with `stripped` removed. -/
def serveEndpointProxy (manager : ProxyManager) (stripped : String) (endpointID : EndpointID)
    (endpoint : Endpoint) : List Event :=
  Event.GetProxy (stringOfInt endpointID) ::
    match manager.GetProxy (stringOfInt endpointID) with
    | some proxy => [Event.ServeProxy stripped proxy]
    | none =>
      Event.CreateAndRegisterProxy endpoint ::
        match manager.CreateAndRegisterProxy endpoint with
        | .error err => [Event.WriteErrorResponse err StatusInternalServerError]
        | .ok proxy => [Event.ServeProxy stripped proxy]

/-- `DockerHandler.proxyRequestsToDockerAPI` (docker.go, lines 39-92). -/
def proxyRequestsToDockerAPI (Atoi : String → Except Error Int) (handler : DockerHandler) :
    Handler := fun r =>
  let id := r.id
  match Atoi id with
  | .error err => [Event.WriteErrorResponse err StatusBadRequest]
  | .ok parsedID =>
    let endpointID : EndpointID := parsedID
    Event.Endpoint endpointID ::
      match handler.EndpointService.Endpoint endpointID with
      | .error err => [Event.WriteErrorResponse err StatusInternalServerError]
      | .ok endpoint =>
        match RetrieveTokenData r with
        | .error err => [Event.WriteErrorResponse err StatusInternalServerError]
        | .ok tokenData =>
          Event.TeamMembershipsByUserID tokenData.ID ::
            match handler.TeamMembershipService.TeamMembershipsByUserID tokenData.ID with
            | .error err => [Event.WriteErrorResponse err StatusInternalServerError]
            | .ok memberships =>
              if tokenData.Role != AdministratorRole then
                Event.EndpointGroup endpoint.GroupID ::
                  match handler.EndpointGroupService.EndpointGroup endpoint.GroupID with
                  | .error err => [Event.WriteErrorResponse err StatusInternalServerError]
                  | .ok group =>
                    if !AuthorizedEndpointAccess endpoint group tokenData.ID memberships then
                      [Event.WriteErrorResponse Error.ErrEndpointAccessDenied StatusForbidden]
                    else
                      serveEndpointProxy handler.ProxyManager ("/" ++ id ++ "/docker")
                        endpointID endpoint
              else
                serveEndpointProxy handler.ProxyManager ("/" ++ id ++ "/docker")
                  endpointID endpoint

/-- `AzureHandler.checkEndpointAccess` (azure.go, lines 39-55): the service calls made and
the returned error. -/
def checkEndpointAccess (handler : AzureHandler) (endpoint : Endpoint) (userID : UserID) :
    List Event × Option Error :=
  match handler.TeamMembershipService.TeamMembershipsByUserID userID with
  | .error err => ([Event.TeamMembershipsByUserID userID], some err)
  | .ok memberships =>
    match handler.EndpointGroupService.EndpointGroup endpoint.GroupID with
    | .error err =>
      ([Event.TeamMembershipsByUserID userID, Event.EndpointGroup endpoint.GroupID], some err)
    | .ok group =>
      if !AuthorizedEndpointAccess endpoint group userID memberships then
        ([Event.TeamMembershipsByUserID userID, Event.EndpointGroup endpoint.GroupID],
          some Error.ErrEndpointAccessDenied)
      else
        ([Event.TeamMembershipsByUserID userID, Event.EndpointGroup endpoint.GroupID], none)

/-- `AzureHandler.proxyRequestsToAzureAPI` (azure.go, lines 57-102). -/
def proxyRequestsToAzureAPI (Atoi : String → Except Error Int) (handler : AzureHandler) :
    Handler := fun r =>
  let id := r.id
  match Atoi id with
  | .error err => [Event.WriteErrorResponse err StatusBadRequest]
  | .ok parsedID =>
    let endpointID : EndpointID := parsedID
    Event.Endpoint endpointID ::
      match handler.EndpointService.Endpoint endpointID with
      | .error err => [Event.WriteErrorResponse err StatusInternalServerError]
      | .ok endpoint =>
        match RetrieveTokenData r with
        | .error err => [Event.WriteErrorResponse err StatusInternalServerError]
        | .ok tokenData =>
          if tokenData.Role != AdministratorRole then
            let result := checkEndpointAccess handler endpoint tokenData.ID
            match result.2 with
            | some err =>
              if err == Error.ErrEndpointAccessDenied then
                result.1 ++ [Event.WriteErrorResponse err StatusForbidden]
              else result.1 ++ [Event.WriteErrorResponse err StatusInternalServerError]
            | none =>
              result.1 ++ serveEndpointProxy handler.ProxyManager ("/" ++ id ++ "/azure")
                endpointID endpoint
          else
            serveEndpointProxy handler.ProxyManager ("/" ++ id ++ "/azure") endpointID endpoint

/-- The extension loop of the Storidge handler (storidge.go, lines 82-87). The loop stores
`&extension`, the address of the loop variable, which is one variable for the whole loop:
after the loop the pointer, when it was set, reads the value the variable holds last, the
last element of the list. -/
def storidgeExtensionLoop (extensions : List EndpointExtension) : Option EndpointExtension :=
  if extensions.any (fun extension => extension.Type_ == StoridgeEndpointExtension) then
    extensions.getLast?
  else none

/-- The tail of the Storidge handler (storidge.go, lines 82-105). -/
def serveStoridgeProxy (manager : ProxyManager) (stripped : String) (endpoint : Endpoint) :
    List Event :=
  match storidgeExtensionLoop endpoint.Extensions with
  | none =>
    [Event.WriteErrorResponse Error.ErrEndpointExtensionNotSupported StatusInternalServerError]
  | some storidgeExtension =>
    let proxyExtensionKey :=
      stringOfInt endpoint.ID ++ "_" ++ stringOfInt StoridgeEndpointExtension
    Event.GetExtensionProxy proxyExtensionKey ::
      match manager.GetExtensionProxy proxyExtensionKey with
      | some proxy => [Event.ServeProxy stripped proxy]
      | none =>
        Event.CreateAndRegisterExtensionProxy proxyExtensionKey storidgeExtension.URL ::
          match manager.CreateAndRegisterExtensionProxy proxyExtensionKey
              storidgeExtension.URL with
          | .error err => [Event.WriteErrorResponse err StatusInternalServerError]
          | .ok proxy => [Event.ServeProxy stripped proxy]

/-- `StoridgeHandler.proxyRequestsToStoridgeAPI` (storidge.go, lines 39-106). -/
def proxyRequestsToStoridgeAPI (Atoi : String → Except Error Int) (handler : StoridgeHandler) :
    Handler := fun r =>
  let id := r.id
  match Atoi id with
  | .error err => [Event.WriteErrorResponse err StatusBadRequest]
  | .ok parsedID =>
    let endpointID : EndpointID := parsedID
    Event.Endpoint endpointID ::
      match handler.EndpointService.Endpoint endpointID with
      | .error err => [Event.WriteErrorResponse err StatusInternalServerError]
      | .ok endpoint =>
        match RetrieveTokenData r with
        | .error err => [Event.WriteErrorResponse err StatusInternalServerError]
        | .ok tokenData =>
          Event.TeamMembershipsByUserID tokenData.ID ::
            match handler.TeamMembershipService.TeamMembershipsByUserID tokenData.ID with
            | .error err => [Event.WriteErrorResponse err StatusInternalServerError]
            | .ok memberships =>
              if tokenData.Role != AdministratorRole then
                Event.EndpointGroup endpoint.GroupID ::
                  match handler.EndpointGroupService.EndpointGroup endpoint.GroupID with
                  | .error err => [Event.WriteErrorResponse err StatusInternalServerError]
                  | .ok group =>
                    if !AuthorizedEndpointAccess endpoint group tokenData.ID memberships then
                      [Event.WriteErrorResponse Error.ErrEndpointAccessDenied StatusForbidden]
                    else
                      serveStoridgeProxy handler.ProxyManager
                        ("/" ++ id ++ "/extensions/storidge") endpoint
              else
                serveStoridgeProxy handler.ProxyManager
                  ("/" ++ id ++ "/extensions/storidge") endpoint

/-- The events that look a proxy up, create one, or serve a request through one. -/
def Event.isProxyEvent : Event → Bool
  | .GetProxy _ => true
  | .CreateAndRegisterProxy _ => true
  | .GetExtensionProxy _ => true
  | .CreateAndRegisterExtensionProxy _ _ => true
  | .ServeProxy _ _ => true
  | _ => false

/-- The events that fetch an endpoint group. -/
def Event.isEndpointGroupFetch : Event → Bool
  | .EndpointGroup _ => true
  | _ => false

/-- The events that are calls to the team-membership service. -/
def Event.isMembershipFetch : Event → Bool
  | .TeamMembershipsByUserID _ => true
  | _ => false

/-- The events that are calls to the token-verification or the user service. -/
def Event.isTokenOrUserCall : Event → Bool
  | .ParseAndVerifyToken _ => true
  | .User _ => true
  | _ => false

/-- The condition under which a non-administrator may reach a proxy: the route id parses,
the endpoint, its group (the group with id `endpoint.GroupID`) and the caller's memberships
are resolved, and `AuthorizedEndpointAccess` holds for them. -/
def endpointAccessGranted (Atoi : String → Except Error Int) (endpoints : EndpointService)
    (endpointGroups : EndpointGroupService) (teamMemberships : TeamMembershipService)
    (r : Request) (tokenData : TokenData) : Prop :=
  ∃ n endpoint group memberships,
    Atoi r.id = .ok n ∧ endpoints.Endpoint n = .ok endpoint ∧
    endpointGroups.EndpointGroup endpoint.GroupID = .ok group ∧
    teamMemberships.TeamMembershipsByUserID tokenData.ID = .ok memberships ∧
    AuthorizedEndpointAccess endpoint group tokenData.ID memberships = true

/-! ## Sample values used to instantiate the theorems -/

def sampleMembership : TeamMembership := { ID := 1, UserID := 7, TeamID := 5, Role := TeamMember }

def sampleLeaderMembership : TeamMembership :=
  { ID := 2, UserID := 7, TeamID := 6, Role := TeamLeader }

def sampleAdminContext : RestrictedRequestContext :=
  { IsAdmin := true, IsTeamLeader := false, UserID := 1, UserMemberships := [] }

def sampleUserContext : RestrictedRequestContext :=
  { IsAdmin := false, IsTeamLeader := false, UserID := 7, UserMemberships := [sampleMembership] }

def sampleGroups : List EndpointGroup :=
  [ { ID := 1, Name := "Unassigned", AuthorizedUsers := [], AuthorizedTeams := [] },
    { ID := 2, Name := "prod", AuthorizedUsers := [7], AuthorizedTeams := [] } ]

def sampleEndpoints : List Endpoint :=
  [ { ID := 1, Name := "a", URL := "tcp://a", GroupID := 1, AuthorizedUsers := [],
      AuthorizedTeams := [5], Extensions := [] },
    { ID := 2, Name := "b", URL := "tcp://b", GroupID := 2, AuthorizedUsers := [],
      AuthorizedTeams := [], Extensions := [] },
    { ID := 3, Name := "c", URL := "tcp://c", GroupID := 1, AuthorizedUsers := [9],
      AuthorizedTeams := [], Extensions := [] } ]

def sampleRegistries : List Registry :=
  [ { ID := 1, Name := "r1", URL := "reg.one", Username := "u1", Password := "p1",
      AuthorizedUsers := [7], AuthorizedTeams := [] },
    { ID := 2, Name := "r2", URL := "reg.two", Username := "u2", Password := "p2",
      AuthorizedUsers := [], AuthorizedTeams := [] } ]

def sampleTokenData : TokenData := { ID := 7, Username := "bob", Role := StandardUserRole }

def sampleAdminTokenData : TokenData := { ID := 1, Username := "admin", Role := AdministratorRole }

/-- A token verifier that accepts the tokens "good" (a standard user) and "root" (an
administrator). -/
def sampleJWTService : JWTService :=
  { ParseAndVerifyToken := fun token =>
      if token == "good" then .ok sampleTokenData
      else if token == "root" then .ok sampleAdminTokenData
      else .error (Error.other "invalid token") }

/-- A user store that knows the users 1 and 7. -/
def sampleUserService : UserService :=
  { User := fun id =>
      if id == 7 then .ok { ID := 7, Username := "bob", Role := StandardUserRole }
      else if id == 1 then .ok { ID := 1, Username := "admin", Role := AdministratorRole }
      else .error Error.ErrUserNotFound }

/-- A membership store that answers for every user. -/
def sampleTeamMembershipService : TeamMembershipService :=
  { TeamMembershipsByUserID := fun userID =>
      if userID == 7 then .ok [sampleMembership, sampleLeaderMembership] else .ok [] }

/-- A membership store that always fails. -/
def failingTeamMembershipService : TeamMembershipService :=
  { TeamMembershipsByUserID := fun _ => .error (Error.other "database closed") }

def sampleBouncer : RequestBouncer :=
  NewRequestBouncer (some sampleJWTService) sampleUserService sampleTeamMembershipService false

def failingBouncer : RequestBouncer :=
  NewRequestBouncer (some sampleJWTService) sampleUserService failingTeamMembershipService false

def noAuthBouncer : RequestBouncer :=
  NewRequestBouncer (initJWTService false sampleJWTService) sampleUserService
    sampleTeamMembershipService true

def sampleRequest : Request :=
  { Authorization := some ["Bearer good"], id := "2", tokenData := none,
    restrictedRequest := none }

def sampleAdminRequest : Request :=
  { Authorization := some ["Bearer root"], id := "2", tokenData := none,
    restrictedRequest := none }

def sampleAnonymousRequest : Request :=
  { Authorization := none, id := "2", tokenData := none, restrictedRequest := none }

/-- A wrapped handler that writes one header. -/
def sampleHandler : Handler := fun _ => [Event.HeaderAdd "X-Handled" "1"]

/-- A decimal parser that knows the ids "1", "2" and "3". -/
def sampleAtoi : String → Except Error Int := fun s =>
  if s == "1" then .ok 1 else if s == "2" then .ok 2 else if s == "3" then .ok 3
  else .error (Error.other "invalid syntax")

def sampleEndpointService : EndpointService :=
  { Endpoint := fun id =>
      match sampleEndpoints.find? (fun e => e.ID == id) with
      | some e => .ok e
      | none => .error (Error.other "endpoint not found") }

def sampleEndpointGroupService : EndpointGroupService :=
  { EndpointGroup := fun id =>
      match sampleGroups.find? (fun g => g.ID == id) with
      | some g => .ok g
      | none => .error (Error.other "endpoint group not found") }

/-- A proxy manager with an empty cache that builds proxy 0 on demand. -/
def sampleProxyManager : ProxyManager :=
  { GetProxy := fun _ => none
    CreateAndRegisterProxy := fun _ => .ok 0
    GetExtensionProxy := fun _ => none
    CreateAndRegisterExtensionProxy := fun _ _ => .ok 0 }

def sampleDockerHandler : DockerHandler :=
  { EndpointService := sampleEndpointService, EndpointGroupService := sampleEndpointGroupService,
    TeamMembershipService := sampleTeamMembershipService, ProxyManager := sampleProxyManager }

def sampleAzureHandler : AzureHandler :=
  { EndpointService := sampleEndpointService, EndpointGroupService := sampleEndpointGroupService,
    TeamMembershipService := sampleTeamMembershipService, ProxyManager := sampleProxyManager }

def sampleStoridgeHandler : StoridgeHandler :=
  { EndpointService := sampleEndpointService, EndpointGroupService := sampleEndpointGroupService,
    TeamMembershipService := sampleTeamMembershipService, ProxyManager := sampleProxyManager }

/-- An authenticated request of the standard user 7 for endpoint 3, which neither the
endpoint nor its group authorizes for that user. -/
def sampleDeniedRequest : Request :=
  { Authorization := some ["Bearer good"], id := "3", tokenData := some sampleTokenData,
    restrictedRequest := none }

/-! ## Package `proxy`: registry.go

The declarations of `registryAccessContext` and `registryAuthenticationHeader` are not part
of the available sources; the structures below hold the fields `registry.go` reads and
writes. -/

/-- The Dockerhub credential, as far as `registry.go` reads it. -/
structure DockerHub where
  Username : String
  Password : String
  deriving DecidableEq, Repr

/-- The access context of the registry credential injector; `dockerHub` is a pointer, `none`
is nil. -/
structure registryAccessContext where
  isAdmin : Bool
  userID : UserID
  teamMemberships : List TeamMembership
  registries : List Registry
  dockerHub : Option DockerHub
  deriving DecidableEq, Repr

/-- The header `registry.go` builds. -/
structure registryAuthenticationHeader where
  Username : String
  Password : String
  Serveraddress : String
  deriving DecidableEq, Repr

/-- The loop of `createRegistryAuthenticationHeader` (registry.go, lines 19-25): the first
registry, in list order, whose URL is the server address and which the caller may use. -/
def matchingRegistryLoop (serverAddress : String) (accessContext : registryAccessContext) :
    List Registry → Option Registry
  | [] => none
  | registry :: rest =>
    if registry.URL == serverAddress &&
        (accessContext.isAdmin ||
          (!accessContext.isAdmin &&
            AuthorizedRegistryAccess registry accessContext.userID
              accessContext.teamMemberships)) then
      some registry
    else matchingRegistryLoop serverAddress accessContext rest

/-- `createRegistryAuthenticationHeader` (registry.go, lines 8-37). The outer `none` is a run
that stops on the nil `dockerHub` pointer; `some none` is the nil header. -/
def createRegistryAuthenticationHeader (serverAddress : String)
    (accessContext : registryAccessContext) : Option (Option registryAuthenticationHeader) :=
  if serverAddress == "" then
    match accessContext.dockerHub with
    | none => none
    | some dockerHub =>
      some (some { Username := dockerHub.Username, Password := dockerHub.Password,
                   Serveraddress := "docker.io" })
  else
    match matchingRegistryLoop serverAddress accessContext accessContext.registries with
    | some matchingRegistry =>
      some (some { Username := matchingRegistry.Username, Password := matchingRegistry.Password,
                   Serveraddress := matchingRegistry.URL })
    | none => some none

/-- The test a registry has to pass to be selected for a server address. -/
def registrySelectable (serverAddress : String) (accessContext : registryAccessContext)
    (registry : Registry) : Bool :=
  registry.URL == serverAddress &&
    (accessContext.isAdmin ||
      AuthorizedRegistryAccess registry accessContext.userID accessContext.teamMemberships)

/-- The header that discloses the credentials of a registry. -/
def registryHeader (registry : Registry) : registryAuthenticationHeader :=
  { Username := registry.Username, Password := registry.Password,
    Serveraddress := registry.URL }

def sampleDockerHub : DockerHub := { Username := "hubuser", Password := "hubpass" }

def sampleAccessContext : registryAccessContext :=
  { isAdmin := false, userID := 7, teamMemberships := [sampleMembership],
    registries := sampleRegistries, dockerHub := some sampleDockerHub }

def sampleTeams : List Team :=
  [ { ID := 5, Name := "dev" }, { ID := 6, Name := "ops" }, { ID := 8, Name := "qa" } ]

/-! ## Package `bolt`: buckets and services

A BoltDB bucket is its sequence counter and its entries in cursor order. The services key
every record by `Itob(int(ID))`, the 8-byte big-endian text of `uint64(ID)`; BoltDB orders
keys bytewise, which for these keys is the numeric order of `uint64(ID)`, so a key is held
as that number. Values are the texts `encoding/json` writes; the marshalling functions of
package `internal` are a `Codec` parameter of the services. `Put` and `Delete` of BoltDB are
taken not to fail. -/

/-- Go's conversion `uint64(v)` of an `int`. -/
def uint64 (v : Int) : Nat := (v % 2 ^ 64).toNat

/-- Go's conversion `int(n)` of a `uint64`. -/
def intOfUint64 (n : Nat) : Int := if n % 2 ^ 64 < 2 ^ 63 then (n % 2 ^ 64 : Nat) else (n % 2 ^ 64 : Nat) - 2 ^ 64

structure Bucket (V : Type) where
  sequence : Nat
  entries : List (Nat × V)

/-- `bucket.Get(key)`: the value stored under the key, `none` for nil. -/
def Bucket.Get {V : Type} (bucket : Bucket V) (key : Nat) : Option V :=
  (bucket.entries.find? (fun entry => entry.1 == key)).map (fun entry => entry.2)

/-- Insert or replace in key order. -/
def putEntries {V : Type} (key : Nat) (value : V) : List (Nat × V) → List (Nat × V)
  | [] => [(key, value)]
  | (k, v) :: rest =>
    if key < k then (key, value) :: (k, v) :: rest
    else if key = k then (key, value) :: rest
    else (k, v) :: putEntries key value rest

/-- `bucket.Put(key, value)`. -/
def Bucket.Put {V : Type} (bucket : Bucket V) (key : Nat) (value : V) : Bucket V :=
  { bucket with entries := putEntries key value bucket.entries }

/-- `bucket.Delete(key)`. -/
def Bucket.Delete {V : Type} (bucket : Bucket V) (key : Nat) : Bucket V :=
  { bucket with entries := bucket.entries.filter (fun entry => entry.1 != key) }

/-- `bucket.NextSequence()`: the incremented counter and the bucket holding it. -/
def Bucket.NextSequence {V : Type} (bucket : Bucket V) : Nat × Bucket V :=
  (bucket.sequence + 1, { bucket with sequence := bucket.sequence + 1 })

/-- The pair `internal.MarshalX` / `internal.UnmarshalX` for one record type. -/
structure Codec (T V : Type) where
  Marshal : T → Except Error V
  Unmarshal : V → Except Error T

/-- The codec under which a stored value is the record itself: `encoding/json` taken to
write every record and to read back what it wrote. -/
def jsonRoundTrip (T : Type) : Codec T T := { Marshal := .ok, Unmarshal := .ok }

/-- The inner loop of `ResourceControlByResourceID` (resource_control_service.go, lines
58-62). -/
def subResourceIDsLoop (rc : ResourceControl) (resourceID : String) :
    List String → Option ResourceControl → Option ResourceControl
  | [], resourceControl => resourceControl
  | subResourceID :: rest, resourceControl =>
    if subResourceID == resourceID then subResourceIDsLoop rc resourceID rest (some rc)
    else subResourceIDsLoop rc resourceID rest resourceControl

/-- The cursor loop of `ResourceControlByResourceID` (resource_control_service.go, lines
49-63). -/
def resourceControlByResourceIDLoop {V : Type} (codec : Codec ResourceControl V)
    (resourceID : String) :
    List (Nat × V) → Option ResourceControl → Except Error (Option ResourceControl)
  | [], resourceControl => .ok resourceControl
  | (_, v) :: rest, resourceControl =>
    match codec.Unmarshal v with
    | .error err => .error err
    | .ok rc =>
      resourceControlByResourceIDLoop codec resourceID rest
        (subResourceIDsLoop rc resourceID rc.SubResourceIDs
          (if rc.ResourceID == resourceID then some rc else resourceControl))

/-- `ResourceControlService.ResourceControlByResourceID` (resource_control_service.go, lines
43-74). -/
def Bolt.ResourceControlByResourceID {V : Type} (codec : Codec ResourceControl V)
    (bucket : Bucket V) (resourceID : String) : Except Error ResourceControl :=
  match resourceControlByResourceIDLoop codec resourceID bucket.entries none with
  | .error err => .error err
  | .ok none => .error Error.ErrResourceControlNotFound
  | .ok (some resourceControl) => .ok resourceControl

/-- `ResourceControlService.CreateResourceControl` (resource_control_service.go, lines
102-118): the new bucket and the record with its ID set; a failed transaction leaves the
bucket as it was. -/
def Bolt.CreateResourceControl {V : Type} (codec : Codec ResourceControl V)
    (bucket : Bucket V) (resourceControl : ResourceControl) :
    Except Error (Bucket V × ResourceControl) :=
  let next := bucket.NextSequence
  let resourceControl := { resourceControl with ID := intOfUint64 next.1 }
  match codec.Marshal resourceControl with
  | .error err => .error err
  | .ok data => .ok (next.2.Put (uint64 resourceControl.ID) data, resourceControl)

/-- `EndpointService.Endpoint` (endpoint_service.go, lines 16-39). -/
def Bolt.Endpoint {V : Type} (codec : Codec Chainid.Endpoint V) (bucket : Bucket V)
    (ID : EndpointID) : Except Error Chainid.Endpoint :=
  match bucket.Get (uint64 ID) with
  | none => .error Error.ErrEndpointNotFound
  | some data => codec.Unmarshal data

/-- The cursor loop of `EndpointService.Endpoints` (endpoint_service.go, lines 47-55). -/
def endpointsLoop {V : Type} (codec : Codec Chainid.Endpoint V) :
    List (Nat × V) → List Chainid.Endpoint → Except Error (List Chainid.Endpoint)
  | [], endpoints => .ok endpoints
  | (_, v) :: rest, endpoints =>
    match codec.Unmarshal v with
    | .error err => .error err
    | .ok endpoint => endpointsLoop codec rest (endpoints ++ [endpoint])

/-- `EndpointService.Endpoints` (endpoint_service.go, lines 42-64). -/
def Bolt.Endpoints {V : Type} (codec : Codec Chainid.Endpoint V) (bucket : Bucket V) :
    Except Error (List Chainid.Endpoint) :=
  endpointsLoop codec bucket.entries []

/-- `EndpointService.UpdateEndpoint` (endpoint_service.go, lines 109-123). -/
def Bolt.UpdateEndpoint {V : Type} (codec : Codec Chainid.Endpoint V) (bucket : Bucket V)
    (ID : EndpointID) (endpoint : Chainid.Endpoint) : Except Error (Bucket V) :=
  match codec.Marshal endpoint with
  | .error err => .error err
  | .ok data => .ok (bucket.Put (uint64 ID) data)

/-- `EndpointService.DeleteEndpoint` (endpoint_service.go, lines 126-135). -/
def Bolt.DeleteEndpoint {V : Type} (bucket : Bucket V) (ID : EndpointID) :
    Except Error (Bucket V) :=
  .ok (bucket.Delete (uint64 ID))

/-- `EndpointGroupService.EndpointGroup` (endpoint_group_service.go, lines 16-39). -/
def Bolt.EndpointGroup {V : Type} (codec : Codec Chainid.EndpointGroup V) (bucket : Bucket V)
    (ID : EndpointGroupID) : Except Error Chainid.EndpointGroup :=
  match bucket.Get (uint64 ID) with
  | none => .error Error.ErrEndpointGroupNotFound
  | some data => codec.Unmarshal data

/-- `EndpointGroupService.DeleteEndpointGroup` (endpoint_group_service.go, lines 105-114). -/
def Bolt.DeleteEndpointGroup {V : Type} (bucket : Bucket V) (ID : EndpointGroupID) :
    Except Error (Bucket V) :=
  .ok (bucket.Delete (uint64 ID))

/-- `TeamMembershipService.TeamMembership` (team_membership_service.go, lines 16-39). -/
def Bolt.TeamMembership {V : Type} (codec : Codec Chainid.TeamMembership V) (bucket : Bucket V)
    (ID : TeamMembershipID) : Except Error Chainid.TeamMembership :=
  match bucket.Get (uint64 ID) with
  | none => .error Error.ErrTeamMembershipNotFound
  | some data => codec.Unmarshal data

/-- The cursor loop of `TeamMembershipsByUserID` (team_membership_service.go, lines
73-82). -/
def teamMembershipsByUserIDLoop {V : Type} (codec : Codec Chainid.TeamMembership V)
    (userID : UserID) :
    List (Nat × V) → List Chainid.TeamMembership → Except Error (List Chainid.TeamMembership)
  | [], memberships => .ok memberships
  | (_, v) :: rest, memberships =>
    match codec.Unmarshal v with
    | .error err => .error err
    | .ok membership =>
      if membership.UserID == userID then
        teamMembershipsByUserIDLoop codec userID rest (memberships ++ [membership])
      else teamMembershipsByUserIDLoop codec userID rest memberships

/-- `TeamMembershipService.TeamMembershipsByUserID` (team_membership_service.go, lines
67-91). -/
def Bolt.TeamMembershipsByUserID {V : Type} (codec : Codec Chainid.TeamMembership V)
    (bucket : Bucket V) (userID : UserID) : Except Error (List Chainid.TeamMembership) :=
  teamMembershipsByUserIDLoop codec userID bucket.entries []

/-- `TeamMembershipService.UpdateTeamMembership` (team_membership_service.go, lines
121-136). -/
def Bolt.UpdateTeamMembership {V : Type} (codec : Codec Chainid.TeamMembership V)
    (bucket : Bucket V) (ID : TeamMembershipID) (membership : Chainid.TeamMembership) :
    Except Error (Bucket V) :=
  match codec.Marshal membership with
  | .error err => .error err
  | .ok data => .ok (bucket.Put (uint64 ID) data)

/-- `TeamMembershipService.CreateTeamMembership` (team_membership_service.go, lines
139-157): the new bucket and the membership with its ID set. -/
def Bolt.CreateTeamMembership {V : Type} (codec : Codec Chainid.TeamMembership V)
    (bucket : Bucket V) (membership : Chainid.TeamMembership) :
    Except Error (Bucket V × Chainid.TeamMembership) :=
  let next := bucket.NextSequence
  let membership := { membership with ID := intOfUint64 next.1 }
  match codec.Marshal membership with
  | .error err => .error err
  | .ok data => .ok (next.2.Put (uint64 membership.ID) data, membership)

/-- `TeamMembershipService.DeleteTeamMembership` (team_membership_service.go, lines
160-169). -/
def Bolt.DeleteTeamMembership {V : Type} (bucket : Bucket V) (ID : TeamMembershipID) :
    Except Error (Bucket V) :=
  .ok (bucket.Delete (uint64 ID))

/-- The buckets the modelled handlers read and write, each holding its records under the
round-trip codec. -/
structure Store where
  endpoints : Bucket Endpoint
  endpointGroups : Bucket EndpointGroup
  teamMemberships : Bucket TeamMembership
  resourceControls : Bucket ResourceControl

/-- A resource id is matched by a record as its primary id or as one of its sub-resource
ids. -/
def ResourceControl.matchesResourceID (rc : ResourceControl) (resourceID : String) : Prop :=
  rc.ResourceID = resourceID ∨ resourceID ∈ rc.SubResourceIDs

instance (rc : ResourceControl) (resourceID : String) :
    Decidable (rc.matchesResourceID resourceID) := by
  unfold ResourceControl.matchesResourceID
  infer_instance

/-! ## Package `handler`: endpoint_group.go

The handlers below read and write the store through the services of package `bolt` under
the round-trip codec, and return the events they produce and the store they leave. -/

/-- The loop of `handleDeleteEndpointGroup` (endpoint_group.go, lines 354-363): every
endpoint of the listing that belongs to the deleted group is saved with `GroupID` 1. -/
def deleteEndpointGroupLoop (groupID : EndpointGroupID) :
    List Endpoint → Store → List Event × Store
  | [], store => ([], store)
  | endpoint :: rest, store =>
    if endpoint.GroupID == groupID then
      let endpoint := { endpoint with GroupID := (1 : EndpointGroupID) }
      match Bolt.UpdateEndpoint (jsonRoundTrip Endpoint) store.endpoints endpoint.ID
          endpoint with
      | .error err =>
        ([Event.UpdateEndpoint endpoint.ID endpoint,
          Event.WriteErrorResponse err StatusInternalServerError], store)
      | .ok bucket =>
        let result := deleteEndpointGroupLoop groupID rest { store with endpoints := bucket }
        (Event.UpdateEndpoint endpoint.ID endpoint :: result.1, result.2)
    else deleteEndpointGroupLoop groupID rest store

/-- `EndpointGroupHandler.handleDeleteEndpointGroup` (endpoint_group.go, lines 317-364). -/
def handleDeleteEndpointGroup (Atoi : String → Except Error Int) (store : Store)
    (r : Request) : List Event × Store :=
  let id := r.id
  match Atoi id with
  | .error err => ([Event.WriteErrorResponse err StatusBadRequest], store)
  | .ok endpointGroupID =>
    if endpointGroupID == 1 then
      ([Event.WriteErrorResponse Error.ErrCannotRemoveDefaultGroup StatusForbidden], store)
    else
      let groupID : EndpointGroupID := endpointGroupID
      match Bolt.EndpointGroup (jsonRoundTrip EndpointGroup) store.endpointGroups groupID with
      | .error err =>
        if err == Error.ErrEndpointGroupNotFound then
          ([Event.EndpointGroup groupID, Event.WriteErrorResponse err StatusNotFound], store)
        else
          ([Event.EndpointGroup groupID,
            Event.WriteErrorResponse err StatusInternalServerError], store)
      | .ok _ =>
        match Bolt.DeleteEndpointGroup store.endpointGroups endpointGroupID with
        | .error err =>
          ([Event.EndpointGroup groupID, Event.DeleteEndpointGroup endpointGroupID,
            Event.WriteErrorResponse err StatusInternalServerError], store)
        | .ok groups =>
          let store := { store with endpointGroups := groups }
          match Bolt.Endpoints (jsonRoundTrip Endpoint) store.endpoints with
          | .error err =>
            ([Event.EndpointGroup groupID, Event.DeleteEndpointGroup endpointGroupID,
              Event.Endpoints, Event.WriteErrorResponse err StatusInternalServerError], store)
          | .ok endpoints =>
            let result := deleteEndpointGroupLoop groupID endpoints store
            (Event.EndpointGroup groupID :: Event.DeleteEndpointGroup endpointGroupID ::
              Event.Endpoints :: result.1, result.2)

/-- The events that write to the store. -/
def Event.isStoreWrite : Event → Bool
  | .UpdateEndpoint _ _ => true
  | .DeleteEndpoint _ => true
  | .DeleteEndpointGroup _ => true
  | .CreateResourceControl _ => true
  | .CreateTeamMembership _ => true
  | .UpdateTeamMembership _ _ => true
  | .DeleteTeamMembership _ => true
  | _ => false

/-- The events that are error responses. -/
def Event.isErrorResponse : Event → Bool
  | .WriteErrorResponse _ _ => true
  | _ => false

/-- The keys of a bucket increase strictly along the cursor. -/
def Bucket.Sorted {V : Type} (bucket : Bucket V) : Prop :=
  (bucket.entries.map (fun entry => entry.1)).Pairwise (fun a b => a < b)

/-- Every endpoint is stored under the key of its own ID, and the keys increase along the
cursor: the shape `CreateEndpoint` and `UpdateEndpoint(endpoint.ID, endpoint)` keep. -/
def endpointsWellKeyed (bucket : Bucket Endpoint) : Prop :=
  bucket.Sorted ∧ ∀ entry ∈ bucket.entries, entry.1 = uint64 entry.2.ID

/-- What deleting group `groupID` does to one stored endpoint. -/
def reassignToDefaultGroup (groupID : EndpointGroupID) (endpoint : Endpoint) : Endpoint :=
  if endpoint.GroupID = groupID then { endpoint with GroupID := 1 } else endpoint

/-! ## Package `security`: management predicates

`authorization.go` is not part of the available sources; the two predicates the handlers
below call are modelled from the specification. -/

/-- Modelled from the spec: `AuthorizedResourceControlCreation` of the missing
`authorization.go`: an administrator may create any record; an administrators-only record
may only be created by an administrator; another caller may only create a record that
designates the caller, or a team the caller belongs to, as owner. -/
def AuthorizedResourceControlCreation (resourceControl : ResourceControl)
    (context : RestrictedRequestContext) : Bool :=
  if context.IsAdmin then true
  else if resourceControl.AdministratorsOnly then false
  else
    resourceControl.UserAccesses.all (fun access => access.UserID == context.UserID) &&
    resourceControl.TeamAccesses.all (fun access =>
      context.UserMemberships.any (fun membership => membership.TeamID == access.TeamID)) &&
    (!resourceControl.UserAccesses.isEmpty || !resourceControl.TeamAccesses.isEmpty)

/-- Modelled from the spec: `AuthorizedTeamManagement` of the missing `authorization.go`:
an administrator manages every team; leadership grants management rights over that team's
memberships only. -/
def AuthorizedTeamManagement (teamID : TeamID) (context : RestrictedRequestContext) : Bool :=
  context.IsAdmin ||
    context.UserMemberships.any
      (fun membership => membership.TeamID == teamID && membership.Role == TeamLeader)

/-! ## Package `handler`: resource_control.go

`json.NewDecoder(r.Body).Decode` is a parameter of the handlers that read a body: it answers
the decoded request, `none` for a decoding error. `govalidator.ValidateStruct` accepts a
request when the fields tagged `required` are not the zero value. -/

/-- `postResourcesRequest` (resource_control.go, lines 43-50); the Go field `Type` is named
`Type_`. -/
structure postResourcesRequest where
  ResourceID : String
  Type_ : String
  AdministratorsOnly : Bool
  Users : List Int
  Teams : List Int
  SubResourceIDs : List String
  deriving DecidableEq, Repr

/-- `govalidator.ValidateStruct` on a `postResourcesRequest`: `ResourceID` and `Type` are
required. -/
def postResourcesRequest.ValidateStruct (req : postResourcesRequest) : Bool :=
  req.ResourceID != "" && req.Type_ != ""

/-- The `switch req.Type` of `handlePostResources` (resource_control.go, lines 73-92). -/
def resourceControlTypeOf (type : String) : Option ResourceControlType :=
  if type == "container" then some ContainerResourceControl
  else if type == "service" then some ServiceResourceControl
  else if type == "volume" then some VolumeResourceControl
  else if type == "network" then some NetworkResourceControl
  else if type == "secret" then some SecretResourceControl
  else if type == "stack" then some StackResourceControl
  else if type == "config" then some ConfigResourceControl
  else none

/-- `ResourceHandler.handlePostResources` (resource_control.go, lines 60-154). -/
def handlePostResources (Decode : String → Option postResourcesRequest) (store : Store)
    (r : Request) : List Event × Store :=
  match Decode r.Body with
  | none => ([Event.WriteErrorResponse Error.ErrInvalidJSON StatusBadRequest], store)
  | some req =>
    if !req.ValidateStruct then
      ([Event.WriteErrorResponse Error.ErrInvalidRequestFormat StatusBadRequest], store)
    else
      match resourceControlTypeOf req.Type_ with
      | none =>
        ([Event.WriteErrorResponse Error.ErrInvalidResourceControlType StatusBadRequest],
          store)
      | some resourceControlType =>
        if req.Users.length == 0 && req.Teams.length == 0 && !req.AdministratorsOnly then
          ([Event.WriteErrorResponse Error.ErrInvalidRequestFormat StatusBadRequest], store)
        else
          let lookup := Bolt.ResourceControlByResourceID (jsonRoundTrip ResourceControl)
            store.resourceControls req.ResourceID
          match lookup with
          | .ok _ =>
            ([Event.ResourceControlByResourceID req.ResourceID,
              Event.WriteErrorResponse Error.ErrResourceControlAlreadyExists StatusConflict],
              store)
          | .error err =>
            if err != Error.ErrResourceControlNotFound then
              ([Event.ResourceControlByResourceID req.ResourceID,
                Event.WriteErrorResponse err StatusInternalServerError], store)
            else
              let userAccesses : List UserResourceAccess :=
                req.Users.map (fun v => { UserID := v, AccessLevel := ReadWriteAccessLevel })
              let teamAccesses : List TeamResourceAccess :=
                req.Teams.map (fun v => { TeamID := v, AccessLevel := ReadWriteAccessLevel })
              let resourceControl : ResourceControl :=
                { ResourceID := req.ResourceID, SubResourceIDs := req.SubResourceIDs,
                  Type_ := resourceControlType, AdministratorsOnly := req.AdministratorsOnly,
                  UserAccesses := userAccesses, TeamAccesses := teamAccesses }
              match RetrieveRestrictedRequestContext r with
              | .error err =>
                ([Event.ResourceControlByResourceID req.ResourceID,
                  Event.WriteErrorResponse err StatusInternalServerError], store)
              | .ok securityContext =>
                if !AuthorizedResourceControlCreation resourceControl securityContext then
                  ([Event.ResourceControlByResourceID req.ResourceID,
                    Event.WriteErrorResponse Error.ErrResourceAccessDenied StatusForbidden],
                    store)
                else
                  match Bolt.CreateResourceControl (jsonRoundTrip ResourceControl)
                      store.resourceControls resourceControl with
                  | .error err =>
                    ([Event.ResourceControlByResourceID req.ResourceID,
                      Event.CreateResourceControl resourceControl,
                      Event.WriteErrorResponse err StatusInternalServerError], store)
                  | .ok created =>
                    ([Event.ResourceControlByResourceID req.ResourceID,
                      Event.CreateResourceControl resourceControl],
                      { store with resourceControls := created.1 })

/-- Ownership uniqueness: every resource id is matched, as primary id or as sub-resource
id, by at most one stored record. -/
def ownershipUnique (bucket : Bucket ResourceControl) : Prop :=
  ∀ resourceID, ∀ e1 ∈ bucket.entries, ∀ e2 ∈ bucket.entries,
    e1.2.matchesResourceID resourceID → e2.2.matchesResourceID resourceID → e1 = e2

/-! ## Package `handler`: team_membership.go -/

/-- `postTeamMembershipsRequest` and `putTeamMembershipRequest` (team_membership.go, lines
46-60) have the same three required fields. -/
structure teamMembershipRequest where
  UserID : Int
  TeamID : Int
  Role : Int
  deriving DecidableEq, Repr

/-- `govalidator.ValidateStruct` on a team-membership request: the three fields are
required. -/
def teamMembershipRequest.ValidateStruct (req : teamMembershipRequest) : Bool :=
  req.UserID != 0 && req.TeamID != 0 && req.Role != 0

/-- The duplicate check of `handlePostTeamMemberships` (team_membership.go, lines 97-104):
true when the loop answers 409. -/
def membershipExistsLoop (userID : UserID) (teamID : TeamID) : List TeamMembership → Bool
  | [] => false
  | membership :: rest =>
    if membership.UserID == userID && membership.TeamID == teamID then true
    else membershipExistsLoop userID teamID rest

/-- `TeamMembershipHandler.handlePostTeamMemberships` (team_membership.go, lines 64-119). -/
def handlePostTeamMemberships (Decode : String → Option teamMembershipRequest) (store : Store)
    (r : Request) : List Event × Store :=
  match RetrieveRestrictedRequestContext r with
  | .error err => ([Event.WriteErrorResponse err StatusInternalServerError], store)
  | .ok securityContext =>
    match Decode r.Body with
    | none => ([Event.WriteErrorResponse Error.ErrInvalidJSON StatusBadRequest], store)
    | some req =>
      if !req.ValidateStruct then
        ([Event.WriteErrorResponse Error.ErrInvalidRequestFormat StatusBadRequest], store)
      else
        let userID : UserID := req.UserID
        let teamID : TeamID := req.TeamID
        let role : MembershipRole := req.Role
        if !AuthorizedTeamManagement teamID securityContext then
          ([Event.WriteErrorResponse Error.ErrResourceAccessDenied StatusForbidden], store)
        else
          match Bolt.TeamMembershipsByUserID (jsonRoundTrip TeamMembership)
              store.teamMemberships userID with
          | .error err =>
            ([Event.TeamMembershipsByUserID userID,
              Event.WriteErrorResponse err StatusInternalServerError], store)
          | .ok memberships =>
            if membershipExistsLoop userID teamID memberships then
              ([Event.TeamMembershipsByUserID userID,
                Event.WriteErrorResponse Error.ErrTeamMembershipAlreadyExists StatusConflict],
                store)
            else
              let membership : TeamMembership :=
                { ID := 0, UserID := userID, TeamID := teamID, Role := role }
              match Bolt.CreateTeamMembership (jsonRoundTrip TeamMembership)
                  store.teamMemberships membership with
              | .error err =>
                ([Event.TeamMembershipsByUserID userID, Event.CreateTeamMembership membership,
                  Event.WriteErrorResponse err StatusInternalServerError], store)
              | .ok created =>
                ([Event.TeamMembershipsByUserID userID, Event.CreateTeamMembership membership,
                  Event.encodeJSON created.2.ID],
                  { store with teamMemberships := created.1 })

/-- `TeamMembershipHandler.handlePutTeamMembership` (team_membership.go, lines 144-204). -/
def handlePutTeamMembership (Atoi : String → Except Error Int)
    (Decode : String → Option teamMembershipRequest) (store : Store) (r : Request) :
    List Event × Store :=
  let id := r.id
  match Atoi id with
  | .error err => ([Event.WriteErrorResponse err StatusBadRequest], store)
  | .ok membershipID =>
    match Decode r.Body with
    | none => ([Event.WriteErrorResponse Error.ErrInvalidJSON StatusBadRequest], store)
    | some req =>
      if !req.ValidateStruct then
        ([Event.WriteErrorResponse Error.ErrInvalidRequestFormat StatusBadRequest], store)
      else
        let userID : UserID := req.UserID
        let teamID : TeamID := req.TeamID
        let role : MembershipRole := req.Role
        match RetrieveRestrictedRequestContext r with
        | .error err => ([Event.WriteErrorResponse err StatusInternalServerError], store)
        | .ok securityContext =>
          if !AuthorizedTeamManagement teamID securityContext then
            ([Event.WriteErrorResponse Error.ErrResourceAccessDenied StatusForbidden], store)
          else
            match Bolt.TeamMembership (jsonRoundTrip TeamMembership) store.teamMemberships
                membershipID with
            | .error err =>
              if err == Error.ErrTeamMembershipNotFound then
                ([Event.TeamMembership membershipID,
                  Event.WriteErrorResponse err StatusNotFound], store)
              else
                ([Event.TeamMembership membershipID,
                  Event.WriteErrorResponse err StatusInternalServerError], store)
            | .ok membership =>
              if securityContext.IsTeamLeader && membership.Role != role then
                ([Event.TeamMembership membershipID,
                  Event.WriteErrorResponse Error.ErrResourceAccessDenied StatusForbidden],
                  store)
              else
                let membership : TeamMembership :=
                  { membership with UserID := userID, TeamID := teamID, Role := role }
                match Bolt.UpdateTeamMembership (jsonRoundTrip TeamMembership)
                    store.teamMemberships membership.ID membership with
                | .error err =>
                  ([Event.TeamMembership membershipID,
                    Event.UpdateTeamMembership membership.ID membership,
                    Event.WriteErrorResponse err StatusInternalServerError], store)
                | .ok bucket =>
                  ([Event.TeamMembership membershipID,
                    Event.UpdateTeamMembership membership.ID membership],
                    { store with teamMemberships := bucket })

/-- `TeamMembershipHandler.handleDeleteTeamMembership` (team_membership.go, lines
207-242). -/
def handleDeleteTeamMembership (Atoi : String → Except Error Int) (store : Store)
    (r : Request) : List Event × Store :=
  let id := r.id
  match Atoi id with
  | .error err => ([Event.WriteErrorResponse err StatusBadRequest], store)
  | .ok membershipID =>
    match Bolt.TeamMembership (jsonRoundTrip TeamMembership) store.teamMemberships
        membershipID with
    | .error err =>
      if err == Error.ErrTeamMembershipNotFound then
        ([Event.TeamMembership membershipID, Event.WriteErrorResponse err StatusNotFound],
          store)
      else
        ([Event.TeamMembership membershipID,
          Event.WriteErrorResponse err StatusInternalServerError], store)
    | .ok membership =>
      match RetrieveRestrictedRequestContext r with
      | .error err =>
        ([Event.TeamMembership membershipID,
          Event.WriteErrorResponse err StatusInternalServerError], store)
      | .ok securityContext =>
        if !AuthorizedTeamManagement membership.TeamID securityContext then
          ([Event.TeamMembership membershipID,
            Event.WriteErrorResponse Error.ErrResourceAccessDenied StatusForbidden], store)
        else
          match Bolt.DeleteTeamMembership store.teamMemberships membershipID with
          | .error err =>
            ([Event.TeamMembership membershipID, Event.DeleteTeamMembership membershipID,
              Event.WriteErrorResponse err StatusInternalServerError], store)
          | .ok bucket =>
            ([Event.TeamMembership membershipID, Event.DeleteTeamMembership membershipID],
              { store with teamMemberships := bucket })

/-! ## Package `proxy`: the proxy cache

`manager.go` is not part of the available sources; the cache and the operations on it are
modelled from section 4.3 of the specification. -/

/-- Modelled from the spec: the cache owned by `proxy.Manager`, a key-to-handler map for the
endpoint proxies and one for the extension proxies. -/
structure ProxyCache where
  proxies : List (String × Proxy)
  extensionProxies : List (String × Proxy)

/-- Modelled from the spec: `GetProxy(key)`, a pure cache lookup. -/
def ProxyCache.GetProxy (cache : ProxyCache) (key : String) : Option Proxy :=
  (cache.proxies.find? (fun entry => entry.1 == key)).map (fun entry => entry.2)

/-- Modelled from the spec: `GetExtensionProxy(key)`, a pure cache lookup. -/
def ProxyCache.GetExtensionProxy (cache : ProxyCache) (key : String) : Option Proxy :=
  (cache.extensionProxies.find? (fun entry => entry.1 == key)).map (fun entry => entry.2)

/-- Modelled from the spec: `DeleteProxy(key)` evicts the entry of the key. -/
def ProxyCache.DeleteProxy (cache : ProxyCache) (key : String) : ProxyCache :=
  { cache with proxies := cache.proxies.filter (fun entry => entry.1 != key) }

/-- Modelled from the spec: `DeleteExtensionProxies(endpointIDPrefix)` evicts every extension
proxy keyed under the endpoint id, the entries whose key starts with the id and "_". -/
def ProxyCache.DeleteExtensionProxies (cache : ProxyCache) (key : String) : ProxyCache :=
  { cache with
    extensionProxies :=
      cache.extensionProxies.filter
        (fun entry => !(List.isPrefixOf (key ++ "_").data entry.1.data)) }

/-! ## Package `handler`: endpoint.go -/

/-- `EndpointHandler` (endpoint.go, lines 23-31): the management switch, and
`FileService.DeleteTLSFiles` answering the error it returns. -/
structure EndpointHandler where
  authorizeEndpointManagement : Bool
  DeleteTLSFiles : String → Option Error

/-- `EndpointHandler.handleDeleteEndpoint` (endpoint.go, lines 571-612): the events, the
store and the proxy cache it leaves. -/
def handleDeleteEndpoint (Atoi : String → Except Error Int) (handler : EndpointHandler)
    (store : Store) (cache : ProxyCache) (r : Request) : List Event × Store × ProxyCache :=
  if !handler.authorizeEndpointManagement then
    ([Event.WriteErrorResponse Error.ErrEndpointManagementDisabled StatusServiceUnavailable],
      store, cache)
  else
    let id := r.id
    match Atoi id with
    | .error err => ([Event.WriteErrorResponse err StatusBadRequest], store, cache)
    | .ok endpointID =>
      match Bolt.Endpoint (jsonRoundTrip Endpoint) store.endpoints endpointID with
      | .error err =>
        if err == Error.ErrEndpointNotFound then
          ([Event.Endpoint endpointID, Event.WriteErrorResponse err StatusNotFound],
            store, cache)
        else
          ([Event.Endpoint endpointID,
            Event.WriteErrorResponse err StatusInternalServerError], store, cache)
      | .ok endpoint =>
        let cache := cache.DeleteProxy (stringOfInt endpointID)
        let cache := cache.DeleteExtensionProxies (stringOfInt endpointID)
        match Bolt.DeleteEndpoint store.endpoints endpointID with
        | .error err =>
          ([Event.Endpoint endpointID, Event.DeleteProxy (stringOfInt endpointID),
            Event.DeleteExtensionProxies (stringOfInt endpointID),
            Event.DeleteEndpoint endpointID,
            Event.WriteErrorResponse err StatusInternalServerError], store, cache)
        | .ok bucket =>
          let store := { store with endpoints := bucket }
          if endpoint.TLSConfig.TLS then
            match handler.DeleteTLSFiles id with
            | some err =>
              ([Event.Endpoint endpointID, Event.DeleteProxy (stringOfInt endpointID),
                Event.DeleteExtensionProxies (stringOfInt endpointID),
                Event.DeleteEndpoint endpointID, Event.DeleteTLSFiles id,
                Event.WriteErrorResponse err StatusInternalServerError], store, cache)
            | none =>
              ([Event.Endpoint endpointID, Event.DeleteProxy (stringOfInt endpointID),
                Event.DeleteExtensionProxies (stringOfInt endpointID),
                Event.DeleteEndpoint endpointID, Event.DeleteTLSFiles id], store, cache)
          else
            ([Event.Endpoint endpointID, Event.DeleteProxy (stringOfInt endpointID),
              Event.DeleteExtensionProxies (stringOfInt endpointID),
              Event.DeleteEndpoint endpointID], store, cache)

/-! ## Package `internal`: Itob (internal.go) -/

/-- `binary.BigEndian.PutUint64` into a fresh 8-byte slice: the bytes of `v`, most
significant first. -/
def PutUint64 (v : Nat) : List Nat :=
  [v / 2 ^ 56 % 256, v / 2 ^ 48 % 256, v / 2 ^ 40 % 256, v / 2 ^ 32 % 256,
   v / 2 ^ 24 % 256, v / 2 ^ 16 % 256, v / 2 ^ 8 % 256, v % 256]

/-- `Itob` (internal.go, lines 113-117). -/
def Itob (v : Int) : List Nat := PutUint64 (uint64 v)

/-- The number a byte sequence denotes, most significant byte first. -/
def bigEndianValue : List Nat → Nat
  | [] => 0
  | b :: rest => b * 256 ^ rest.length + bigEndianValue rest

/-- `bytes.Compare(a, b) < 0`: the bytewise order BoltDB keeps its keys in. -/
def bytesLess : List Nat → List Nat → Bool
  | [], [] => false
  | [], _ :: _ => true
  | _ :: _, [] => false
  | a :: as, b :: bs => decide (a < b) || (a == b && bytesLess as bs)

/-! ## Package `handler`: extensions.go -/

/-- `mux.Vars(r)[key]`: the route variable, the empty string when the key is absent. -/
def Request.var (r : Request) (key : String) : String :=
  match r.vars.find? (fun entry => entry.1 == key) with
  | some entry => entry.2
  | none => ""

/-- `postExtensionRequest` (extensions.go, lines 42-45); the Go field `Type` is named
`Type_`. -/
structure postExtensionRequest where
  Type_ : Int
  URL : String
  deriving DecidableEq, Repr

/-- `govalidator.ValidateStruct` on a `postExtensionRequest`: both fields are required. -/
def postExtensionRequest.ValidateStruct (req : postExtensionRequest) : Bool :=
  req.Type_ != 0 && req.URL != ""

/-- The loop of `handlePostExtensions` (extensions.go, lines 82-86). It stores `&ext`, the
address of the loop variable: a copy of the element, and one variable for the whole loop.
After the loop the pointer, when it was set, reads what the variable holds last, a copy of
the last element of the list; it never points into `endpoint.Extensions`. -/
def postExtensionsLoop (extensionType : EndpointExtensionType)
    (extensions : List EndpointExtension) : Option EndpointExtension :=
  if extensions.any (fun ext => ext.Type_ == extensionType) then extensions.getLast?
  else none

/-- `ExtensionHandler.handlePostExtensions` (extensions.go, lines 48-105). -/
def handlePostExtensions (Atoi : String → Except Error Int)
    (Decode : String → Option postExtensionRequest) (store : Store) (r : Request) :
    List Event × Store :=
  match Atoi (r.var "endpointId") with
  | .error err => ([Event.WriteErrorResponse err StatusBadRequest], store)
  | .ok id =>
    let endpointID : EndpointID := id
    match Bolt.Endpoint (jsonRoundTrip Endpoint) store.endpoints endpointID with
    | .error err =>
      if err == Error.ErrEndpointNotFound then
        ([Event.Endpoint endpointID, Event.WriteErrorResponse err StatusNotFound], store)
      else
        ([Event.Endpoint endpointID,
          Event.WriteErrorResponse err StatusInternalServerError], store)
    | .ok endpoint =>
      match Decode r.Body with
      | none =>
        ([Event.Endpoint endpointID,
          Event.WriteErrorResponse Error.ErrInvalidJSON StatusBadRequest], store)
      | some req =>
        if !req.ValidateStruct then
          ([Event.Endpoint endpointID,
            Event.WriteErrorResponse Error.ErrInvalidRequestFormat StatusBadRequest], store)
        else
          let extensionType : EndpointExtensionType := req.Type_
          let found := postExtensionsLoop extensionType endpoint.Extensions
          let extension : EndpointExtension :=
            match found with
            | some ext => { ext with URL := req.URL }
            | none => { Type_ := extensionType, URL := req.URL }
          let endpoint : Endpoint :=
            match found with
            | some _ => endpoint
            | none => { endpoint with Extensions := endpoint.Extensions ++ [extension] }
          match Bolt.UpdateEndpoint (jsonRoundTrip Endpoint) store.endpoints endpoint.ID
              endpoint with
          | .error err =>
            ([Event.Endpoint endpointID, Event.UpdateEndpoint endpoint.ID endpoint,
              Event.WriteErrorResponse err StatusInternalServerError], store)
          | .ok bucket =>
            ([Event.Endpoint endpointID, Event.UpdateEndpoint endpoint.ID endpoint,
              Event.encodeJSONExtension (some extension)],
              { store with endpoints := bucket })

/-- The statement `endpoint.Extensions = append(endpoint.Extensions[:idx],
endpoint.Extensions[idx+1:]...)` (extensions.go, line 134) on the slice of length `len` over
the backing array `array`: the slice expression `[idx+1:]` fails when `idx + 1` exceeds the
length (`none`); otherwise the elements after `idx` move one place down inside the array,
the places from `len - 1` on keep what they held, and the slice is one shorter. -/
def removeExtensionAt (array : List EndpointExtension) (len idx : Nat) :
    Option (List EndpointExtension × Nat) :=
  if idx + 1 ≤ len then
    some (array.take idx ++ (array.drop (idx + 1)).take (len - (idx + 1)) ++
      array.drop (len - 1), len - 1)
  else none

/-- The loop of `handleDeleteExtensions` (extensions.go, lines 132-136). The range
expression is evaluated once: the loop visits the places `idx`, `idx + 1`, ... of the
backing array, `remaining` of them, and reads each place as the array holds it at that
moment. `none` is a run that stops on a slice bound. -/
def deleteExtensionsLoop (extensionType : EndpointExtensionType) :
    Nat → Nat → List EndpointExtension → Nat → Option (List EndpointExtension × Nat)
  | _, 0, array, len => some (array, len)
  | idx, remaining + 1, array, len =>
    match array[idx]? with
    | none => none
    | some ext =>
      if ext.Type_ == extensionType then
        match removeExtensionAt array len idx with
        | none => none
        | some next => deleteExtensionsLoop extensionType (idx + 1) remaining next.1 next.2
      else deleteExtensionsLoop extensionType (idx + 1) remaining array len

/-- The value of `endpoint.Extensions` after the loop of `handleDeleteExtensions`. -/
def deleteExtensions (extensionType : EndpointExtensionType)
    (extensions : List EndpointExtension) : Option (List EndpointExtension) :=
  (deleteExtensionsLoop extensionType 0 extensions.length extensions extensions.length).map
    (fun result => result.1.take result.2)

/-- `ExtensionHandler.handleDeleteExtensions` (extensions.go, lines 107-143). -/
def handleDeleteExtensions (Atoi : String → Except Error Int) (store : Store) (r : Request) :
    List Event × Store :=
  match Atoi (r.var "endpointId") with
  | .error err => ([Event.WriteErrorResponse err StatusBadRequest], store)
  | .ok id =>
    let endpointID : EndpointID := id
    match Bolt.Endpoint (jsonRoundTrip Endpoint) store.endpoints endpointID with
    | .error err =>
      if err == Error.ErrEndpointNotFound then
        ([Event.Endpoint endpointID, Event.WriteErrorResponse err StatusNotFound], store)
      else
        ([Event.Endpoint endpointID,
          Event.WriteErrorResponse err StatusInternalServerError], store)
    | .ok endpoint =>
      match Atoi (r.var "extensionType") with
      | .error err =>
        ([Event.Endpoint endpointID, Event.WriteErrorResponse err StatusBadRequest], store)
      | .ok extType =>
        let extensionType : EndpointExtensionType := extType
        match deleteExtensions extensionType endpoint.Extensions with
        | none => ([Event.Endpoint endpointID, Event.sliceBoundsOutOfRange], store)
        | some extensions =>
          let endpoint : Endpoint := { endpoint with Extensions := extensions }
          match Bolt.UpdateEndpoint (jsonRoundTrip Endpoint) store.endpoints endpoint.ID
              endpoint with
          | .error err =>
            ([Event.Endpoint endpointID, Event.UpdateEndpoint endpoint.ID endpoint,
              Event.WriteErrorResponse err StatusInternalServerError], store)
          | .ok bucket =>
            ([Event.Endpoint endpointID, Event.UpdateEndpoint endpoint.ID endpoint],
              { store with endpoints := bucket })

/-! ## Package `handler`: stack.go

The stack handlers talk to collaborators that are not part of the available sources (the
stack store, the file service, the stack manager, `proxy.CanAccessStack`); they are fields
of `StackHandler`. `strings.EqualFold` of the Go standard library is a parameter of the
handlers that compare stack names. -/

/-- `postStacksRequest` (stack.go, lines 72-82). -/
structure postStacksRequest where
  Name : String
  SwarmID : String
  StackFileContent : String
  RepositoryURL : String := ""
  RepositoryAuthentication : Bool := false
  RepositoryUsername : String := ""
  RepositoryPassword : String := ""
  ComposeFilePathInRepository : String := ""
  Env : List Pair := []
  deriving DecidableEq, Repr

/-- `govalidator.ValidateStruct` on a `postStacksRequest`: `Name` and `SwarmID` are
required. -/
def postStacksRequest.ValidateStruct (req : postStacksRequest) : Bool :=
  req.Name != "" && req.SwarmID != ""

/-- Interface `chainid.StackService`; `Stacks` answers both results of the Go method, the
list and the error. -/
structure StackService where
  Stack : StackID → Except Error Stack
  Stacks : List Chainid.Stack × Option Error
  CreateStack : Chainid.Stack → Option Error
  DeleteStack : StackID → Option Error

/-- `StackHandler` (stack.go, lines 25-38): the collaborators the modelled handlers call,
`proxy.CanAccessStack`, and the constant `filesystem.ComposeFileDefaultName`. -/
structure StackHandler where
  EndpointService : EndpointService
  StackService : StackService
  ResourceControlByResourceID : String → Except Error ResourceControl
  StoreStackFileFromString : String → String → String → Except Error String
  RemoveDirectory : String → Option Error
  DockerHub : Except Error DockerHub
  Registries : Except Error (List Registry)
  Deploy : Stack → Bool → Endpoint → Option Error
  Logout : Endpoint → Option Error
  Remove : Stack → Endpoint → Option Error
  CanAccessStack : Stack → ResourceControl → UserID → List TeamMembership → Bool
  ComposeFileDefaultName : String

/-- The zero value `chainid.ResourceControl{}`. -/
def emptyResourceControl : ResourceControl :=
  { ID := 0, ResourceID := "", SubResourceIDs := [], Type_ := 0, AdministratorsOnly := false,
    UserAccesses := [], TeamAccesses := [] }

/-- `StackHandler.deployStack` (stack.go, lines 775-794): the events and the returned
error. -/
def deployStack (handler : StackHandler) (stack : Stack) (prune : Bool) (endpoint : Endpoint)
    (registries : List Registry) : List Event × Option Error :=
  match handler.Deploy stack prune endpoint with
  | some err =>
    ([Event.Lock "stackCreationMutex", Event.Login registries endpoint,
      Event.Deploy stack prune endpoint, Event.Unlock "stackCreationMutex"], some err)
  | none =>
    match handler.Logout endpoint with
    | some err =>
      ([Event.Lock "stackCreationMutex", Event.Login registries endpoint,
        Event.Deploy stack prune endpoint, Event.Logout endpoint,
        Event.Unlock "stackCreationMutex"], some err)
    | none =>
      ([Event.Lock "stackCreationMutex", Event.Login registries endpoint,
        Event.Deploy stack prune endpoint, Event.Logout endpoint,
        Event.Unlock "stackCreationMutex"], none)

/-- The identifier the three creation methods give a new stack (stack.go, lines 178, 299
and 430): `stackName + "_" + swarmID`. -/
def stackIdentifier (stackName swarmID : String) : StackID := stackName ++ "_" ++ swarmID

/-- The name check of the three creation methods (stack.go, lines 170-175, 291-296 and
422-427): true when some stored stack has the name, case-insensitively, and the method
answers 409. -/
def stackNameExistsLoop (EqualFold : String → String → Bool) (stackName : String) :
    List Stack → Bool
  | [] => false
  | stack :: rest =>
    if EqualFold stack.Name stackName then true
    else stackNameExistsLoop EqualFold stackName rest

/-- The end of `handlePostStacksStringMethod` (stack.go, lines 177-236): from the
construction of the stack on. -/
def createStackFromString (handler : StackHandler) (r : Request) (endpoint : Endpoint)
    (req : postStacksRequest) : List Event :=
  let stack : Stack :=
    { ID := stackIdentifier req.Name req.SwarmID, Name := req.Name, SwarmID := req.SwarmID,
      EntryPoint := handler.ComposeFileDefaultName, ProjectPath := "", Env := req.Env }
  Event.StoreStackFileFromString stack.ID stack.EntryPoint req.StackFileContent ::
    match handler.StoreStackFileFromString stack.ID stack.EntryPoint
        req.StackFileContent with
    | .error err => [Event.WriteErrorResponse err StatusInternalServerError]
    | .ok projectPath =>
      let stack : Stack := { stack with ProjectPath := projectPath }
      Event.CreateStack stack ::
        match handler.StackService.CreateStack stack with
        | some err => [Event.WriteErrorResponse err StatusInternalServerError]
        | none =>
          match RetrieveRestrictedRequestContext r with
          | .error err => [Event.WriteErrorResponse err StatusInternalServerError]
          | .ok securityContext =>
            Event.DockerHub ::
              match handler.DockerHub with
              | .error err => [Event.WriteErrorResponse err StatusInternalServerError]
              | .ok _ =>
                Event.Registries ::
                  match handler.Registries with
                  | .error err => [Event.WriteErrorResponse err StatusInternalServerError]
                  | .ok registries =>
                    let filtered := FilterRegistries registries securityContext
                    match filtered.2 with
                    | some err => [Event.WriteErrorResponse err StatusInternalServerError]
                    | none =>
                      let deployed := deployStack handler stack false endpoint filtered.1
                      match deployed.2 with
                      | some err =>
                        deployed.1 ++ [Event.WriteErrorResponse err StatusInternalServerError]
                      | none => deployed.1 ++ [Event.encodeJSONString stack.ID]

/-- `StackHandler.handlePostStacksStringMethod` (stack.go, lines 116-236). -/
def handlePostStacksStringMethod (Atoi : String → Except Error Int)
    (Decode : String → Option postStacksRequest) (EqualFold : String → String → Bool)
    (handler : StackHandler) (r : Request) : List Event :=
  match Atoi (r.var "endpointId") with
  | .error err => [Event.WriteErrorResponse err StatusBadRequest]
  | .ok id =>
    let endpointID : EndpointID := id
    Event.Endpoint endpointID ::
      match handler.EndpointService.Endpoint endpointID with
      | .error err =>
        if err == Error.ErrEndpointNotFound then [Event.WriteErrorResponse err StatusNotFound]
        else [Event.WriteErrorResponse err StatusInternalServerError]
      | .ok endpoint =>
        match Decode r.Body with
        | none => [Event.WriteErrorResponse Error.ErrInvalidJSON StatusBadRequest]
        | some req =>
          if !req.ValidateStruct then
            [Event.WriteErrorResponse Error.ErrInvalidRequestFormat StatusBadRequest]
          else if req.Name == "" then
            [Event.WriteErrorResponse Error.ErrInvalidRequestFormat StatusBadRequest]
          else if req.StackFileContent == "" then
            [Event.WriteErrorResponse Error.ErrInvalidRequestFormat StatusBadRequest]
          else if req.SwarmID == "" then
            [Event.WriteErrorResponse Error.ErrInvalidRequestFormat StatusBadRequest]
          else
            Event.Stacks ::
              match handler.StackService.Stacks.2 with
              | some err =>
                if err != Error.ErrStackNotFound then
                  [Event.WriteErrorResponse err StatusInternalServerError]
                else if stackNameExistsLoop EqualFold req.Name handler.StackService.Stacks.1 then
                  [Event.WriteErrorResponse Error.ErrStackAlreadyExists StatusConflict]
                else createStackFromString handler r endpoint req
              | none =>
                if stackNameExistsLoop EqualFold req.Name handler.StackService.Stacks.1 then
                  [Event.WriteErrorResponse Error.ErrStackAlreadyExists StatusConflict]
                else createStackFromString handler r endpoint req

/-- `StackHandler.handleGetStack` (stack.go, lines 542-593). -/
def handleGetStack (Atoi : String → Except Error Int) (handler : StackHandler) (r : Request) :
    List Event :=
  let stackID := r.var "id"
  match RetrieveRestrictedRequestContext r with
  | .error err => [Event.WriteErrorResponse err StatusInternalServerError]
  | .ok securityContext =>
    match Atoi (r.var "endpointId") with
    | .error err => [Event.WriteErrorResponse err StatusBadRequest]
    | .ok endpointID =>
      Event.Endpoint endpointID ::
        match handler.EndpointService.Endpoint endpointID with
        | .error err =>
          if err == Error.ErrEndpointNotFound then
            [Event.WriteErrorResponse err StatusNotFound]
          else [Event.WriteErrorResponse err StatusInternalServerError]
        | .ok _ =>
          Event.Stack stackID ::
            match handler.StackService.Stack stackID with
            | .error err =>
              if err == Error.ErrStackNotFound then
                [Event.WriteErrorResponse err StatusNotFound]
              else [Event.WriteErrorResponse err StatusInternalServerError]
            | .ok stack =>
              Event.ResourceControlByResourceID stack.Name ::
                match handler.ResourceControlByResourceID stack.Name with
                | .error err =>
                  if err != Error.ErrResourceControlNotFound then
                    [Event.WriteErrorResponse err StatusInternalServerError]
                  else [Event.encodeJSONStack stack emptyResourceControl]
                | .ok resourceControl =>
                  if securityContext.IsAdmin ||
                      handler.CanAccessStack stack resourceControl securityContext.UserID
                        securityContext.UserMemberships then
                    [Event.encodeJSONStack stack resourceControl]
                  else
                    [Event.WriteErrorResponse Error.ErrResourceAccessDenied StatusForbidden]

/-- `StackHandler.handleDeleteStack` (stack.go, lines 726-773). -/
def handleDeleteStack (Atoi : String → Except Error Int) (handler : StackHandler)
    (r : Request) : List Event :=
  let stackID := r.var "id"
  match Atoi (r.var "endpointId") with
  | .error err => [Event.WriteErrorResponse err StatusBadRequest]
  | .ok endpointID =>
    Event.Endpoint endpointID ::
      match handler.EndpointService.Endpoint endpointID with
      | .error err =>
        if err == Error.ErrEndpointNotFound then [Event.WriteErrorResponse err StatusNotFound]
        else [Event.WriteErrorResponse err StatusInternalServerError]
      | .ok endpoint =>
        Event.Stack stackID ::
          match handler.StackService.Stack stackID with
          | .error err =>
            if err == Error.ErrStackNotFound then
              [Event.WriteErrorResponse err StatusNotFound]
            else [Event.WriteErrorResponse err StatusInternalServerError]
          | .ok stack =>
            Event.Lock "stackDeletionMutex" :: Event.Remove stack endpoint ::
              match handler.Remove stack endpoint with
              | some err => [Event.WriteErrorResponse err StatusInternalServerError]
              | none =>
                Event.Unlock "stackDeletionMutex" :: Event.DeleteStack stackID ::
                  match handler.StackService.DeleteStack stackID with
                  | some err => [Event.WriteErrorResponse err StatusInternalServerError]
                  | none =>
                    Event.RemoveDirectory stack.ProjectPath ::
                      match handler.RemoveDirectory stack.ProjectPath with
                      | some err => [Event.WriteErrorResponse err StatusInternalServerError]
                      | none => []

/-- Whether a mutex is held after a run: the state it is in after the `Lock` and `Unlock`
events of the run, in order. -/
def mutexHeld (mutex : String) : List Event → Bool → Bool
  | [], held => held
  | Event.Lock m :: rest, held => mutexHeld mutex rest (if m == mutex then true else held)
  | Event.Unlock m :: rest, held => mutexHeld mutex rest (if m == mutex then false else held)
  | _ :: rest, held => mutexHeld mutex rest held

/-- `strings.EqualFold` on ASCII text: equality after lowering the ASCII letters. -/
def asciiEqualFold (s t : String) : Bool :=
  s.data.map Char.toLower == t.data.map Char.toLower

/-- `r.FormValue(key)`: the form value, the empty string when the key is absent. -/
def Request.FormValue (r : Request) (key : String) : String :=
  match r.form.find? (fun entry => entry.1 == key) with
  | some entry => entry.2
  | none => ""

/-- `r.FormFile(key)`: the content of the file sent under the key, `http.ErrMissingFile`
when there is none. -/
def Request.FormFile (r : Request) (key : String) : Except Error String :=
  match r.files.find? (fun entry => entry.1 == key) with
  | some entry => .ok entry.2
  | none => .error (Error.other "http: no such file")

/-- Interface `chainid.GitService`. -/
structure GitService where
  ClonePublicRepository : String → String → Option Error
  ClonePrivateRepositoryWithBasicAuth : String → String → String → String → Option Error

/-- The end of `handlePostStacksRepositoryMethod` and of `handlePostStacksFileMethod`
(stack.go, lines 324-361 and 455-492), after `CreateStack` has succeeded: the registries the
caller may use are fetched and the stack deployed. -/
def deployCreatedStack (handler : StackHandler) (r : Request) (endpoint : Endpoint)
    (stack : Stack) : List Event :=
  match RetrieveRestrictedRequestContext r with
  | .error err => [Event.WriteErrorResponse err StatusInternalServerError]
  | .ok securityContext =>
    Event.DockerHub ::
      match handler.DockerHub with
      | .error err => [Event.WriteErrorResponse err StatusInternalServerError]
      | .ok _ =>
        Event.Registries ::
          match handler.Registries with
          | .error err => [Event.WriteErrorResponse err StatusInternalServerError]
          | .ok registries =>
            let filtered := FilterRegistries registries securityContext
            match filtered.2 with
            | some err => [Event.WriteErrorResponse err StatusInternalServerError]
            | none =>
              let deployed := deployStack handler stack false endpoint filtered.1
              match deployed.2 with
              | some err =>
                deployed.1 ++ [Event.WriteErrorResponse err StatusInternalServerError]
              | none => deployed.1 ++ [Event.encodeJSONString stack.ID]

/-- The middle of `handlePostStacksRepositoryMethod` (stack.go, lines 298-322): from the
construction of the stack to `CreateStack`. `GetStackProjectPath` is the path the file
service answers. -/
def createStackFromRepository (handler : StackHandler) (GetStackProjectPath : String → String)
    (gitService : GitService) (r : Request) (endpoint : Endpoint) (req : postStacksRequest) :
    List Event :=
  let stack : Stack :=
    { ID := stackIdentifier req.Name req.SwarmID, Name := req.Name, SwarmID := req.SwarmID,
      EntryPoint := req.ComposeFilePathInRepository, ProjectPath := "", Env := req.Env }
  let projectPath := GetStackProjectPath stack.ID
  let stack : Stack := { stack with ProjectPath := projectPath }
  Event.StackSource (.GetStackProjectPath stack.ID) :: Event.RemoveDirectory projectPath ::
    match handler.RemoveDirectory projectPath with
    | some err => [Event.WriteErrorResponse err StatusInternalServerError]
    | none =>
      let cloned : Event × Option Error :=
        if req.RepositoryAuthentication then
          (Event.StackSource
              (.ClonePrivateRepositoryWithBasicAuth req.RepositoryURL projectPath
                req.RepositoryUsername req.RepositoryPassword),
            gitService.ClonePrivateRepositoryWithBasicAuth req.RepositoryURL projectPath
              req.RepositoryUsername req.RepositoryPassword)
        else
          (Event.StackSource (.ClonePublicRepository req.RepositoryURL projectPath),
            gitService.ClonePublicRepository req.RepositoryURL projectPath)
      cloned.1 ::
        match cloned.2 with
        | some err => [Event.WriteErrorResponse err StatusInternalServerError]
        | none =>
          Event.CreateStack stack ::
            match handler.StackService.CreateStack stack with
            | some err => [Event.WriteErrorResponse err StatusInternalServerError]
            | none => deployCreatedStack handler r endpoint stack

/-- `StackHandler.handlePostStacksRepositoryMethod` (stack.go, lines 238-364). -/
def handlePostStacksRepositoryMethod (Atoi : String → Except Error Int)
    (Decode : String → Option postStacksRequest) (EqualFold : String → String → Bool)
    (handler : StackHandler) (GetStackProjectPath : String → String) (gitService : GitService)
    (r : Request) : List Event :=
  match Atoi (r.var "endpointId") with
  | .error err => [Event.WriteErrorResponse err StatusBadRequest]
  | .ok id =>
    let endpointID : EndpointID := id
    Event.Endpoint endpointID ::
      match handler.EndpointService.Endpoint endpointID with
      | .error err =>
        if err == Error.ErrEndpointNotFound then [Event.WriteErrorResponse err StatusNotFound]
        else [Event.WriteErrorResponse err StatusInternalServerError]
      | .ok endpoint =>
        match Decode r.Body with
        | none => [Event.WriteErrorResponse Error.ErrInvalidJSON StatusBadRequest]
        | some req =>
          if !req.ValidateStruct then
            [Event.WriteErrorResponse Error.ErrInvalidRequestFormat StatusBadRequest]
          else if req.Name == "" || req.SwarmID == "" || req.RepositoryURL == "" then
            [Event.WriteErrorResponse Error.ErrInvalidRequestFormat StatusBadRequest]
          else if req.RepositoryAuthentication &&
              (req.RepositoryUsername == "" || req.RepositoryPassword == "") then
            [Event.WriteErrorResponse Error.ErrInvalidRequestFormat StatusBadRequest]
          else
            let req : postStacksRequest :=
              if req.ComposeFilePathInRepository == "" then
                { req with ComposeFilePathInRepository := handler.ComposeFileDefaultName }
              else req
            Event.Stacks ::
              match handler.StackService.Stacks.2 with
              | some err =>
                if err != Error.ErrStackNotFound then
                  [Event.WriteErrorResponse err StatusInternalServerError]
                else if stackNameExistsLoop EqualFold req.Name handler.StackService.Stacks.1 then
                  [Event.WriteErrorResponse Error.ErrStackAlreadyExists StatusConflict]
                else
                  createStackFromRepository handler GetStackProjectPath gitService r endpoint req
              | none =>
                if stackNameExistsLoop EqualFold req.Name handler.StackService.Stacks.1 then
                  [Event.WriteErrorResponse Error.ErrStackAlreadyExists StatusConflict]
                else
                  createStackFromRepository handler GetStackProjectPath gitService r endpoint req

/-- The middle of `handlePostStacksFileMethod` (stack.go, lines 429-453): from the
construction of the stack to `CreateStack`. `StoreStackFileFromReader` is the project path
or the error the file service answers. -/
def createStackFromFile (handler : StackHandler)
    (StoreStackFileFromReader : String → String → String → Except Error String) (r : Request)
    (endpoint : Endpoint) (stackName swarmID : String) (env : List Pair) (stackFile : String) :
    List Event :=
  let stack : Stack :=
    { ID := stackIdentifier stackName swarmID, Name := stackName, SwarmID := swarmID,
      EntryPoint := handler.ComposeFileDefaultName, ProjectPath := "", Env := env }
  Event.StackSource (.StoreStackFileFromReader stack.ID stack.EntryPoint stackFile) ::
    match StoreStackFileFromReader stack.ID stack.EntryPoint stackFile with
    | .error err => [Event.WriteErrorResponse err StatusInternalServerError]
    | .ok projectPath =>
      let stack : Stack := { stack with ProjectPath := projectPath }
      Event.CreateStack stack ::
        match handler.StackService.CreateStack stack with
        | some err => [Event.WriteErrorResponse err StatusInternalServerError]
        | none => deployCreatedStack handler r endpoint stack

/-- `StackHandler.handlePostStacksFileMethod` (stack.go, lines 372-493). `Unmarshal` is
`json.Unmarshal` into a `[]chainid.Pair`, `none` when it fails. -/
def handlePostStacksFileMethod (Atoi : String → Except Error Int)
    (Unmarshal : String → Option (List Pair)) (EqualFold : String → String → Bool)
    (handler : StackHandler)
    (StoreStackFileFromReader : String → String → String → Except Error String)
    (r : Request) : List Event :=
  match Atoi (r.var "endpointId") with
  | .error err => [Event.WriteErrorResponse err StatusBadRequest]
  | .ok id =>
    let endpointID : EndpointID := id
    Event.Endpoint endpointID ::
      match handler.EndpointService.Endpoint endpointID with
      | .error err =>
        if err == Error.ErrEndpointNotFound then [Event.WriteErrorResponse err StatusNotFound]
        else [Event.WriteErrorResponse err StatusInternalServerError]
      | .ok endpoint =>
        let stackName := r.FormValue "Name"
        if stackName == "" then
          [Event.WriteErrorResponse Error.ErrInvalidRequestFormat StatusBadRequest]
        else
          let swarmID := r.FormValue "SwarmID"
          if swarmID == "" then
            [Event.WriteErrorResponse Error.ErrInvalidRequestFormat StatusBadRequest]
          else
            match Unmarshal (r.FormValue "Env") with
            | none => [Event.WriteErrorResponse Error.ErrInvalidRequestFormat StatusBadRequest]
            | some env =>
              match r.FormFile "file" with
              | .error err => [Event.WriteErrorResponse err StatusInternalServerError]
              | .ok stackFile =>
                Event.Stacks ::
                  match handler.StackService.Stacks.2 with
                  | some err =>
                    if err != Error.ErrStackNotFound then
                      [Event.WriteErrorResponse err StatusInternalServerError]
                    else if stackNameExistsLoop EqualFold stackName
                        handler.StackService.Stacks.1 then
                      [Event.WriteErrorResponse Error.ErrStackAlreadyExists StatusConflict]
                    else
                      createStackFromFile handler StoreStackFileFromReader r endpoint stackName
                        swarmID env stackFile
                  | none =>
                    if stackNameExistsLoop EqualFold stackName
                        handler.StackService.Stacks.1 then
                      [Event.WriteErrorResponse Error.ErrStackAlreadyExists StatusConflict]
                    else
                      createStackFromFile handler StoreStackFileFromReader r endpoint stackName
                        swarmID env stackFile

/-- The invariant of the team-membership bucket: no two stored memberships have the same
(`UserID`, `TeamID`) pair. -/
def membershipPairsUnique (bucket : Bucket TeamMembership) : Prop :=
  (bucket.entries.map (fun entry => (entry.2.UserID, entry.2.TeamID))).Nodup

instance (bucket : Bucket TeamMembership) : Decidable (membershipPairsUnique bucket) := by
  unfold membershipPairsUnique
  infer_instance

/-! ## Package `handler`: endpoint.go, `handlePutEndpoint` -/

/-- `putEndpointsRequest` (endpoint.go, lines 70-78). Every field is tagged `valid:"-"`, so
`govalidator.ValidateStruct` accepts every request. -/
structure putEndpointsRequest where
  Name : String := ""
  URL : String := ""
  PublicURL : String := ""
  GroupID : Int := 0
  TLS : Bool := false
  TLSSkipVerify : Bool := false
  TLSSkipClientVerify : Bool := false
  deriving DecidableEq, Repr

/-- The file kinds `chainid.TLSFileCA`, `chainid.TLSFileCert` and `chainid.TLSFileKey`; the
handler only passes them on to the file service. -/
def TLSFileCA : Int := 0
def TLSFileCert : Int := 1
def TLSFileKey : Int := 2

/-- `strconv.Itoa`. -/
def Itoa (i : Int) : String := toString i

/-- The branch `if req.TLS` of `handlePutEndpoint` (endpoint.go, lines 521-541): the calls
to the file service and the endpoint with its TLS configuration set. The error result of
`GetPathForTLSFile` and the result of `DeleteTLSFile` are discarded by the code. -/
def putEndpointTLS (GetPathForTLSFile : String → Int → String) (req : putEndpointsRequest)
    (folder : String) (endpoint : Endpoint) : List Event × Endpoint :=
  let endpoint : Endpoint :=
    { endpoint with
      TLSConfig := { endpoint.TLSConfig with TLS := true, TLSSkipVerify := req.TLSSkipVerify } }
  let ca : List Event × Endpoint :=
    if !req.TLSSkipVerify then
      ([Event.GetPathForTLSFile folder TLSFileCA],
        { endpoint with
          TLSConfig :=
            { endpoint.TLSConfig with TLSCACertPath := GetPathForTLSFile folder TLSFileCA } })
    else
      ([Event.DeleteTLSFile folder TLSFileCA],
        { endpoint with TLSConfig := { endpoint.TLSConfig with TLSCACertPath := "" } })
  let endpoint := ca.2
  if !req.TLSSkipClientVerify then
    (ca.1 ++ [Event.GetPathForTLSFile folder TLSFileCert,
        Event.GetPathForTLSFile folder TLSFileKey],
      { endpoint with
        TLSConfig :=
          { endpoint.TLSConfig with
            TLSCertPath := GetPathForTLSFile folder TLSFileCert,
            TLSKeyPath := GetPathForTLSFile folder TLSFileKey } })
  else
    (ca.1 ++ [Event.DeleteTLSFile folder TLSFileCert, Event.DeleteTLSFile folder TLSFileKey],
      { endpoint with
        TLSConfig := { endpoint.TLSConfig with TLSCertPath := "", TLSKeyPath := "" } })

/-- The end of `handlePutEndpoint` (endpoint.go, lines 557-568): the proxy of the endpoint
is built anew and the endpoint saved. -/
def putEndpointSave (proxyManager : ProxyManager) (store : Store) (events : List Event)
    (endpoint : Endpoint) : List Event × Store :=
  match proxyManager.CreateAndRegisterProxy endpoint with
  | .error err =>
    (events ++ [Event.CreateAndRegisterProxy endpoint,
      Event.WriteErrorResponse err StatusInternalServerError], store)
  | .ok _ =>
    match Bolt.UpdateEndpoint (jsonRoundTrip Endpoint) store.endpoints endpoint.ID endpoint with
    | .error err =>
      (events ++ [Event.CreateAndRegisterProxy endpoint,
        Event.UpdateEndpoint endpoint.ID endpoint,
        Event.WriteErrorResponse err StatusInternalServerError], store)
    | .ok bucket =>
      (events ++ [Event.CreateAndRegisterProxy endpoint,
        Event.UpdateEndpoint endpoint.ID endpoint], { store with endpoints := bucket })

/-- `EndpointHandler.handlePutEndpoint` (endpoint.go, lines 469-568): the events and the
store it leaves. `GetPathForTLSFile` is the path the file service answers. -/
def handlePutEndpoint (Atoi : String → Except Error Int)
    (Decode : String → Option putEndpointsRequest) (handler : EndpointHandler)
    (GetPathForTLSFile : String → Int → String) (proxyManager : ProxyManager) (store : Store)
    (r : Request) : List Event × Store :=
  if !handler.authorizeEndpointManagement then
    ([Event.WriteErrorResponse Error.ErrEndpointManagementDisabled StatusServiceUnavailable],
      store)
  else
    let id := r.id
    match Atoi id with
    | .error err => ([Event.WriteErrorResponse err StatusBadRequest], store)
    | .ok endpointID =>
      match Decode r.Body with
      | none => ([Event.WriteErrorResponse Error.ErrInvalidJSON StatusBadRequest], store)
      | some req =>
        match Bolt.Endpoint (jsonRoundTrip Endpoint) store.endpoints endpointID with
        | .error err =>
          if err == Error.ErrEndpointNotFound then
            ([Event.Endpoint endpointID, Event.WriteErrorResponse err StatusNotFound], store)
          else
            ([Event.Endpoint endpointID,
              Event.WriteErrorResponse err StatusInternalServerError], store)
        | .ok endpoint =>
          let endpoint : Endpoint :=
            if req.Name != "" then { endpoint with Name := req.Name } else endpoint
          let endpoint : Endpoint :=
            if req.URL != "" then { endpoint with URL := req.URL } else endpoint
          let endpoint : Endpoint :=
            if req.PublicURL != "" then { endpoint with PublicURL := req.PublicURL }
            else endpoint
          let endpoint : Endpoint :=
            if req.GroupID != 0 then { endpoint with GroupID := req.GroupID } else endpoint
          let folder := Itoa endpoint.ID
          if req.TLS then
            let tls := putEndpointTLS GetPathForTLSFile req folder endpoint
            putEndpointSave proxyManager store (Event.Endpoint endpointID :: tls.1) tls.2
          else
            let endpoint : Endpoint :=
              { endpoint with
                TLSConfig :=
                  { endpoint.TLSConfig with
                    TLS := false, TLSSkipVerify := false, TLSCACertPath := "",
                    TLSCertPath := "", TLSKeyPath := "" } }
            match handler.DeleteTLSFiles folder with
            | some err =>
              ([Event.Endpoint endpointID, Event.DeleteTLSFiles folder,
                Event.WriteErrorResponse err StatusInternalServerError], store)
            | none =>
              putEndpointSave proxyManager store
                [Event.Endpoint endpointID, Event.DeleteTLSFiles folder] endpoint

/-- The invariant of the endpoint and group buckets: the `GroupID` of every stored endpoint
is the identifier of a stored endpoint group. -/
def endpointGroupsExist (store : Store) : Bool :=
  store.endpoints.entries.all
    (fun entry => (store.endpointGroups.Get (uint64 entry.2.GroupID)).isSome)

/-- The record of the lookup scenario: primary id "c1", sub-resource ids "v1" and "v2". -/
def sampleResourceControl : ResourceControl :=
  { ID := 1, ResourceID := "c1", SubResourceIDs := ["v1", "v2"],
    Type_ := ContainerResourceControl, AdministratorsOnly := false,
    UserAccesses := [{ UserID := 7, AccessLevel := ReadWriteAccessLevel }],
    TeamAccesses := [] }

def sampleResourceControlBucket : Bucket ResourceControl :=
  { sequence := 1, entries := [(1, sampleResourceControl)] }

def sampleEndpointBucket : Bucket Endpoint :=
  { sequence := 3,
    entries := [ (1, { ID := 1, Name := "a", URL := "tcp://a", GroupID := 1,
                       AuthorizedUsers := [], AuthorizedTeams := [5], Extensions := [] }),
                 (2, { ID := 2, Name := "b", URL := "tcp://b", GroupID := 2,
                       AuthorizedUsers := [], AuthorizedTeams := [], Extensions := [] }),
                 (3, { ID := 3, Name := "c", URL := "tcp://c", GroupID := 1,
                       AuthorizedUsers := [9], AuthorizedTeams := [], Extensions := [] }) ] }

def sampleEndpointGroupBucket : Bucket EndpointGroup :=
  { sequence := 2,
    entries := [ (1, { ID := 1, Name := "Unassigned", AuthorizedUsers := [],
                       AuthorizedTeams := [] }),
                 (2, { ID := 2, Name := "prod", AuthorizedUsers := [7],
                       AuthorizedTeams := [] }) ] }

/-- Memberships: user 7 is a member of team 5 and leads team 6; user 8 is a member of
team 5. -/
def sampleTeamMembershipBucket : Bucket TeamMembership :=
  { sequence := 3,
    entries := [ (1, sampleMembership), (2, sampleLeaderMembership),
                 (3, { ID := 3, UserID := 8, TeamID := 5, Role := TeamMember }) ] }

def sampleStore : Store :=
  { endpoints := sampleEndpointBucket, endpointGroups := sampleEndpointGroupBucket,
    teamMemberships := sampleTeamMembershipBucket,
    resourceControls := sampleResourceControlBucket }

def sampleDefaultGroupRequest : Request :=
  { Authorization := some ["Bearer root"], id := "1", tokenData := some sampleAdminTokenData,
    restrictedRequest := none }

def sampleGroupRequest : Request :=
  { Authorization := some ["Bearer root"], id := "2", tokenData := some sampleAdminTokenData,
    restrictedRequest := none }

/-- The body decoder of the resource-control scenario: the text "claim-c1" is the request
of a new record "x1" that lists the already owned "c1" as a sub-resource. -/
def sampleDecodeResources : String → Option postResourcesRequest := fun body =>
  if body == "claim-c1" then
    some { ResourceID := "x1", Type_ := "container", AdministratorsOnly := false,
           Users := [9], Teams := [], SubResourceIDs := ["c1"] }
  else none

/-- A restricted request of the standard user 9, who has no team, posting "claim-c1". -/
def sampleClaimRequest : Request :=
  { Authorization := some ["Bearer other"], id := "", tokenData :=
      some { ID := 9, Username := "eve", Role := StandardUserRole },
    restrictedRequest :=
      some { IsAdmin := false, IsTeamLeader := false, UserID := 9, UserMemberships := [] },
    Body := "claim-c1" }

/-- The record the scenario creates. -/
def sampleClaimedResourceControl : ResourceControl :=
  { ID := 2, ResourceID := "x1", SubResourceIDs := ["c1"],
    Type_ := ContainerResourceControl, AdministratorsOnly := false,
    UserAccesses := [{ UserID := 9, AccessLevel := ReadWriteAccessLevel }],
    TeamAccesses := [] }

/-- The security context of user 7: a member of team 5 and the leader of team 6. -/
def sampleLeaderContext : RestrictedRequestContext :=
  { IsAdmin := false, IsTeamLeader := true, UserID := 7,
    UserMemberships := [sampleMembership, sampleLeaderMembership] }

/-- The body decoder of the team-membership scenario: the text "move-8-to-6" asks for user 8
to be a plain member of team 6. -/
def sampleDecodeMembership : String → Option teamMembershipRequest := fun body =>
  if body == "move-8-to-6" then some { UserID := 8, TeamID := 6, Role := TeamMember }
  else none

/-- User 7 puts "move-8-to-6" on membership 3, the membership of user 8 in team 5. -/
def sampleMoveRequest : Request :=
  { Authorization := some ["Bearer good"], id := "3", tokenData := some sampleTokenData,
    restrictedRequest := some sampleLeaderContext, Body := "move-8-to-6" }

def sampleEndpointHandler : EndpointHandler :=
  { authorizeEndpointManagement := true, DeleteTLSFiles := fun _ => none }

/-- A cache holding the proxy of endpoint 2, its Storidge extension proxy, and the proxy of
endpoint 1. -/
def sampleProxyCache : ProxyCache :=
  { proxies := [(stringOfInt 1, 10), (stringOfInt 2, 20)],
    extensionProxies :=
      [(stringOfInt 2 ++ "_" ++ stringOfInt StoridgeEndpointExtension, 21)] }

/-- An endpoint store whose endpoint 1 has a Storidge extension and an extension of
type 2. -/
def sampleExtensionStore : Store :=
  { sampleStore with
    endpoints :=
      { sequence := 1,
        entries := [ (1, { ID := 1, Name := "a", URL := "tcp://a", GroupID := 1,
                           AuthorizedUsers := [], AuthorizedTeams := [],
                           Extensions := [ { Type_ := 1, URL := "tcp://old" },
                                           { Type_ := 2, URL := "tcp://two" } ] }) ] } }

/-- The body decoder of the extension scenario: "storidge-new" asks for the Storidge
extension (type 1) at "tcp://new". -/
def sampleDecodeExtension : String → Option postExtensionRequest := fun body =>
  if body == "storidge-new" then some { Type_ := 1, URL := "tcp://new" } else none

def samplePostExtensionRequest : Request :=
  { Authorization := some ["Bearer root"], id := "", tokenData := some sampleAdminTokenData,
    restrictedRequest := none, Body := "storidge-new", vars := [("endpointId", "1")] }

def sampleDeleteExtensionRequest : Request :=
  { Authorization := some ["Bearer root"], id := "", tokenData := some sampleAdminTokenData,
    restrictedRequest := none, vars := [("endpointId", "1"), ("extensionType", "1")] }

/-- A stored stack of swarm "swarm1". -/
def sampleStack : Stack :=
  { ID := "web_swarm1", Name := "web", EntryPoint := "docker-compose.yml", SwarmID := "swarm1",
    ProjectPath := "/data/compose/web_swarm1", Env := [] }

def sampleStackService : StackService :=
  { Stack := fun id =>
      if id == sampleStack.ID then .ok sampleStack else .error Error.ErrStackNotFound
    Stacks := ([sampleStack], none)
    CreateStack := fun _ => none
    DeleteStack := fun _ => none }

/-- A stack handler whose collaborators all succeed; no resource control is stored. -/
def sampleStackHandler : StackHandler :=
  { EndpointService := sampleEndpointService
    StackService := sampleStackService
    ResourceControlByResourceID := fun _ => .error Error.ErrResourceControlNotFound
    StoreStackFileFromString := fun stackIdentifier _ _ => .ok ("/data/compose/" ++ stackIdentifier)
    RemoveDirectory := fun _ => none
    DockerHub := .ok sampleDockerHub
    Registries := .ok sampleRegistries
    Deploy := fun _ _ _ => none
    Logout := fun _ => none
    Remove := fun _ _ => none
    CanAccessStack := fun _ _ _ _ => false
    ComposeFileDefaultName := "docker-compose.yml" }

/-- The same handler when the stack manager fails to remove a stack. -/
def failingRemoveStackHandler : StackHandler :=
  { sampleStackHandler with Remove := fun _ _ => some (Error.other "docker stack rm failed") }

/-- A request of the non-administrator user 7 on the stack "web_swarm1" of endpoint 1. -/
def sampleStackRequest : Request :=
  { Authorization := some ["Bearer good"], id := "", tokenData := some sampleTokenData,
    restrictedRequest := some sampleUserContext,
    vars := [("endpointId", "1"), ("id", "web_swarm1")] }

/-- The endpoint 1 of `sampleEndpoints`. -/
def sampleStackEndpoint : Endpoint :=
  { ID := 1, Name := "a", URL := "tcp://a", GroupID := 1, AuthorizedUsers := [],
    AuthorizedTeams := [5], Extensions := [] }

/-- A stack store holding the stack "a_b" of swarm "c". -/
def collidingStackService : StackService :=
  { sampleStackService with
    Stacks := ([ { ID := "a_b_c", Name := "a_b", EntryPoint := "docker-compose.yml",
                   SwarmID := "c", ProjectPath := "/data/compose/a_b_c", Env := [] } ], none) }

def collidingStackHandler : StackHandler :=
  { sampleStackHandler with StackService := collidingStackService }

/-- The body decoder of the stack scenario: "a/b_c" asks for the stack "a" of swarm
"b_c". -/
def sampleDecodeStack : String → Option postStacksRequest := fun body =>
  if body == "a/b_c" then some { Name := "a", SwarmID := "b_c", StackFileContent := "version: 3" }
  else none

def collidingStackRequest : Request :=
  { Authorization := some ["Bearer root"], id := "", tokenData := some sampleAdminTokenData,
    restrictedRequest := some sampleAdminContext, Body := "a/b_c",
    vars := [("endpointId", "1")] }

/-- The body decoder of the duplicate-membership scenario: "user-7-team-5" names user 7 as
a plain member of team 5. -/
def sampleDecodeDuplicate : String → Option teamMembershipRequest := fun body =>
  if body == "user-7-team-5" then some { UserID := 7, TeamID := 5, Role := TeamMember }
  else none

/-- An administrator sends "user-7-team-5" for membership 3, the membership of user 8 in
team 5. -/
def sampleDuplicateRequest : Request :=
  { Authorization := some ["Bearer root"], id := "3", tokenData := some sampleAdminTokenData,
    restrictedRequest := some sampleAdminContext, Body := "user-7-team-5" }

/-- The body decoder of the endpoint scenario: "group-99" asks for group 99 and nothing
else. -/
def sampleDecodeEndpoint : String → Option putEndpointsRequest := fun body =>
  if body == "group-99" then some { GroupID := 99 } else none

/-- An administrator sends "group-99" for endpoint 1. -/
def samplePutEndpointRequest : Request :=
  { Authorization := some ["Bearer root"], id := "1", tokenData := some sampleAdminTokenData,
    restrictedRequest := some sampleAdminContext, Body := "group-99" }

def sampleGetPathForTLSFile : String → Int → String := fun folder _ => "/data/tls/" ++ folder

/-- An endpoint store whose endpoint 1 has the Storidge extension only. -/
def sampleSingleExtensionStore : Store :=
  { sampleStore with
    endpoints :=
      { sequence := 1,
        entries := [ (1, { ID := 1, Name := "a", URL := "tcp://a", GroupID := 1,
                           AuthorizedUsers := [], AuthorizedTeams := [],
                           Extensions := [ { Type_ := 1, URL := "tcp://old" } ] }) ] } }

/-- The body decoder of the repository scenario: "a/b_c@repo" asks for the stack "a" of
swarm "b_c" from a public repository. -/
def sampleDecodeRepositoryStack : String → Option postStacksRequest := fun body =>
  if body == "a/b_c@repo" then
    some { Name := "a", SwarmID := "b_c", StackFileContent := "",
           RepositoryURL := "https://git.example/app" }
  else none

def sampleGitService : GitService :=
  { ClonePublicRepository := fun _ _ => none
    ClonePrivateRepositoryWithBasicAuth := fun _ _ _ _ => none }

def sampleGetStackProjectPath : String → String := fun stackIdentifier =>
  "/data/compose/" ++ stackIdentifier

def sampleStoreStackFileFromReader : String → String → String → Except Error String :=
  fun stackIdentifier _ _ => .ok ("/data/compose/" ++ stackIdentifier)

/-- The decoder of the `Env` form value: "[]" is the empty list. -/
def sampleUnmarshalEnv : String → Option (List Pair) := fun text =>
  if text == "[]" then some [] else none

def collidingRepositoryRequest : Request :=
  { Authorization := some ["Bearer root"], id := "", tokenData := some sampleAdminTokenData,
    restrictedRequest := some sampleAdminContext, Body := "a/b_c@repo",
    vars := [("endpointId", "1")] }

def collidingFileRequest : Request :=
  { Authorization := some ["Bearer root"], id := "", tokenData := some sampleAdminTokenData,
    restrictedRequest := some sampleAdminContext, vars := [("endpointId", "1")],
    form := [("Name", "a"), ("SwarmID", "b_c"), ("Env", "[]")],
    files := [("file", "version: 3")] }

/-! ## Loop characterisations for filter.go -/

theorem filterRegistriesLoop_eq (context : RestrictedRequestContext) (registries acc : List Registry) :
    filterRegistriesLoop context registries acc =
      acc ++ registries.filter
        (fun r => AuthorizedRegistryAccess r context.UserID context.UserMemberships) := by
  induction registries generalizing acc with
  | nil => simp [filterRegistriesLoop]
  | cons r rest ih =>
    by_cases h : AuthorizedRegistryAccess r context.UserID context.UserMemberships = true
    · simp [filterRegistriesLoop, h, ih]
    · simp [filterRegistriesLoop, h, ih]

theorem filterEndpointGroupsLoop_eq (context : RestrictedRequestContext)
    (endpointGroups acc : List EndpointGroup) :
    filterEndpointGroupsLoop context endpointGroups acc =
      acc ++ endpointGroups.filter
        (fun g => AuthorizedEndpointGroupAccess g context.UserID context.UserMemberships) := by
  induction endpointGroups generalizing acc with
  | nil => simp [filterEndpointGroupsLoop]
  | cons g rest ih =>
    by_cases h : AuthorizedEndpointGroupAccess g context.UserID context.UserMemberships = true
    · simp [filterEndpointGroupsLoop, h, ih]
    · simp [filterEndpointGroupsLoop, h, ih]

theorem filterUsersLoop_eq (users acc : List User) :
    filterUsersLoop users acc = acc ++ users.filter (fun u => u.Role != AdministratorRole) := by
  induction users generalizing acc with
  | nil => simp [filterUsersLoop]
  | cons u rest ih =>
    by_cases h : u.Role = AdministratorRole
    · simp [filterUsersLoop, h, ih]
    · simp [filterUsersLoop, h, ih]

theorem getAssociatedGroup_eq_find (endpoint : Endpoint) (groups : List EndpointGroup) :
    getAssociatedGroup endpoint groups = groups.find? (fun g => g.ID == endpoint.GroupID) := by
  induction groups with
  | nil => rfl
  | cons g rest ih =>
    by_cases h : g.ID = endpoint.GroupID
    · simp [getAssociatedGroup, h]
    · simp [getAssociatedGroup, h, ih]

theorem filterEndpointsLoop_eq (groups : List EndpointGroup) (context : RestrictedRequestContext)
    (endpoints acc : List Endpoint)
    (hg : ∀ e ∈ endpoints, ∃ g ∈ groups, g.ID = e.GroupID) :
    filterEndpointsLoop groups context endpoints acc =
      some (acc ++ endpoints.filter (endpointKept groups context)) := by
  induction endpoints generalizing acc with
  | nil => simp [filterEndpointsLoop]
  | cons e rest ih =>
    have hrest : ∀ e ∈ rest, ∃ g ∈ groups, g.ID = e.GroupID :=
      fun x hx => hg x (List.mem_cons_of_mem _ hx)
    obtain ⟨g, hgm, hgid⟩ := hg e (List.mem_cons_self _ _)
    cases hf : groups.find? (fun g => g.ID == e.GroupID) with
    | none =>
      rw [List.find?_eq_none] at hf
      exact absurd (by simpa using hgid) (hf g hgm)
    | some G =>
      by_cases h : AuthorizedEndpointAccess e G context.UserID context.UserMemberships = true
      · simp [filterEndpointsLoop, getAssociatedGroup_eq_find, hf, h, ih _ hrest, endpointKept]
      · simp [filterEndpointsLoop, getAssociatedGroup_eq_find, hf, h, ih _ hrest, endpointKept]

theorem filterEndpointsLoop_some (groups : List EndpointGroup) (context : RestrictedRequestContext)
    (endpoints acc out : List Endpoint)
    (h : filterEndpointsLoop groups context endpoints acc = some out) :
    ∀ e ∈ endpoints, ∃ g ∈ groups, g.ID = e.GroupID := by
  induction endpoints generalizing acc with
  | nil => simp
  | cons e rest ih =>
    intro x hx
    cases hf : groups.find? (fun g => g.ID == e.GroupID) with
    | none => simp [filterEndpointsLoop, getAssociatedGroup_eq_find, hf] at h
    | some G =>
      have hG : G ∈ groups ∧ G.ID = e.GroupID := by
        refine ⟨List.mem_of_find?_eq_some hf, ?_⟩
        simpa using List.find?_some hf
      simp only [filterEndpointsLoop, getAssociatedGroup_eq_find, hf] at h
      rcases List.mem_cons.mp hx with rfl | hx
      · exact ⟨G, hG.1, hG.2⟩
      · split at h
        · exact ih _ h x hx
        · exact ih _ h x hx

theorem appendFirstTeam_eq (p : Team → Bool) (teams acc : List Team) :
    appendFirstTeam p teams acc = acc ++ (teams.find? p).toList := by
  induction teams with
  | nil => simp [appendFirstTeam]
  | cons t rest ih =>
    by_cases h : p t = true
    · simp [appendFirstTeam, h]
    · simp [appendFirstTeam, h, ih]

theorem filterUserTeamsLoop_eq (teams : List Team) (memberships : List TeamMembership)
    (acc : List Team) :
    filterUserTeamsLoop teams memberships acc =
      acc ++ memberships.filterMap (fun m => teams.find? (fun team => team.ID == m.TeamID)) := by
  induction memberships generalizing acc with
  | nil => simp [filterUserTeamsLoop]
  | cons m rest ih =>
    simp only [filterUserTeamsLoop, ih, appendFirstTeam_eq, List.filterMap_cons]
    cases teams.find? (fun team => team.ID == m.TeamID) <;> simp

theorem filterLeaderTeamsLoop_eq (teams : List Team) (memberships : List TeamMembership)
    (acc : List Team) :
    filterLeaderTeamsLoop teams memberships acc =
      acc ++ memberships.filterMap
        (fun m => teams.find? (fun team => team.ID == m.TeamID && m.Role == TeamLeader)) := by
  induction memberships generalizing acc with
  | nil => simp [filterLeaderTeamsLoop]
  | cons m rest ih =>
    simp only [filterLeaderTeamsLoop, ih, appendFirstTeam_eq, List.filterMap_cons]
    cases teams.find? (fun team => team.ID == m.TeamID && m.Role == TeamLeader) <;> simp

/-- Selecting, for every key, the first element its test accepts is idempotent as soon as two
tests that accept a common element are the same test. -/
theorem firstMatch_idem {M T : Type} (p : M → T → Bool)
    (H : ∀ m m2 t, p m t = true → p m2 t = true → ∀ t2, p m t2 = p m2 t2)
    (teams : List T) (ms : List M) :
    ms.filterMap (fun m => (ms.filterMap (fun m => teams.find? (p m))).find? (p m)) =
      ms.filterMap (fun m => teams.find? (p m)) := by
  apply List.filterMap_congr
  intro m hm
  cases h : teams.find? (p m) with
  | none =>
    rw [List.find?_eq_none] at h ⊢
    intro x hx
    obtain ⟨m2, _, hm2⟩ := List.mem_filterMap.mp hx
    exact h x (List.mem_of_find?_eq_some hm2)
  | some t =>
    have hpt : p m t = true := List.find?_some h
    have htO : t ∈ ms.filterMap (fun m => teams.find? (p m)) :=
      List.mem_filterMap.mpr ⟨m, hm, h⟩
    cases h2 : (ms.filterMap (fun m => teams.find? (p m))).find? (p m) with
    | none =>
      rw [List.find?_eq_none] at h2
      exact absurd hpt (h2 t htO)
    | some t2 =>
      have hpt2 : p m t2 = true := List.find?_some h2
      obtain ⟨m2, _, hm2⟩ := List.mem_filterMap.mp (List.mem_of_find?_eq_some h2)
      have hp2 : p m2 t2 = true := List.find?_some hm2
      have hfun : p m = p m2 := funext (H m m2 t2 hpt2 hp2)
      rw [← hfun, h] at hm2
      exact hm2.symm ▸ rfl

/-! ## The listing filters (filter.go) -/

/-- C1: for an administrator context (`IsAdmin = true`) each of `FilterEndpoints`,
`FilterEndpointGroups` and `FilterRegistries` returns its input list unchanged together with
a nil error, whatever the lists, groups and memberships are. -/
theorem C1_admin_filters_return_input (context : RestrictedRequestContext)
    (hadmin : context.IsAdmin = true)
    (endpoints : List Endpoint) (groups endpointGroups : List EndpointGroup)
    (registries : List Registry) :
    FilterEndpoints endpoints groups context = some (endpoints, none) ∧
    FilterEndpointGroups endpointGroups context = (endpointGroups, none) ∧
    FilterRegistries registries context = (registries, none) := by
  simp [FilterEndpoints, FilterEndpointGroups, FilterRegistries, hadmin]

theorem C1_admin_filters_return_input_witness :
    sampleAdminContext.IsAdmin = true ∧
    (FilterEndpoints sampleEndpoints [] sampleAdminContext = some (sampleEndpoints, none) ∧
     FilterEndpointGroups sampleGroups sampleAdminContext = (sampleGroups, none) ∧
     FilterRegistries sampleRegistries sampleAdminContext = (sampleRegistries, none)) :=
  ⟨rfl, C1_admin_filters_return_input sampleAdminContext rfl sampleEndpoints [] sampleGroups
    sampleRegistries⟩

/-- C2: for a non-administrator context each filter returns exactly the order-preserving
sublist of its input selected by the corresponding predicate evaluated with the context's
user id and memberships: `FilterRegistries` keeps `r` iff `AuthorizedRegistryAccess r`,
`FilterEndpointGroups` keeps `g` iff `AuthorizedEndpointGroupAccess g`, and, when every
endpoint's `GroupID` is the ID of some group of the list, `FilterEndpoints` keeps `e` iff
`AuthorizedEndpointAccess e G` for the first group `G` of the list with `G.ID = e.GroupID`.
The error is nil in each case. -/
theorem C2_non_admin_filters_select (context : RestrictedRequestContext)
    (hadmin : context.IsAdmin = false)
    (endpoints : List Endpoint) (groups endpointGroups : List EndpointGroup)
    (registries : List Registry)
    (hgroups : ∀ e ∈ endpoints, ∃ g ∈ groups, g.ID = e.GroupID) :
    FilterRegistries registries context =
      (registries.filter
        (fun r => AuthorizedRegistryAccess r context.UserID context.UserMemberships), none) ∧
    FilterEndpointGroups endpointGroups context =
      (endpointGroups.filter
        (fun g => AuthorizedEndpointGroupAccess g context.UserID context.UserMemberships),
        none) ∧
    FilterEndpoints endpoints groups context =
      some (endpoints.filter (fun e =>
        match groups.find? (fun g => g.ID == e.GroupID) with
        | some G => AuthorizedEndpointAccess e G context.UserID context.UserMemberships
        | none => false), none) := by
  refine ⟨?_, ?_, ?_⟩
  · simp [FilterRegistries, hadmin, filterRegistriesLoop_eq]
  · simp [FilterEndpointGroups, hadmin, filterEndpointGroupsLoop_eq]
  · simp only [FilterEndpoints, hadmin, filterEndpointsLoop_eq groups context endpoints [] hgroups]
    rfl

theorem C2_non_admin_filters_select_witness :
    FilterRegistries sampleRegistries sampleUserContext =
      (sampleRegistries.filter
        (fun r => AuthorizedRegistryAccess r sampleUserContext.UserID
          sampleUserContext.UserMemberships), none) ∧
    FilterEndpointGroups sampleGroups sampleUserContext =
      (sampleGroups.filter
        (fun g => AuthorizedEndpointGroupAccess g sampleUserContext.UserID
          sampleUserContext.UserMemberships), none) ∧
    FilterEndpoints sampleEndpoints sampleGroups sampleUserContext =
      some (sampleEndpoints.filter (fun e =>
        match sampleGroups.find? (fun g => g.ID == e.GroupID) with
        | some G => AuthorizedEndpointAccess e G sampleUserContext.UserID
            sampleUserContext.UserMemberships
        | none => false), none) :=
  C2_non_admin_filters_select sampleUserContext rfl sampleEndpoints sampleGroups sampleGroups
    sampleRegistries (by decide)

/-- C3: filtering is idempotent. For every context (administrator or not) and every input
list, applying a filter of filter.go to its own output with the same context (and, for
`FilterEndpoints`, the same groups list) yields that output again. This holds for
`FilterEndpoints` (whenever it returns), `FilterEndpointGroups`, `FilterRegistries`,
`FilterUsers`, `FilterUserTeams` and `FilterLeaderTeams`. -/
theorem C3_filters_idempotent (context : RestrictedRequestContext)
    (endpoints : List Endpoint) (groups endpointGroups : List EndpointGroup)
    (registries : List Registry) (users : List User) (teams : List Team) :
    (∀ out, FilterEndpoints endpoints groups context = some out →
      FilterEndpoints out.1 groups context = some out) ∧
    FilterEndpointGroups (FilterEndpointGroups endpointGroups context).1 context =
      FilterEndpointGroups endpointGroups context ∧
    FilterRegistries (FilterRegistries registries context).1 context =
      FilterRegistries registries context ∧
    FilterUsers (FilterUsers users context) context = FilterUsers users context ∧
    FilterUserTeams (FilterUserTeams teams context) context = FilterUserTeams teams context ∧
    FilterLeaderTeams (FilterLeaderTeams teams context) context =
      FilterLeaderTeams teams context := by
  refine ⟨?_, ?_, ?_, ?_, ?_, ?_⟩
  · intro out hout
    cases hadmin : context.IsAdmin with
    | true =>
      simp only [FilterEndpoints, hadmin] at hout ⊢
      simp only [Bool.not_true, Bool.false_eq_true, if_false, Option.some.injEq] at hout ⊢
      rw [← hout]
    | false =>
      simp only [FilterEndpoints, hadmin, Bool.not_false, if_true, Option.map_eq_some'] at hout ⊢
      obtain ⟨filtered, hloop, rfl⟩ := hout
      have hg := filterEndpointsLoop_some groups context endpoints [] filtered hloop
      rw [filterEndpointsLoop_eq groups context endpoints [] hg] at hloop
      simp only [List.nil_append, Option.some.injEq] at hloop
      subst hloop
      refine ⟨_, filterEndpointsLoop_eq groups context _ [] ?_, ?_⟩
      · intro e he
        exact hg e (List.mem_filter.mp he).1
      · simp
  · cases hadmin : context.IsAdmin <;>
      simp [FilterEndpointGroups, hadmin, filterEndpointGroupsLoop_eq]
  · cases hadmin : context.IsAdmin <;>
      simp [FilterRegistries, hadmin, filterRegistriesLoop_eq]
  · cases hadmin : context.IsAdmin <;>
      simp [FilterUsers, hadmin, filterUsersLoop_eq]
  · cases hadmin : context.IsAdmin
    · simp only [FilterUserTeams, hadmin, Bool.not_false, if_true, filterUserTeamsLoop_eq,
        List.nil_append]
      apply firstMatch_idem (fun (m : TeamMembership) (team : Team) => team.ID == m.TeamID)
      intro m m2 t h1 h2 t2
      simp only [beq_iff_eq] at h1 h2
      simp [← h1, ← h2]
    · simp [FilterUserTeams, hadmin]
  · cases hleader : context.IsTeamLeader
    · simp [FilterLeaderTeams, hleader]
    · simp only [FilterLeaderTeams, hleader, if_true, filterLeaderTeamsLoop_eq,
        List.nil_append]
      apply firstMatch_idem
        (fun (m : TeamMembership) (team : Team) => team.ID == m.TeamID && m.Role == TeamLeader)
      intro m m2 t h1 h2 t2
      simp only [Bool.and_eq_true, beq_iff_eq] at h1 h2
      simp [← h1.1, ← h2.1, h1.2, h2.2]

theorem C3_filters_idempotent_witness :
    FilterEndpoints (sampleEndpoints.take 2) sampleGroups sampleUserContext =
      some (sampleEndpoints.take 2, none) :=
  (C3_filters_idempotent sampleUserContext sampleEndpoints sampleGroups [] [] [] []).1
    (sampleEndpoints.take 2, none) (by decide)

/-! ## The request bouncer (bouncer.go) -/

theorem isTeamLeaderLoop_eq (memberships : List TeamMembership) (acc : Bool) :
    isTeamLeaderLoop memberships acc = (acc || memberships.any (fun m => m.Role == TeamLeader)) := by
  induction memberships generalizing acc with
  | nil => simp [isTeamLeaderLoop]
  | cons m rest ih =>
    by_cases h : m.Role = TeamLeader
    · simp [isTeamLeaderLoop, h, ih]
    · have hb : (m.Role == TeamLeader) = false := by simpa using h
      simp [isTeamLeaderLoop, hb, ih]

/-- The authentication middleware on a request whose token is verified and whose user
exists: the two service calls, then the wrapped handler on the request carrying the token
data. -/
theorem mwCheckAuthentication_accept (bouncer : RequestBouncer) (next : Handler) (r : Request)
    (jwtService : JWTService) (tokenData : TokenData) (user : User)
    (hauth : bouncer.authDisabled = false) (htoken : bearerToken r ≠ "")
    (hjwt : bouncer.jwtService = some jwtService)
    (hparse : jwtService.ParseAndVerifyToken (bearerToken r) = .ok tokenData)
    (huser : bouncer.userService.User tokenData.ID = .ok user) :
    mwCheckAuthentication bouncer next r =
      Event.ParseAndVerifyToken (bearerToken r) :: Event.User tokenData.ID ::
        next (storeTokenData r tokenData) := by
  simp [mwCheckAuthentication, hauth, htoken, hjwt, hparse, huser]

/-- C4: with authentication enabled, `mwCheckAuthentication` follows the decision table:
(a) no `Authorization` header, no header value, or a first value that is empty after
removing a leading "Bearer " gives 401 `ErrUnauthorized`; (b) a token rejected by
`ParseAndVerifyToken` gives 401 with the verifier's error; (c) a verified token whose user
lookup reports `ErrUserNotFound` gives 401 `ErrUnauthorized`; (d) a verified token whose user
exists runs the wrapped handler exactly once, after the two service calls, on the request
whose context holds the verified token data. In every case other than (d) the outcome does
not depend on the wrapped handler: it is not invoked. -/
theorem C4_mwCheckAuthentication_decision_table (bouncer : RequestBouncer) (r : Request)
    (jwtService : JWTService)
    (hauth : bouncer.authDisabled = false) (hjwt : bouncer.jwtService = some jwtService) :
    (∀ next, (r.Authorization = none ∨ r.Authorization = some [] ∨
        ∃ first rest, r.Authorization = some (first :: rest) ∧ TrimPrefix first "Bearer " = "") →
      mwCheckAuthentication bouncer next r =
        [Event.WriteErrorResponse Error.ErrUnauthorized StatusUnauthorized]) ∧
    (∀ next err, bearerToken r ≠ "" →
      jwtService.ParseAndVerifyToken (bearerToken r) = .error err →
      mwCheckAuthentication bouncer next r =
        [Event.ParseAndVerifyToken (bearerToken r),
         Event.WriteErrorResponse err StatusUnauthorized]) ∧
    (∀ next tokenData, bearerToken r ≠ "" →
      jwtService.ParseAndVerifyToken (bearerToken r) = .ok tokenData →
      bouncer.userService.User tokenData.ID = .error Error.ErrUserNotFound →
      mwCheckAuthentication bouncer next r =
        [Event.ParseAndVerifyToken (bearerToken r), Event.User tokenData.ID,
         Event.WriteErrorResponse Error.ErrUnauthorized StatusUnauthorized]) ∧
    (∀ next tokenData user, bearerToken r ≠ "" →
      jwtService.ParseAndVerifyToken (bearerToken r) = .ok tokenData →
      bouncer.userService.User tokenData.ID = .ok user →
      mwCheckAuthentication bouncer next r =
        [Event.ParseAndVerifyToken (bearerToken r), Event.User tokenData.ID] ++
          next (storeTokenData r tokenData) ∧
      RetrieveTokenData (storeTokenData r tokenData) = .ok tokenData) ∧
    ((¬ ∃ tokenData user, bearerToken r ≠ "" ∧
        jwtService.ParseAndVerifyToken (bearerToken r) = .ok tokenData ∧
        bouncer.userService.User tokenData.ID = .ok user) →
      ∀ next next2, mwCheckAuthentication bouncer next r =
        mwCheckAuthentication bouncer next2 r) := by
  refine ⟨?_, ?_, ?_, ?_, ?_⟩
  · intro next h
    have htoken : bearerToken r = "" := by
      rcases h with h | h | ⟨first, rest, h, ht⟩
      · simp [bearerToken, h]
      · simp [bearerToken, h]
      · simp [bearerToken, h, ht]
    simp [mwCheckAuthentication, hauth, htoken]
  · intro next err htoken hparse
    simp [mwCheckAuthentication, hauth, htoken, hjwt, hparse]
  · intro next tokenData htoken hparse huser
    simp [mwCheckAuthentication, hauth, htoken, hjwt, hparse, huser]
  · intro next tokenData user htoken hparse huser
    refine ⟨?_, ?_⟩
    · rw [mwCheckAuthentication_accept bouncer next r jwtService tokenData user hauth htoken
        hjwt hparse huser]
      rfl
    · simp [RetrieveTokenData, storeTokenData]
  · intro hnot next next2
    by_cases htoken : bearerToken r = ""
    · simp [mwCheckAuthentication, hauth, htoken]
    · cases hparse : jwtService.ParseAndVerifyToken (bearerToken r) with
      | error err => simp [mwCheckAuthentication, hauth, htoken, hjwt, hparse]
      | ok tokenData =>
        cases huser : bouncer.userService.User tokenData.ID with
        | error err => simp [mwCheckAuthentication, hauth, htoken, hjwt, hparse, huser]
        | ok user => exact absurd ⟨tokenData, user, htoken, hparse, huser⟩ hnot

theorem C4_mwCheckAuthentication_decision_table_witness :
    mwCheckAuthentication sampleBouncer sampleHandler sampleRequest =
        [Event.ParseAndVerifyToken "good", Event.User 7] ++
          sampleHandler (storeTokenData sampleRequest sampleTokenData) ∧
      RetrieveTokenData (storeTokenData sampleRequest sampleTokenData) = .ok sampleTokenData :=
  (C4_mwCheckAuthentication_decision_table sampleBouncer sampleRequest sampleJWTService
    rfl rfl).2.2.2.1 sampleHandler sampleTokenData
    { ID := 7, Username := "bob", Role := StandardUserRole } (by decide) rfl rfl

/-- C5: with `authDisabled = true`, for every request and whatever the JWT service is (the
nil service of `initJWTService false` included), `mwCheckAuthentication` does nothing but
run the wrapped handler once on the request carrying the synthetic token data whose `Role` is
`AdministratorRole` and whose `ID` is the zero value: it calls neither
`ParseAndVerifyToken` nor `User` and hits no nil dereference. -/
theorem C5_auth_disabled_synthetic_administrator (bouncer : RequestBouncer) (next : Handler)
    (r : Request) (hdisabled : bouncer.authDisabled = true) :
    mwCheckAuthentication bouncer next r =
      next (storeTokenData r { ID := 0, Username := "", Role := AdministratorRole }) ∧
    RetrieveTokenData (storeTokenData r { ID := 0, Username := "", Role := AdministratorRole }) =
      .ok { ID := 0, Username := "", Role := AdministratorRole } ∧
    (∀ e ∈ mwCheckAuthentication bouncer (fun _ => []) r,
      e.isTokenOrUserCall = false ∧ e ≠ Event.nilDereference) ∧
    (∀ newService, initJWTService (!bouncer.authDisabled) newService = none) := by
  refine ⟨?_, ?_, ?_, ?_⟩
  · simp [mwCheckAuthentication, hdisabled]
  · simp [RetrieveTokenData, storeTokenData]
  · simp [mwCheckAuthentication, hdisabled]
  · simp [initJWTService, hdisabled]

theorem C5_auth_disabled_synthetic_administrator_witness :
    mwCheckAuthentication noAuthBouncer sampleHandler sampleAnonymousRequest =
      sampleHandler (storeTokenData sampleAnonymousRequest
        { ID := 0, Username := "", Role := AdministratorRole }) :=
  (C5_auth_disabled_synthetic_administrator noAuthBouncer sampleHandler sampleAnonymousRequest
    rfl).1

/-- C6: for every user id and every role other than `AdministratorRole`,
`newRestrictedContextRequest` calls `TeamMembershipsByUserID(userID)` exactly once and makes
no other call; when the fetch succeeds with list `M` it returns a context with
`IsAdmin = false`, `UserID = userID`, `UserMemberships = M`, and `IsTeamLeader = true` if and
only if some membership of `M` has `Role = TeamLeader`; when the fetch fails it returns the
error of the fetch. -/
theorem C6_newRestrictedContextRequest_non_admin (bouncer : RequestBouncer) (userID : UserID)
    (userRole : UserRole) (hrole : userRole ≠ AdministratorRole) :
    (newRestrictedContextRequest bouncer userID userRole).1 =
      [Event.TeamMembershipsByUserID userID] ∧
    (∀ M, bouncer.teamMembershipService.TeamMembershipsByUserID userID = .ok M →
      ∃ requestContext,
        (newRestrictedContextRequest bouncer userID userRole).2 = .ok requestContext ∧
        requestContext.IsAdmin = false ∧ requestContext.UserID = userID ∧
        requestContext.UserMemberships = M ∧
        (requestContext.IsTeamLeader = true ↔ ∃ m ∈ M, m.Role = TeamLeader)) ∧
    (∀ err, bouncer.teamMembershipService.TeamMembershipsByUserID userID = .error err →
      (newRestrictedContextRequest bouncer userID userRole).2 = .error err) := by
  refine ⟨?_, ?_, ?_⟩
  · cases h : bouncer.teamMembershipService.TeamMembershipsByUserID userID <;>
      simp [newRestrictedContextRequest, hrole, h]
  · intro M h
    refine ⟨{ IsAdmin := false, IsTeamLeader := isTeamLeaderLoop M false, UserID := userID,
              UserMemberships := M }, ?_, rfl, rfl, rfl, ?_⟩
    · simp [newRestrictedContextRequest, hrole, h]
    · simp [isTeamLeaderLoop_eq]
  · intro err h
    simp [newRestrictedContextRequest, hrole, h]

theorem C6_newRestrictedContextRequest_non_admin_witness :
    (newRestrictedContextRequest sampleBouncer 7 StandardUserRole).1 =
      [Event.TeamMembershipsByUserID 7] ∧
    (newRestrictedContextRequest sampleBouncer 7 StandardUserRole).2 =
      .ok { IsAdmin := false, IsTeamLeader := true, UserID := 7,
            UserMemberships := [sampleMembership, sampleLeaderMembership] } :=
  ⟨(C6_newRestrictedContextRequest_non_admin sampleBouncer 7 StandardUserRole (by decide)).1,
    rfl⟩

/-- C7: for every user id and every bouncer, `newRestrictedContextRequest(userID,
AdministratorRole)` makes no service call and returns, without error, the context
`{IsAdmin: true, IsTeamLeader: false, UserID: userID, UserMemberships: empty}`; in
particular it succeeds when the membership store fails on every call. -/
theorem C7_newRestrictedContextRequest_admin (bouncer : RequestBouncer) (userID : UserID) :
    newRestrictedContextRequest bouncer userID AdministratorRole =
      ([], .ok { IsAdmin := true, IsTeamLeader := false, UserID := userID,
                 UserMemberships := [] }) ∧
    newRestrictedContextRequest failingBouncer userID AdministratorRole =
      ([], .ok { IsAdmin := true, IsTeamLeader := false, UserID := userID,
                 UserMemberships := [] }) := by
  simp [newRestrictedContextRequest]

/-- C8: `AdministratorAccess(h)`. A request that passes authentication with a role other
than `AdministratorRole` is answered 403 `ErrResourceAccessDenied`: the events are the two
security headers, the two authentication calls and the error response, so `h` is not invoked
and the team-membership service is not called. A request that passes authentication with
`AdministratorRole` (by a verified token, or by the synthetic identity when authentication
is disabled) runs `h` exactly once, on the request carrying the token data. -/
theorem C8_AdministratorAccess (bouncer : RequestBouncer) (h : Handler) (r : Request) :
    (∀ jwtService tokenData user, bouncer.authDisabled = false → bearerToken r ≠ "" →
      bouncer.jwtService = some jwtService →
      jwtService.ParseAndVerifyToken (bearerToken r) = .ok tokenData →
      bouncer.userService.User tokenData.ID = .ok user →
      (tokenData.Role ≠ AdministratorRole →
        AdministratorAccess bouncer h r =
          [Event.HeaderAdd "X-Content-Type-Options" "nosniff",
           Event.HeaderAdd "X-Frame-Options" "DENY",
           Event.ParseAndVerifyToken (bearerToken r), Event.User tokenData.ID,
           Event.WriteErrorResponse Error.ErrResourceAccessDenied StatusForbidden]) ∧
      (tokenData.Role = AdministratorRole →
        AdministratorAccess bouncer h r =
          [Event.HeaderAdd "X-Content-Type-Options" "nosniff",
           Event.HeaderAdd "X-Frame-Options" "DENY",
           Event.ParseAndVerifyToken (bearerToken r), Event.User tokenData.ID] ++
            h (storeTokenData r tokenData))) ∧
    (bouncer.authDisabled = true →
      AdministratorAccess bouncer h r =
        [Event.HeaderAdd "X-Content-Type-Options" "nosniff",
         Event.HeaderAdd "X-Frame-Options" "DENY"] ++
          h (storeTokenData r { ID := 0, Username := "", Role := AdministratorRole })) := by
  refine ⟨?_, ?_⟩
  · intro jwtService tokenData user hauth htoken hjwt hparse huser
    refine ⟨?_, ?_⟩
    · intro hrole
      simp [AdministratorAccess, AuthenticatedAccess, mwSecureHeaders,
        mwCheckAuthentication_accept bouncer _ r jwtService tokenData user hauth htoken hjwt
          hparse huser,
        mwCheckAdministratorRole, RetrieveTokenData, storeTokenData, hrole]
    · intro hrole
      simp [AdministratorAccess, AuthenticatedAccess, mwSecureHeaders,
        mwCheckAuthentication_accept bouncer _ r jwtService tokenData user hauth htoken hjwt
          hparse huser,
        mwCheckAdministratorRole, RetrieveTokenData, storeTokenData, hrole]
  · intro hdisabled
    simp [AdministratorAccess, AuthenticatedAccess, mwSecureHeaders, mwCheckAuthentication,
      hdisabled, mwCheckAdministratorRole, RetrieveTokenData, storeTokenData]

theorem C8_AdministratorAccess_witness :
    AdministratorAccess sampleBouncer sampleHandler sampleRequest =
      [Event.HeaderAdd "X-Content-Type-Options" "nosniff",
       Event.HeaderAdd "X-Frame-Options" "DENY",
       Event.ParseAndVerifyToken "good", Event.User 7,
       Event.WriteErrorResponse Error.ErrResourceAccessDenied StatusForbidden] :=
  ((C8_AdministratorAccess sampleBouncer sampleHandler sampleRequest).1 sampleJWTService
    sampleTokenData { ID := 7, Username := "bob", Role := StandardUserRole }
    rfl (by decide) rfl rfl rfl).1 (by decide)

/-- C9: `RestrictedAccess(h)`. For every request that passes authentication with a role
other than `AdministratorRole` and for which `TeamMembershipsByUserID` returns an error, the
response is 500 with that error: the events are the two security headers, the two
authentication calls, the one membership fetch and the error response. No
`RestrictedRequestContext` is built or stored and `h` is not invoked. The same holds for
`mwUpgradeToRestrictedRequest` alone on any request carrying such token data. -/
theorem C9_RestrictedAccess_membership_failure (bouncer : RequestBouncer) (h : Handler)
    (r : Request) (jwtService : JWTService) (tokenData : TokenData) (user : User) (err : Error)
    (hauth : bouncer.authDisabled = false) (htoken : bearerToken r ≠ "")
    (hjwt : bouncer.jwtService = some jwtService)
    (hparse : jwtService.ParseAndVerifyToken (bearerToken r) = .ok tokenData)
    (huser : bouncer.userService.User tokenData.ID = .ok user)
    (hrole : tokenData.Role ≠ AdministratorRole)
    (hfetch : bouncer.teamMembershipService.TeamMembershipsByUserID tokenData.ID = .error err) :
    RestrictedAccess bouncer h r =
      [Event.HeaderAdd "X-Content-Type-Options" "nosniff",
       Event.HeaderAdd "X-Frame-Options" "DENY",
       Event.ParseAndVerifyToken (bearerToken r), Event.User tokenData.ID,
       Event.TeamMembershipsByUserID tokenData.ID,
       Event.WriteErrorResponse err StatusInternalServerError] ∧
    mwUpgradeToRestrictedRequest bouncer h (storeTokenData r tokenData) =
      [Event.TeamMembershipsByUserID tokenData.ID,
       Event.WriteErrorResponse err StatusInternalServerError] := by
  have hup : mwUpgradeToRestrictedRequest bouncer h (storeTokenData r tokenData) =
      [Event.TeamMembershipsByUserID tokenData.ID,
       Event.WriteErrorResponse err StatusInternalServerError] := by
    simp [mwUpgradeToRestrictedRequest, RetrieveTokenData, storeTokenData,
      newRestrictedContextRequest, hrole, hfetch]
  refine ⟨?_, hup⟩
  simp only [RestrictedAccess, AuthenticatedAccess, mwSecureHeaders,
    mwCheckAuthentication_accept bouncer _ r jwtService tokenData user hauth htoken hjwt
      hparse huser, hup]

theorem C9_RestrictedAccess_membership_failure_witness :
    RestrictedAccess failingBouncer sampleHandler sampleRequest =
      [Event.HeaderAdd "X-Content-Type-Options" "nosniff",
       Event.HeaderAdd "X-Frame-Options" "DENY",
       Event.ParseAndVerifyToken "good", Event.User 7,
       Event.TeamMembershipsByUserID 7,
       Event.WriteErrorResponse (Error.other "database closed") StatusInternalServerError] :=
  (C9_RestrictedAccess_membership_failure failingBouncer sampleHandler sampleRequest
    sampleJWTService sampleTokenData { ID := 7, Username := "bob", Role := StandardUserRole }
    (Error.other "database closed") rfl (by decide) rfl rfl rfl (by decide) rfl).1

/-! ## The proxy handlers (docker.go, azure.go, extensions/storidge.go) -/

theorem docker_proxy_only_if_granted (Atoi : String → Except Error Int) (docker : DockerHandler)
    (r : Request) (tokenData : TokenData) (htoken : r.tokenData = some tokenData)
    (hrole : tokenData.Role ≠ AdministratorRole)
    (hex : ∃ e ∈ proxyRequestsToDockerAPI Atoi docker r, e.isProxyEvent = true) :
    endpointAccessGranted Atoi docker.EndpointService docker.EndpointGroupService
      docker.TeamMembershipService r tokenData := by
  cases hA : Atoi r.id with
  | error err =>
    simp [proxyRequestsToDockerAPI, hA, Event.isProxyEvent] at hex
  | ok n =>
    cases hE : docker.EndpointService.Endpoint n with
    | error err =>
      simp [proxyRequestsToDockerAPI, hA, hE, Event.isProxyEvent] at hex
    | ok endpoint =>
      cases hM : docker.TeamMembershipService.TeamMembershipsByUserID tokenData.ID with
      | error err =>
        simp [proxyRequestsToDockerAPI, hA, hE, RetrieveTokenData, htoken, hM,
          Event.isProxyEvent] at hex
      | ok memberships =>
        cases hG : docker.EndpointGroupService.EndpointGroup endpoint.GroupID with
        | error err =>
          simp [proxyRequestsToDockerAPI, hA, hE, RetrieveTokenData, htoken, hM, hrole, hG,
            Event.isProxyEvent] at hex
        | ok group =>
          cases hZ : AuthorizedEndpointAccess endpoint group tokenData.ID memberships with
          | false =>
            simp [proxyRequestsToDockerAPI, hA, hE, RetrieveTokenData, htoken, hM, hrole, hG,
              hZ, Event.isProxyEvent] at hex
          | true => exact ⟨n, endpoint, group, memberships, hA, hE, hG, hM, hZ⟩

theorem azure_proxy_only_if_granted (Atoi : String → Except Error Int) (azure : AzureHandler)
    (r : Request) (tokenData : TokenData) (htoken : r.tokenData = some tokenData)
    (hrole : tokenData.Role ≠ AdministratorRole)
    (hex : ∃ e ∈ proxyRequestsToAzureAPI Atoi azure r, e.isProxyEvent = true) :
    endpointAccessGranted Atoi azure.EndpointService azure.EndpointGroupService
      azure.TeamMembershipService r tokenData := by
  cases hA : Atoi r.id with
  | error err =>
    simp [proxyRequestsToAzureAPI, hA, Event.isProxyEvent] at hex
  | ok n =>
    cases hE : azure.EndpointService.Endpoint n with
    | error err =>
      simp [proxyRequestsToAzureAPI, hA, hE, Event.isProxyEvent] at hex
    | ok endpoint =>
      cases hM : azure.TeamMembershipService.TeamMembershipsByUserID tokenData.ID with
      | error err =>
        by_cases herr : err = Error.ErrEndpointAccessDenied <;>
          simp [proxyRequestsToAzureAPI, hA, hE, RetrieveTokenData, htoken, hrole,
            checkEndpointAccess, hM, herr, Event.isProxyEvent] at hex
      | ok memberships =>
        cases hG : azure.EndpointGroupService.EndpointGroup endpoint.GroupID with
        | error err =>
          by_cases herr : err = Error.ErrEndpointAccessDenied <;>
            simp [proxyRequestsToAzureAPI, hA, hE, RetrieveTokenData, htoken, hrole,
              checkEndpointAccess, hM, hG, herr, Event.isProxyEvent] at hex
        | ok group =>
          cases hZ : AuthorizedEndpointAccess endpoint group tokenData.ID memberships with
          | false =>
            simp [proxyRequestsToAzureAPI, hA, hE, RetrieveTokenData, htoken, hrole,
              checkEndpointAccess, hM, hG, hZ, Event.isProxyEvent] at hex
          | true => exact ⟨n, endpoint, group, memberships, hA, hE, hG, hM, hZ⟩

theorem storidge_proxy_only_if_granted (Atoi : String → Except Error Int)
    (storidge : StoridgeHandler)
    (r : Request) (tokenData : TokenData) (htoken : r.tokenData = some tokenData)
    (hrole : tokenData.Role ≠ AdministratorRole)
    (hex : ∃ e ∈ proxyRequestsToStoridgeAPI Atoi storidge r, e.isProxyEvent = true) :
    endpointAccessGranted Atoi storidge.EndpointService storidge.EndpointGroupService
      storidge.TeamMembershipService r tokenData := by
  cases hA : Atoi r.id with
  | error err =>
    simp [proxyRequestsToStoridgeAPI, hA, Event.isProxyEvent] at hex
  | ok n =>
    cases hE : storidge.EndpointService.Endpoint n with
    | error err =>
      simp [proxyRequestsToStoridgeAPI, hA, hE, Event.isProxyEvent] at hex
    | ok endpoint =>
      cases hM : storidge.TeamMembershipService.TeamMembershipsByUserID tokenData.ID with
      | error err =>
        simp [proxyRequestsToStoridgeAPI, hA, hE, RetrieveTokenData, htoken, hM,
          Event.isProxyEvent] at hex
      | ok memberships =>
        cases hG : storidge.EndpointGroupService.EndpointGroup endpoint.GroupID with
        | error err =>
          simp [proxyRequestsToStoridgeAPI, hA, hE, RetrieveTokenData, htoken, hM, hrole, hG,
            Event.isProxyEvent] at hex
        | ok group =>
          cases hZ : AuthorizedEndpointAccess endpoint group tokenData.ID memberships with
          | false =>
            simp [proxyRequestsToStoridgeAPI, hA, hE, RetrieveTokenData, htoken, hM, hrole,
              hG, hZ, Event.isProxyEvent] at hex
          | true => exact ⟨n, endpoint, group, memberships, hA, hE, hG, hM, hZ⟩

theorem serveEndpointProxy_no_group_fetch (manager : ProxyManager) (stripped : String)
    (endpointID : EndpointID) (endpoint : Endpoint) :
    ∀ e ∈ serveEndpointProxy manager stripped endpointID endpoint,
      e.isEndpointGroupFetch = false := by
  intro e he
  simp only [serveEndpointProxy] at he
  cases hP : manager.GetProxy (stringOfInt endpointID) with
  | some proxy =>
    simp [hP] at he
    rcases he with rfl | rfl <;> rfl
  | none =>
    cases hC : manager.CreateAndRegisterProxy endpoint with
    | error err =>
      simp [hP, hC] at he
      rcases he with rfl | rfl | rfl <;> rfl
    | ok proxy =>
      simp [hP, hC] at he
      rcases he with rfl | rfl | rfl <;> rfl

theorem serveStoridgeProxy_no_group_fetch (manager : ProxyManager) (stripped : String)
    (endpoint : Endpoint) :
    ∀ e ∈ serveStoridgeProxy manager stripped endpoint, e.isEndpointGroupFetch = false := by
  intro e he
  simp only [serveStoridgeProxy] at he
  cases hX : storidgeExtensionLoop endpoint.Extensions with
  | none =>
    simp [hX] at he
    subst he
    rfl
  | some ext =>
    cases hP : manager.GetExtensionProxy
        (stringOfInt endpoint.ID ++ "_" ++ stringOfInt StoridgeEndpointExtension) with
    | some proxy =>
      simp [hX, hP] at he
      rcases he with rfl | rfl <;> rfl
    | none =>
      cases hC : manager.CreateAndRegisterExtensionProxy
          (stringOfInt endpoint.ID ++ "_" ++ stringOfInt StoridgeEndpointExtension) ext.URL with
      | error err =>
        simp [hX, hP, hC] at he
        rcases he with rfl | rfl | rfl <;> rfl
      | ok proxy =>
        simp [hX, hP, hC] at he
        rcases he with rfl | rfl | rfl <;> rfl

theorem docker_admin_no_group_fetch (Atoi : String → Except Error Int) (docker : DockerHandler)
    (r : Request) (tokenData : TokenData) (htoken : r.tokenData = some tokenData)
    (hrole : tokenData.Role = AdministratorRole) :
    ∀ e ∈ proxyRequestsToDockerAPI Atoi docker r, e.isEndpointGroupFetch = false := by
  intro e he
  cases hA : Atoi r.id with
  | error err =>
    simp [proxyRequestsToDockerAPI, hA] at he
    subst he; rfl
  | ok n =>
    cases hE : docker.EndpointService.Endpoint n with
    | error err =>
      simp [proxyRequestsToDockerAPI, hA, hE] at he
      rcases he with rfl | rfl <;> rfl
    | ok endpoint =>
      cases hM : docker.TeamMembershipService.TeamMembershipsByUserID tokenData.ID with
      | error err =>
        simp [proxyRequestsToDockerAPI, hA, hE, RetrieveTokenData, htoken, hM] at he
        rcases he with rfl | rfl | rfl <;> rfl
      | ok memberships =>
        simp only [proxyRequestsToDockerAPI, hA, hE, RetrieveTokenData, htoken, hM, hrole,
          bne_self_eq_false, Bool.false_eq_true, if_false, List.mem_cons] at he
        rcases he with rfl | rfl | he
        · rfl
        · rfl
        · exact serveEndpointProxy_no_group_fetch _ _ _ _ e he

theorem azure_admin_no_group_fetch (Atoi : String → Except Error Int) (azure : AzureHandler)
    (r : Request) (tokenData : TokenData) (htoken : r.tokenData = some tokenData)
    (hrole : tokenData.Role = AdministratorRole) :
    ∀ e ∈ proxyRequestsToAzureAPI Atoi azure r, e.isEndpointGroupFetch = false := by
  intro e he
  cases hA : Atoi r.id with
  | error err =>
    simp [proxyRequestsToAzureAPI, hA] at he
    subst he; rfl
  | ok n =>
    cases hE : azure.EndpointService.Endpoint n with
    | error err =>
      simp [proxyRequestsToAzureAPI, hA, hE] at he
      rcases he with rfl | rfl <;> rfl
    | ok endpoint =>
      simp only [proxyRequestsToAzureAPI, hA, hE, RetrieveTokenData, htoken, hrole,
        bne_self_eq_false, Bool.false_eq_true, if_false, List.mem_cons] at he
      rcases he with rfl | he
      · rfl
      · exact serveEndpointProxy_no_group_fetch _ _ _ _ e he

theorem storidge_admin_no_group_fetch (Atoi : String → Except Error Int)
    (storidge : StoridgeHandler)
    (r : Request) (tokenData : TokenData) (htoken : r.tokenData = some tokenData)
    (hrole : tokenData.Role = AdministratorRole) :
    ∀ e ∈ proxyRequestsToStoridgeAPI Atoi storidge r, e.isEndpointGroupFetch = false := by
  intro e he
  cases hA : Atoi r.id with
  | error err =>
    simp [proxyRequestsToStoridgeAPI, hA] at he
    subst he; rfl
  | ok n =>
    cases hE : storidge.EndpointService.Endpoint n with
    | error err =>
      simp [proxyRequestsToStoridgeAPI, hA, hE] at he
      rcases he with rfl | rfl <;> rfl
    | ok endpoint =>
      cases hM : storidge.TeamMembershipService.TeamMembershipsByUserID tokenData.ID with
      | error err =>
        simp [proxyRequestsToStoridgeAPI, hA, hE, RetrieveTokenData, htoken, hM] at he
        rcases he with rfl | rfl | rfl <;> rfl
      | ok memberships =>
        simp only [proxyRequestsToStoridgeAPI, hA, hE, RetrieveTokenData, htoken, hM, hrole,
          bne_self_eq_false, Bool.false_eq_true, if_false, List.mem_cons] at he
        rcases he with rfl | rfl | he
        · rfl
        · rfl
        · exact serveStoridgeProxy_no_group_fetch _ _ _ e he

/-- C10: the three proxy handlers gate the proxy on `AuthorizedEndpointAccess`. For a
request whose token role is not `AdministratorRole`: (1) a proxy is looked up, created or
served only if the endpoint, the group with id `endpoint.GroupID` and the caller's
memberships are resolved and `AuthorizedEndpointAccess(endpoint, group, caller id,
memberships)` is true; (2) when they are resolved and the predicate is false, the response is
403 `ErrEndpointAccessDenied` right after the lookups, with no proxy event. For a request
whose token role is `AdministratorRole`: (3) the endpoint group is not fetched, and the
outcome does not depend on the endpoint-group service, so the predicate is not evaluated. -/
theorem C10_proxy_handlers_gate (Atoi : String → Except Error Int) (docker : DockerHandler)
    (azure : AzureHandler) (storidge : StoridgeHandler) (r : Request) (tokenData : TokenData)
    (htoken : r.tokenData = some tokenData) :
    (tokenData.Role ≠ AdministratorRole →
      ((∃ e ∈ proxyRequestsToDockerAPI Atoi docker r, e.isProxyEvent = true) →
        endpointAccessGranted Atoi docker.EndpointService docker.EndpointGroupService
          docker.TeamMembershipService r tokenData) ∧
      ((∃ e ∈ proxyRequestsToAzureAPI Atoi azure r, e.isProxyEvent = true) →
        endpointAccessGranted Atoi azure.EndpointService azure.EndpointGroupService
          azure.TeamMembershipService r tokenData) ∧
      ((∃ e ∈ proxyRequestsToStoridgeAPI Atoi storidge r, e.isProxyEvent = true) →
        endpointAccessGranted Atoi storidge.EndpointService storidge.EndpointGroupService
          storidge.TeamMembershipService r tokenData)) ∧
    (tokenData.Role ≠ AdministratorRole →
      (∀ n endpoint group memberships, Atoi r.id = .ok n →
        docker.EndpointService.Endpoint n = .ok endpoint →
        docker.EndpointGroupService.EndpointGroup endpoint.GroupID = .ok group →
        docker.TeamMembershipService.TeamMembershipsByUserID tokenData.ID = .ok memberships →
        AuthorizedEndpointAccess endpoint group tokenData.ID memberships = false →
        proxyRequestsToDockerAPI Atoi docker r =
          [Event.Endpoint n, Event.TeamMembershipsByUserID tokenData.ID,
           Event.EndpointGroup endpoint.GroupID,
           Event.WriteErrorResponse Error.ErrEndpointAccessDenied StatusForbidden]) ∧
      (∀ n endpoint group memberships, Atoi r.id = .ok n →
        azure.EndpointService.Endpoint n = .ok endpoint →
        azure.EndpointGroupService.EndpointGroup endpoint.GroupID = .ok group →
        azure.TeamMembershipService.TeamMembershipsByUserID tokenData.ID = .ok memberships →
        AuthorizedEndpointAccess endpoint group tokenData.ID memberships = false →
        proxyRequestsToAzureAPI Atoi azure r =
          [Event.Endpoint n, Event.TeamMembershipsByUserID tokenData.ID,
           Event.EndpointGroup endpoint.GroupID,
           Event.WriteErrorResponse Error.ErrEndpointAccessDenied StatusForbidden]) ∧
      (∀ n endpoint group memberships, Atoi r.id = .ok n →
        storidge.EndpointService.Endpoint n = .ok endpoint →
        storidge.EndpointGroupService.EndpointGroup endpoint.GroupID = .ok group →
        storidge.TeamMembershipService.TeamMembershipsByUserID tokenData.ID = .ok memberships →
        AuthorizedEndpointAccess endpoint group tokenData.ID memberships = false →
        proxyRequestsToStoridgeAPI Atoi storidge r =
          [Event.Endpoint n, Event.TeamMembershipsByUserID tokenData.ID,
           Event.EndpointGroup endpoint.GroupID,
           Event.WriteErrorResponse Error.ErrEndpointAccessDenied StatusForbidden])) ∧
    (tokenData.Role = AdministratorRole →
      (∀ e ∈ proxyRequestsToDockerAPI Atoi docker r, e.isEndpointGroupFetch = false) ∧
      (∀ e ∈ proxyRequestsToAzureAPI Atoi azure r, e.isEndpointGroupFetch = false) ∧
      (∀ e ∈ proxyRequestsToStoridgeAPI Atoi storidge r, e.isEndpointGroupFetch = false) ∧
      (∀ groupService,
        proxyRequestsToDockerAPI Atoi { docker with EndpointGroupService := groupService } r =
          proxyRequestsToDockerAPI Atoi docker r ∧
        proxyRequestsToAzureAPI Atoi { azure with EndpointGroupService := groupService } r =
          proxyRequestsToAzureAPI Atoi azure r ∧
        proxyRequestsToStoridgeAPI Atoi { storidge with EndpointGroupService := groupService } r =
          proxyRequestsToStoridgeAPI Atoi storidge r)) := by
  refine ⟨?_, ?_, ?_⟩
  · intro hrole
    exact ⟨docker_proxy_only_if_granted Atoi docker r tokenData htoken hrole,
      azure_proxy_only_if_granted Atoi azure r tokenData htoken hrole,
      storidge_proxy_only_if_granted Atoi storidge r tokenData htoken hrole⟩
  · intro hrole
    refine ⟨?_, ?_, ?_⟩
    · intro n endpoint group memberships hA hE hG hM hZ
      simp [proxyRequestsToDockerAPI, hA, hE, RetrieveTokenData, htoken, hM, hrole, hG, hZ]
    · intro n endpoint group memberships hA hE hG hM hZ
      simp [proxyRequestsToAzureAPI, hA, hE, RetrieveTokenData, htoken, hrole,
        checkEndpointAccess, hM, hG, hZ]
    · intro n endpoint group memberships hA hE hG hM hZ
      simp [proxyRequestsToStoridgeAPI, hA, hE, RetrieveTokenData, htoken, hM, hrole, hG, hZ]
  · intro hrole
    refine ⟨docker_admin_no_group_fetch Atoi docker r tokenData htoken hrole,
      azure_admin_no_group_fetch Atoi azure r tokenData htoken hrole,
      storidge_admin_no_group_fetch Atoi storidge r tokenData htoken hrole, ?_⟩
    intro groupService
    refine ⟨?_, ?_, ?_⟩
    · simp [proxyRequestsToDockerAPI, RetrieveTokenData, htoken, hrole]
    · simp [proxyRequestsToAzureAPI, RetrieveTokenData, htoken, hrole]
    · simp [proxyRequestsToStoridgeAPI, RetrieveTokenData, htoken, hrole]

theorem C10_proxy_handlers_gate_witness :
    proxyRequestsToDockerAPI sampleAtoi sampleDockerHandler sampleDeniedRequest =
      [Event.Endpoint 3, Event.TeamMembershipsByUserID 7, Event.EndpointGroup 1,
       Event.WriteErrorResponse Error.ErrEndpointAccessDenied StatusForbidden] :=
  ((C10_proxy_handlers_gate sampleAtoi sampleDockerHandler sampleAzureHandler
    sampleStoridgeHandler sampleDeniedRequest sampleTokenData rfl).2.1 (by decide)).1
    3 (sampleEndpoints.get ⟨2, by decide⟩) (sampleGroups.get ⟨0, by decide⟩)
    [sampleMembership, sampleLeaderMembership] rfl rfl rfl rfl (by decide)

/-! ## The registry credential injector (registry.go) -/

theorem matchingRegistryLoop_eq_find (serverAddress : String)
    (accessContext : registryAccessContext) (registries : List Registry) :
    matchingRegistryLoop serverAddress accessContext registries =
      registries.find? (registrySelectable serverAddress accessContext) := by
  induction registries with
  | nil => rfl
  | cons r rest ih =>
    have hcond : (r.URL == serverAddress &&
        (accessContext.isAdmin ||
          (!accessContext.isAdmin &&
            AuthorizedRegistryAccess r accessContext.userID accessContext.teamMemberships))) =
        registrySelectable serverAddress accessContext r := by
      unfold registrySelectable
      cases accessContext.isAdmin <;> simp
    simp only [matchingRegistryLoop, hcond, List.find?_cons, ih]
    cases registrySelectable serverAddress accessContext r <;> simp

/-- C11: for every access context with a configured Dockerhub credential,
`createRegistryAuthenticationHeader("", ctx)` returns the header whose `Username` and
`Password` are the Dockerhub credential's and whose `Serveraddress` is "docker.io"; two
contexts with the same Dockerhub credential get the same header, whatever their registry
lists, admin flags, user ids and memberships are. -/
theorem C11_empty_address_returns_dockerhub (accessContext : registryAccessContext)
    (dockerHub : DockerHub) (hhub : accessContext.dockerHub = some dockerHub) :
    createRegistryAuthenticationHeader "" accessContext =
      some (some { Username := dockerHub.Username, Password := dockerHub.Password,
                   Serveraddress := "docker.io" }) ∧
    (∀ isAdmin userID teamMemberships registries,
      createRegistryAuthenticationHeader ""
        { isAdmin := isAdmin, userID := userID, teamMemberships := teamMemberships,
          registries := registries, dockerHub := accessContext.dockerHub } =
      createRegistryAuthenticationHeader "" accessContext) := by
  simp [createRegistryAuthenticationHeader, hhub]

theorem C11_empty_address_returns_dockerhub_witness :
    createRegistryAuthenticationHeader "" sampleAccessContext =
      some (some { Username := "hubuser", Password := "hubpass",
                   Serveraddress := "docker.io" }) :=
  (C11_empty_address_returns_dockerhub sampleAccessContext sampleDockerHub rfl).1

/-- C12: for every non-empty server address `a` and every access context,
`createRegistryAuthenticationHeader(a, ctx)` returns the header made of the `Username`,
`Password` and `URL` of the first registry `r`, in list order, with `r.URL = a` and
(`ctx.isAdmin` or `AuthorizedRegistryAccess(r, ctx.userID, ctx.teamMemberships)`); it
returns the nil header if and only if no registry of the list satisfies this; every header
returned comes from a registry that satisfies it. -/
theorem C12_address_selects_first_authorized_registry (serverAddress : String)
    (accessContext : registryAccessContext) (haddress : serverAddress ≠ "") :
    createRegistryAuthenticationHeader serverAddress accessContext =
      some ((accessContext.registries.find?
        (fun r => r.URL == serverAddress &&
          (accessContext.isAdmin ||
            AuthorizedRegistryAccess r accessContext.userID
              accessContext.teamMemberships))).map
        (fun r => { Username := r.Username, Password := r.Password,
                    Serveraddress := r.URL })) ∧
    (createRegistryAuthenticationHeader serverAddress accessContext = some none ↔
      ∀ r ∈ accessContext.registries,
        ¬ (r.URL = serverAddress ∧
          (accessContext.isAdmin = true ∨
            AuthorizedRegistryAccess r accessContext.userID
              accessContext.teamMemberships = true))) ∧
    (∀ header, createRegistryAuthenticationHeader serverAddress accessContext =
        some (some header) →
      ∃ r ∈ accessContext.registries, r.URL = serverAddress ∧
        (accessContext.isAdmin = true ∨
          AuthorizedRegistryAccess r accessContext.userID
            accessContext.teamMemberships = true) ∧
        header = { Username := r.Username, Password := r.Password,
                   Serveraddress := r.URL }) := by
  have hmain : createRegistryAuthenticationHeader serverAddress accessContext =
      some ((accessContext.registries.find?
        (registrySelectable serverAddress accessContext)).map registryHeader) := by
    simp only [createRegistryAuthenticationHeader, matchingRegistryLoop_eq_find]
    have hne : (serverAddress == "") = false := by simpa using haddress
    simp only [hne, Bool.false_eq_true, if_false]
    cases accessContext.registries.find? (registrySelectable serverAddress accessContext) <;>
      rfl
  refine ⟨hmain, ?_, ?_⟩
  · rw [hmain]
    simp only [Option.some.injEq, Option.map_eq_none', List.find?_eq_none]
    constructor
    · intro h r hr hc
      apply h r hr
      simpa [registrySelectable] using hc
    · intro h r hr hc
      apply h r hr
      simpa [registrySelectable] using hc
  · intro header hheader
    rw [hmain] at hheader
    simp only [Option.some.injEq, Option.map_eq_some'] at hheader
    obtain ⟨r, hfind, rfl⟩ := hheader
    have hsel := List.find?_some hfind
    simp only [registrySelectable, Bool.and_eq_true, beq_iff_eq, Bool.or_eq_true] at hsel
    exact ⟨r, List.mem_of_find?_eq_some hfind, hsel.1, hsel.2, rfl⟩

theorem C12_address_selects_first_authorized_registry_witness :
    createRegistryAuthenticationHeader "reg.two" sampleAccessContext = some none :=
  (C12_address_selects_first_authorized_registry "reg.two" sampleAccessContext
    (by decide)).2.1.mpr (by decide)

/-! ## Team listing (filter.go) -/

theorem find_team_by_id_of_nodup (teams : List Team) (hdistinct : (teams.map (fun t => t.ID)).Nodup)
    (id : TeamID) (t : Team) :
    teams.find? (fun team => team.ID == id) = some t ↔ t ∈ teams ∧ t.ID = id := by
  induction teams with
  | nil => simp
  | cons x rest ih =>
    have hx : x.ID ∉ rest.map (fun t => t.ID) := (List.nodup_cons.mp hdistinct).1
    have hrest := (List.nodup_cons.mp hdistinct).2
    by_cases hxid : x.ID = id
    · simp only [List.find?_cons, hxid, beq_self_eq_true, Option.some.injEq, List.mem_cons]
      constructor
      · intro h; exact ⟨Or.inl h.symm, h ▸ hxid⟩
      · rintro ⟨h | h, hid⟩
        · exact h.symm
        · exact absurd (List.mem_map.mpr ⟨t, h, hid.trans hxid.symm⟩) hx
    · have hb : (x.ID == id) = false := by simpa using hxid
      simp only [List.find?_cons, hb, ih hrest, List.mem_cons]
      constructor
      · rintro ⟨h, hid⟩; exact ⟨Or.inr h, hid⟩
      · rintro ⟨h | h, hid⟩
        · exact absurd (h ▸ hid) hxid
        · exact ⟨h, hid⟩

/-- C16: for every non-administrator context and every team list with pairwise distinct
team IDs, a team `t` is in `FilterUserTeams(teams, ctx)` if and only if `t` is in `teams`
and some membership of `ctx.UserMemberships` has `TeamID = t.ID`. -/
theorem C16_FilterUserTeams_membership (teams : List Team) (context : RestrictedRequestContext)
    (hadmin : context.IsAdmin = false) (hdistinct : (teams.map (fun t => t.ID)).Nodup)
    (t : Team) :
    t ∈ FilterUserTeams teams context ↔
      t ∈ teams ∧ ∃ m ∈ context.UserMemberships, m.TeamID = t.ID := by
  simp only [FilterUserTeams, hadmin, Bool.not_false, if_true, filterUserTeamsLoop_eq,
    List.nil_append, List.mem_filterMap, find_team_by_id_of_nodup teams hdistinct]
  constructor
  · rintro ⟨m, hm, ht, hid⟩
    exact ⟨ht, m, hm, hid.symm⟩
  · rintro ⟨ht, m, hm, hid⟩
    exact ⟨m, hm, ht, hid.symm⟩

theorem C16_FilterUserTeams_membership_witness :
    ({ ID := 5, Name := "dev" } : Team) ∈ FilterUserTeams sampleTeams sampleUserContext ↔
      ({ ID := 5, Name := "dev" } : Team) ∈ sampleTeams ∧
        ∃ m ∈ sampleUserContext.UserMemberships, m.TeamID = 5 :=
  C16_FilterUserTeams_membership sampleTeams sampleUserContext rfl (by decide)
    { ID := 5, Name := "dev" }

/-! ## Resource-control lookup (resource_control_service.go) -/

theorem subResourceIDsLoop_eq (rc : ResourceControl) (resourceID : String)
    (subResourceIDs : List String) (acc : Option ResourceControl) :
    subResourceIDsLoop rc resourceID subResourceIDs acc =
      if resourceID ∈ subResourceIDs then some rc else acc := by
  induction subResourceIDs generalizing acc with
  | nil => simp [subResourceIDsLoop]
  | cons s rest ih =>
    by_cases h : s = resourceID
    · subst h
      simp only [subResourceIDsLoop, beq_self_eq_true, if_true, ih, List.mem_cons, true_or]
      split <;> rfl
    · have hb : (s == resourceID) = false := by simpa using h
      have hne : ¬ resourceID = s := fun e => h e.symm
      simp [subResourceIDsLoop, hb, ih, hne]

theorem resourceControl_step_eq (rc : ResourceControl) (resourceID : String)
    (acc : Option ResourceControl) :
    subResourceIDsLoop rc resourceID rc.SubResourceIDs
        (if rc.ResourceID == resourceID then some rc else acc) =
      if rc.matchesResourceID resourceID then some rc else acc := by
  rw [subResourceIDsLoop_eq]
  unfold ResourceControl.matchesResourceID
  by_cases h1 : resourceID ∈ rc.SubResourceIDs
  · simp [h1]
  · by_cases h2 : rc.ResourceID = resourceID
    · simp [h1, h2]
    · simp [h1, h2]

/-- On a bucket whose values all decode, the cursor loop returns; its result is the
accumulator it started from or a decoded record matching the id, and it is a record as soon
as the accumulator is one or some decoded record matches. -/
theorem resourceControlByResourceIDLoop_spec {V : Type} (codec : Codec ResourceControl V)
    (resourceID : String) (entries : List (Nat × V)) (acc : Option ResourceControl)
    (hdecode : ∀ e ∈ entries, ∃ rc, codec.Unmarshal e.2 = .ok rc) :
    ∃ res, resourceControlByResourceIDLoop codec resourceID entries acc = .ok res ∧
      (res = acc ∨ ∃ e ∈ entries, ∃ rc, codec.Unmarshal e.2 = .ok rc ∧ res = some rc ∧
        rc.matchesResourceID resourceID) ∧
      ((acc.isSome = true ∨ ∃ e ∈ entries, ∃ rc, codec.Unmarshal e.2 = .ok rc ∧
        rc.matchesResourceID resourceID) → res.isSome = true) := by
  induction entries generalizing acc with
  | nil =>
    refine ⟨acc, rfl, Or.inl rfl, ?_⟩
    rintro (h | ⟨e, he, _⟩)
    · exact h
    · simp at he
  | cons e rest ih =>
    obtain ⟨k, v⟩ := e
    obtain ⟨rc, hrc⟩ := hdecode (k, v) (List.mem_cons_self _ _)
    have hrest : ∀ e ∈ rest, ∃ rc, codec.Unmarshal e.2 = .ok rc :=
      fun e he => hdecode e (List.mem_cons_of_mem _ he)
    simp only at hrc
    obtain ⟨res, hres, horigin, hsome⟩ :=
      ih (if rc.matchesResourceID resourceID then some rc else acc) hrest
    refine ⟨res, ?_, ?_, ?_⟩
    · simp only [resourceControlByResourceIDLoop, hrc, resourceControl_step_eq]
      exact hres
    · rcases horigin with h | ⟨e, he, rc2, hdec2, hres2, hm2⟩
      · by_cases hm : rc.matchesResourceID resourceID
        · rw [if_pos hm] at h
          exact Or.inr ⟨(k, v), List.mem_cons_self _ _, rc, hrc, h, hm⟩
        · rw [if_neg hm] at h
          exact Or.inl h
      · exact Or.inr ⟨e, List.mem_cons_of_mem _ he, rc2, hdec2, hres2, hm2⟩
    · intro h
      apply hsome
      rcases h with h | ⟨e, he, rc2, hdec2, hm2⟩
      · left
        by_cases hm : rc.matchesResourceID resourceID
        · simp [hm]
        · simpa [hm] using h
      · rcases List.mem_cons.mp he with rfl | he
        · simp only at hdec2
          rw [hrc] at hdec2
          cases hdec2
          left
          simp [hm2]
        · exact Or.inr ⟨e, he, rc2, hdec2, hm2⟩

/-- C13: on every bucket whose stored values decode to records, and for every id,
`ResourceControlByResourceID(id)` returns a record if and only if some stored record has
`ResourceID = id` or has `id` among its `SubResourceIDs`; a returned record is a stored
record that satisfies this condition; otherwise the result is `ErrResourceControlNotFound`.
On the bucket holding the single record `{ResourceID: "c1", SubResourceIDs: ["v1","v2"]}`
the lookups on "c1", "v1" and "v2" return that record and the lookup on any other id returns
`ErrResourceControlNotFound`. -/
theorem C13_ResourceControlByResourceID {V : Type} (codec : Codec ResourceControl V)
    (bucket : Bucket V) (resourceID : String)
    (hdecode : ∀ e ∈ bucket.entries, ∃ rc, codec.Unmarshal e.2 = .ok rc) :
    ((∃ rc, Bolt.ResourceControlByResourceID codec bucket resourceID = .ok rc) ↔
      ∃ e ∈ bucket.entries, ∃ rc, codec.Unmarshal e.2 = .ok rc ∧
        (rc.ResourceID = resourceID ∨ resourceID ∈ rc.SubResourceIDs)) ∧
    (∀ rc, Bolt.ResourceControlByResourceID codec bucket resourceID = .ok rc →
      (∃ e ∈ bucket.entries, codec.Unmarshal e.2 = .ok rc) ∧
        (rc.ResourceID = resourceID ∨ resourceID ∈ rc.SubResourceIDs)) ∧
    ((¬ ∃ e ∈ bucket.entries, ∃ rc, codec.Unmarshal e.2 = .ok rc ∧
        (rc.ResourceID = resourceID ∨ resourceID ∈ rc.SubResourceIDs)) →
      Bolt.ResourceControlByResourceID codec bucket resourceID =
        .error Error.ErrResourceControlNotFound) ∧
    (∀ id, Bolt.ResourceControlByResourceID (jsonRoundTrip ResourceControl)
        sampleResourceControlBucket id =
      if id = "c1" ∨ id = "v1" ∨ id = "v2" then .ok sampleResourceControl
      else .error Error.ErrResourceControlNotFound) := by
  obtain ⟨res, hres, horigin, hsome⟩ :=
    resourceControlByResourceIDLoop_spec codec resourceID bucket.entries none hdecode
  have hreturned : ∀ rc, Bolt.ResourceControlByResourceID codec bucket resourceID = .ok rc →
      (∃ e ∈ bucket.entries, codec.Unmarshal e.2 = .ok rc) ∧
        (rc.ResourceID = resourceID ∨ resourceID ∈ rc.SubResourceIDs) := by
    intro rc hrc
    simp only [Bolt.ResourceControlByResourceID, hres] at hrc
    rcases horigin with h | ⟨e, he, rc2, hdec2, hres2, hm2⟩
    · subst h
      simp at hrc
    · subst hres2
      simp only [Except.ok.injEq] at hrc
      subst hrc
      exact ⟨⟨e, he, hdec2⟩, hm2⟩
  have hfound : (∃ e ∈ bucket.entries, ∃ rc, codec.Unmarshal e.2 = .ok rc ∧
        (rc.ResourceID = resourceID ∨ resourceID ∈ rc.SubResourceIDs)) →
      ∃ rc, Bolt.ResourceControlByResourceID codec bucket resourceID = .ok rc := by
    intro h
    have hs := hsome (Or.inr h)
    obtain ⟨rc, hrc⟩ := Option.isSome_iff_exists.mp hs
    exact ⟨rc, by simp [Bolt.ResourceControlByResourceID, hres, hrc]⟩
  refine ⟨⟨?_, hfound⟩, hreturned, ?_, ?_⟩
  · rintro ⟨rc, hrc⟩
    obtain ⟨⟨e, he, hdec⟩, hm⟩ := hreturned rc hrc
    exact ⟨e, he, rc, hdec, hm⟩
  · intro hnone
    cases hr : res with
    | none => simp [Bolt.ResourceControlByResourceID, hres, hr]
    | some rc =>
      exfalso
      apply hnone
      rcases horigin with h | ⟨e, he, rc2, hdec2, _, hm2⟩
      · rw [hr] at h
        cases h
      · exact ⟨e, he, rc2, hdec2, hm2⟩
  · intro id
    simp only [Bolt.ResourceControlByResourceID, sampleResourceControlBucket,
      resourceControlByResourceIDLoop, jsonRoundTrip, resourceControl_step_eq]
    by_cases hm : sampleResourceControl.matchesResourceID id
    · have hid : id = "c1" ∨ id = "v1" ∨ id = "v2" := by
        simpa [ResourceControl.matchesResourceID, sampleResourceControl, eq_comm] using hm
      simp [hm, hid]
    · have hid : ¬ (id = "c1" ∨ id = "v1" ∨ id = "v2") := by
        simpa [ResourceControl.matchesResourceID, sampleResourceControl, eq_comm] using hm
      simp [hm, hid]

theorem C13_ResourceControlByResourceID_witness :
    (∃ rc, Bolt.ResourceControlByResourceID (jsonRoundTrip ResourceControl)
        sampleResourceControlBucket "v2" = .ok rc) ↔
      ∃ e ∈ sampleResourceControlBucket.entries, ∃ rc,
        (jsonRoundTrip ResourceControl).Unmarshal e.2 = .ok rc ∧
          (rc.ResourceID = "v2" ∨ "v2" ∈ rc.SubResourceIDs) :=
  (C13_ResourceControlByResourceID (jsonRoundTrip ResourceControl) sampleResourceControlBucket
    "v2" (fun e _ => ⟨e.2, rfl⟩)).1

/-! ## Endpoint group deletion (endpoint_group.go) -/

/-- C17: `handleDeleteEndpointGroup` called with an id that parses to 1, the default group,
responds 403 `ErrCannotRemoveDefaultGroup` and does nothing else: no service is called, no
group is deleted, no endpoint is updated, and the store is left as it was. -/
theorem C17_default_group_not_removable (Atoi : String → Except Error Int) (store : Store)
    (r : Request) (hid : Atoi r.id = .ok 1) :
    handleDeleteEndpointGroup Atoi store r =
      ([Event.WriteErrorResponse Error.ErrCannotRemoveDefaultGroup StatusForbidden], store) ∧
    (∀ e ∈ (handleDeleteEndpointGroup Atoi store r).1, e.isStoreWrite = false) := by
  have h : handleDeleteEndpointGroup Atoi store r =
      ([Event.WriteErrorResponse Error.ErrCannotRemoveDefaultGroup StatusForbidden], store) := by
    simp [handleDeleteEndpointGroup, hid]
  refine ⟨h, ?_⟩
  rw [h]
  simp [Event.isStoreWrite]

theorem C17_default_group_not_removable_witness :
    handleDeleteEndpointGroup sampleAtoi sampleStore sampleDefaultGroupRequest =
      ([Event.WriteErrorResponse Error.ErrCannotRemoveDefaultGroup StatusForbidden],
        sampleStore) :=
  (C17_default_group_not_removable sampleAtoi sampleStore sampleDefaultGroupRequest rfl).1

theorem jsonRoundTrip_Unmarshal {T : Type} (v : T) : (jsonRoundTrip T).Unmarshal v = .ok v := rfl

theorem jsonRoundTrip_Marshal {T : Type} (v : T) : (jsonRoundTrip T).Marshal v = .ok v := rfl

theorem endpointsLoop_roundTrip (entries : List (Nat × Endpoint)) (acc : List Endpoint) :
    endpointsLoop (jsonRoundTrip Endpoint) entries acc =
      .ok (acc ++ entries.map (fun entry => entry.2)) := by
  induction entries generalizing acc with
  | nil => simp [endpointsLoop]
  | cons e rest ih =>
    obtain ⟨k, v⟩ := e
    simp [endpointsLoop, jsonRoundTrip_Unmarshal, ih]

theorem putEntries_replace {V : Type} (key : Nat) (old new : V) (before after : List (Nat × V))
    (hbefore : ∀ p ∈ before, p.1 < key) :
    putEntries key new (before ++ (key, old) :: after) = before ++ (key, new) :: after := by
  induction before with
  | nil => simp [putEntries]
  | cons p rest ih =>
    obtain ⟨k, v⟩ := p
    have hk : k < key := hbefore (k, v) (List.mem_cons_self _ _)
    have h1 : ¬ key < k := by omega
    have h2 : ¬ key = k := by omega
    have hrest : ∀ p ∈ rest, p.1 < key := fun p hp => hbefore p (List.mem_cons_of_mem _ hp)
    simp [putEntries, h1, h2, ih hrest]

/-- The reassignment loop on a well-keyed endpoint bucket: with the entries `done` already
visited and the entries `todo` still to visit, the loop leaves `done` as it is, maps `todo`
through `reassignToDefaultGroup`, touches nothing else and writes no error response. -/
theorem deleteEndpointGroupLoop_spec (groupID : EndpointGroupID)
    (todo done : List (Nat × Endpoint)) (store : Store)
    (hentries : store.endpoints.entries = done ++ todo)
    (hsorted : ((done ++ todo).map (fun entry => entry.1)).Pairwise (fun a b => a < b))
    (hkeyed : ∀ entry ∈ todo, entry.1 = uint64 entry.2.ID) :
    (deleteEndpointGroupLoop groupID (todo.map (fun entry => entry.2)) store).2.endpoints.entries =
      done ++ todo.map (fun entry => (entry.1, reassignToDefaultGroup groupID entry.2)) ∧
    (deleteEndpointGroupLoop groupID (todo.map (fun entry => entry.2)) store).2.endpoints.sequence =
      store.endpoints.sequence ∧
    (deleteEndpointGroupLoop groupID (todo.map (fun entry => entry.2)) store).2.endpointGroups =
      store.endpointGroups ∧
    (deleteEndpointGroupLoop groupID (todo.map (fun entry => entry.2)) store).2.teamMemberships =
      store.teamMemberships ∧
    (deleteEndpointGroupLoop groupID (todo.map (fun entry => entry.2)) store).2.resourceControls =
      store.resourceControls ∧
    (∀ e ∈ (deleteEndpointGroupLoop groupID (todo.map (fun entry => entry.2)) store).1,
      e.isErrorResponse = false) := by
  induction todo generalizing done store with
  | nil => simp [deleteEndpointGroupLoop, hentries]
  | cons entry rest ih =>
    obtain ⟨k, e⟩ := entry
    have hk : k = uint64 e.ID := hkeyed (k, e) (List.mem_cons_self _ _)
    have hrestKeyed : ∀ entry ∈ rest, entry.1 = uint64 entry.2.ID :=
      fun x hx => hkeyed x (List.mem_cons_of_mem _ hx)
    have hdoneLt : ∀ p ∈ done, p.1 < k := by
      intro p hp
      have hpw := List.pairwise_append.mp (by simpa using hsorted)
      exact hpw.2.2 p.1 (List.mem_map.mpr ⟨p, hp, rfl⟩) k (by simp)
    by_cases hg : e.GroupID = groupID
    · have hput : putEntries (uint64 e.ID) ({ e with GroupID := 1 } : Endpoint)
          store.endpoints.entries =
          (done ++ [(k, ({ e with GroupID := 1 } : Endpoint))]) ++ rest := by
        rw [hentries, ← hk, putEntries_replace k e _ done rest hdoneLt]
        simp
      have hsorted2 : (((done ++ [(k, ({ e with GroupID := 1 } : Endpoint))]) ++ rest).map
          (fun entry => entry.1)).Pairwise (fun a b => a < b) := by
        simpa using hsorted
      have := ih (done ++ [(k, ({ e with GroupID := 1 } : Endpoint))])
        { store with
          endpoints := store.endpoints.Put (uint64 e.ID) ({ e with GroupID := 1 } : Endpoint) }
        (by simpa [Bucket.Put] using hput) hsorted2 hrestKeyed
      have hhead : reassignToDefaultGroup groupID e = ({ e with GroupID := 1 } : Endpoint) := by
        simp [reassignToDefaultGroup, hg]
      simp only [List.map_cons, deleteEndpointGroupLoop, hg, beq_self_eq_true, if_true,
        Bolt.UpdateEndpoint, jsonRoundTrip_Marshal, hhead]
      obtain ⟨h1, h2, h3, h4, h5, h6⟩ := this
      refine ⟨?_, ?_, h3, h4, h5, ?_⟩
      · rw [h1]; simp
      · rw [h2]; rfl
      · intro ev hev
        rcases List.mem_cons.mp hev with rfl | hev
        · rfl
        · exact h6 ev hev
    · have hb : (e.GroupID == groupID) = false := by simpa using hg
      have := ih (done ++ [(k, e)]) store (by simpa using hentries) (by simpa using hsorted)
        hrestKeyed
      have hhead : reassignToDefaultGroup groupID e = e := by
        simp [reassignToDefaultGroup, hg]
      simp only [List.map_cons, deleteEndpointGroupLoop, hb, Bool.false_eq_true, if_false,
        hhead]
      obtain ⟨h1, h2, h3, h4, h5, h6⟩ := this
      refine ⟨?_, h2, h3, h4, h5, h6⟩
      rw [h1]; simp

/-- C18: a `handleDeleteEndpointGroup` for an id `n` other than 1 whose group exists, on a
store whose endpoints are kept under the keys of their own IDs, succeeds (no error response
is written) and leaves a store in which every endpoint whose `GroupID` was `n` has
`GroupID = 1` with all its other fields unchanged, every other endpoint is as it was, the
group store has lost the entry of key `n` and nothing else, and no other bucket has
changed. -/
theorem C18_delete_group_reassigns_endpoints (Atoi : String → Except Error Int) (store : Store)
    (r : Request) (n : Int) (group : EndpointGroup)
    (hid : Atoi r.id = .ok n) (hne : n ≠ 1)
    (hgroup : store.endpointGroups.Get (uint64 n) = some group)
    (hkeyed : endpointsWellKeyed store.endpoints) :
    (∀ e ∈ (handleDeleteEndpointGroup Atoi store r).1, e.isErrorResponse = false) ∧
    (handleDeleteEndpointGroup Atoi store r).2.endpoints.entries =
      store.endpoints.entries.map
        (fun entry => (entry.1, reassignToDefaultGroup n entry.2)) ∧
    (handleDeleteEndpointGroup Atoi store r).2.endpoints.sequence = store.endpoints.sequence ∧
    (handleDeleteEndpointGroup Atoi store r).2.endpointGroups.entries =
      store.endpointGroups.entries.filter (fun entry => entry.1 != uint64 n) ∧
    (handleDeleteEndpointGroup Atoi store r).2.endpointGroups.sequence =
      store.endpointGroups.sequence ∧
    (handleDeleteEndpointGroup Atoi store r).2.teamMemberships = store.teamMemberships ∧
    (handleDeleteEndpointGroup Atoi store r).2.resourceControls = store.resourceControls := by
  have hb : (n == 1) = false := by simpa using hne
  have hloop := deleteEndpointGroupLoop_spec n store.endpoints.entries []
    { store with endpointGroups := store.endpointGroups.Delete (uint64 n) }
    (by simp) (by simpa [Bucket.Sorted] using hkeyed.1) hkeyed.2
  have hrun : handleDeleteEndpointGroup Atoi store r =
      (Event.EndpointGroup n :: Event.DeleteEndpointGroup n :: Event.Endpoints ::
        (deleteEndpointGroupLoop n (store.endpoints.entries.map (fun entry => entry.2))
          { store with endpointGroups := store.endpointGroups.Delete (uint64 n) }).1,
       (deleteEndpointGroupLoop n (store.endpoints.entries.map (fun entry => entry.2))
          { store with endpointGroups := store.endpointGroups.Delete (uint64 n) }).2) := by
    simp [handleDeleteEndpointGroup, hid, hb, Bolt.EndpointGroup, hgroup,
      jsonRoundTrip_Unmarshal, Bolt.DeleteEndpointGroup, Bolt.Endpoints,
      endpointsLoop_roundTrip]
  obtain ⟨h1, h2, h3, h4, h5, h6⟩ := hloop
  rw [hrun]
  refine ⟨?_, ?_, h2, ?_, ?_, h4, h5⟩
  · intro e he
    simp only [List.mem_cons] at he
    rcases he with rfl | rfl | rfl | he
    · rfl
    · rfl
    · rfl
    · exact h6 e he
  · simpa using h1
  · simp only [h3]; rfl
  · simp only [h3]; rfl

theorem C18_delete_group_reassigns_endpoints_witness :
    (handleDeleteEndpointGroup sampleAtoi sampleStore sampleGroupRequest).2.endpoints.entries =
      sampleStore.endpoints.entries.map
        (fun entry => (entry.1, reassignToDefaultGroup 2 entry.2)) :=
  (C18_delete_group_reassigns_endpoints sampleAtoi sampleStore sampleGroupRequest 2
    (sampleGroups.get ⟨1, by decide⟩) rfl (by decide) rfl
    ⟨by simp [Bucket.Sorted, sampleStore, sampleEndpointBucket], by decide⟩).2.1

/-! ## Resource-control creation (resource_control.go) -/

/-- C14 (the code at the failing input): on the store holding the single record
`{ResourceID: "c1", SubResourceIDs: ["v1","v2"]}`, where ownership is unique, the
non-administrator user 9 posts a record with `ResourceID` "x1" and `SubResourceIDs`
["c1"]. `handlePostResources` only looks the primary id "x1" up, finds nothing and creates
the record without an error response. The store it leaves holds two records that match
"c1", ownership is no longer unique, and `ResourceControlByResourceID("c1")` now returns the
new record of user 9 instead of the record whose primary id is "c1". -/
theorem C14_post_resources_duplicates_ownership :
    ownershipUnique sampleStore.resourceControls ∧
    (handlePostResources sampleDecodeResources sampleStore sampleClaimRequest).1 =
      [Event.ResourceControlByResourceID "x1",
       Event.CreateResourceControl { sampleClaimedResourceControl with ID := 0 }] ∧
    (handlePostResources sampleDecodeResources sampleStore
        sampleClaimRequest).2.resourceControls.entries =
      [(1, sampleResourceControl), (2, sampleClaimedResourceControl)] ∧
    ¬ ownershipUnique (handlePostResources sampleDecodeResources sampleStore
        sampleClaimRequest).2.resourceControls ∧
    Bolt.ResourceControlByResourceID (jsonRoundTrip ResourceControl)
        (handlePostResources sampleDecodeResources sampleStore
          sampleClaimRequest).2.resourceControls "c1" = .ok sampleClaimedResourceControl ∧
    sampleClaimedResourceControl ≠ sampleResourceControl := by
  have hentries : (handlePostResources sampleDecodeResources sampleStore
        sampleClaimRequest).2.resourceControls.entries =
      [(1, sampleResourceControl), (2, sampleClaimedResourceControl)] := by decide
  refine ⟨?_, by decide, hentries, ?_, ?_, by decide⟩
  · intro resourceID e1 he1 e2 he2 _ _
    simp only [sampleStore, sampleResourceControlBucket, List.mem_singleton] at he1 he2
    rw [he1, he2]
  · intro hunique
    have h := hunique "c1" (1, sampleResourceControl) (by rw [hentries]; simp)
      (2, sampleClaimedResourceControl) (by rw [hentries]; simp)
      (by decide) (by decide)
    exact absurd h (by decide)
  · simp only [Bolt.ResourceControlByResourceID, hentries]
    rfl

/-! ## Team-membership management (team_membership.go) -/

/-- C15 (the code at the failing input): user 7 leads team 6 and is a plain member of team
5, so `AuthorizedTeamManagement(5, ctx)` is false. Membership 3 is the membership of user 8
in team 5. User 7 sends `PUT /team_memberships/3` with `{UserID: 8, TeamID: 6, Role:
member}`. `handlePutTeamMembership` tests `AuthorizedTeamManagement` on the team of the
request (6) only, never on the team the stored membership belongs to (5): it writes no
error response and saves membership 3 with `TeamID = 6`, so user 8 is no longer a member of
team 5. `handleDeleteTeamMembership`, which tests the stored membership's team, answers 403
to the same caller on the same membership and leaves the store as it was. -/
theorem C15_put_membership_skips_stored_team_check :
    AuthorizedTeamManagement 5 sampleLeaderContext = false ∧
    AuthorizedTeamManagement 6 sampleLeaderContext = true ∧
    sampleStore.teamMemberships.Get 3 =
      some { ID := 3, UserID := 8, TeamID := 5, Role := TeamMember } ∧
    (handlePutTeamMembership sampleAtoi sampleDecodeMembership sampleStore
        sampleMoveRequest).1 =
      [Event.TeamMembership 3,
       Event.UpdateTeamMembership 3 { ID := 3, UserID := 8, TeamID := 6, Role := TeamMember }] ∧
    (handlePutTeamMembership sampleAtoi sampleDecodeMembership sampleStore
        sampleMoveRequest).2.teamMemberships.Get 3 =
      some { ID := 3, UserID := 8, TeamID := 6, Role := TeamMember } ∧
    (handleDeleteTeamMembership sampleAtoi sampleStore sampleMoveRequest).1 =
      [Event.TeamMembership 3,
       Event.WriteErrorResponse Error.ErrResourceAccessDenied StatusForbidden] ∧
    (handleDeleteTeamMembership sampleAtoi sampleStore
        sampleMoveRequest).2.teamMemberships.entries = sampleStore.teamMemberships.entries := by
  refine ⟨by decide, by decide, by decide, by decide, by decide, by decide, by decide⟩

/-! ## Proxy cache keys (docker.go, azure.go, storidge.go, endpoint.go) -/

/-- C19 (the code at the failing input): the endpoint ids 55296 and 55297 are distinct, yet
the conversion `string(endpointID)` gives both the same text, the replacement character
U+FFFD, because neither number is a valid code point. The Docker and Azure handlers
therefore look both endpoints up under one cache key, and the Storidge handler builds one
composite key for both. -/
theorem C19_proxy_keys_collide :
    (55296 : EndpointID) ≠ 55297 ∧
    stringOfInt 55296 = String.singleton (Char.ofNat 65533) ∧
    stringOfInt 55297 = String.singleton (Char.ofNat 65533) ∧
    (∀ manager stripped endpoint endpoint2,
      (serveEndpointProxy manager stripped 55296 endpoint).head? =
        (serveEndpointProxy manager stripped 55297 endpoint2).head?) ∧
    stringOfInt 55296 ++ "_" ++ stringOfInt StoridgeEndpointExtension =
      stringOfInt 55297 ++ "_" ++ stringOfInt StoridgeEndpointExtension := by
  have h1 : stringOfInt 55296 = String.singleton (Char.ofNat 65533) := by decide
  have h2 : stringOfInt 55297 = String.singleton (Char.ofNat 65533) := by decide
  refine ⟨by decide, h1, h2, ?_, ?_⟩
  · intro manager stripped endpoint endpoint2
    simp [serveEndpointProxy, h1, h2]
  · rw [h1, h2]

theorem bucket_get_delete {V : Type} (bucket : Bucket V) (key : Nat) :
    (bucket.Delete key).Get key = none := by
  simp [Bucket.Delete, Bucket.Get, List.find?_eq_none]

theorem cache_getProxy_delete (cache : ProxyCache) (key : String) :
    (cache.DeleteProxy key).GetProxy key = none := by
  simp [ProxyCache.DeleteProxy, ProxyCache.GetProxy, List.find?_eq_none]

theorem cache_getExtensionProxy_delete (cache : ProxyCache) (key kind : String) :
    (cache.DeleteExtensionProxies key).GetExtensionProxy (key ++ "_" ++ kind) = none := by
  simp only [ProxyCache.DeleteExtensionProxies, ProxyCache.GetExtensionProxy,
    Option.map_eq_none', List.find?_eq_none, List.mem_filter]
  rintro ⟨k, p⟩ ⟨_, hnot⟩ heq
  simp only [beq_iff_eq] at heq
  subst heq
  have hpre : List.isPrefixOf (key ++ "_").data (key ++ "_" ++ kind).data = true := by
    rw [List.isPrefixOf_iff_prefix, String.data_append (key ++ "_") kind]
    exact List.prefix_append _ _
  rw [hpre] at hnot
  exact absurd hnot (by decide)

/-- C20: a `handleDeleteEndpoint` for an id that parses to `n`, with endpoint management
enabled, an endpoint stored under `n` and no failure of the TLS file removal, writes no
error response; it calls `DeleteProxy` and `DeleteExtensionProxies` with `string(n)`, which
is the key the Docker and Azure handlers pass to `GetProxy` for endpoint `n` and the text
before "_" of the key the Storidge handler builds for an endpoint whose ID is `n`.
Afterwards `GetProxy(string(n))` and `GetExtensionProxy(string(n) + "_" + kind)` are absent
for every kind, and the endpoint is gone from the store. -/
theorem C20_delete_endpoint_evicts_proxies (Atoi : String → Except Error Int)
    (handler : EndpointHandler) (store : Store) (cache : ProxyCache) (r : Request) (n : Int)
    (endpoint : Endpoint)
    (henabled : handler.authorizeEndpointManagement = true)
    (hid : Atoi r.id = .ok n)
    (hstored : store.endpoints.Get (uint64 n) = some endpoint)
    (hfiles : endpoint.TLSConfig.TLS = true → handler.DeleteTLSFiles r.id = none) :
    (handleDeleteEndpoint Atoi handler store cache r).1 =
      [Event.Endpoint n, Event.DeleteProxy (stringOfInt n),
       Event.DeleteExtensionProxies (stringOfInt n), Event.DeleteEndpoint n] ++
        (if endpoint.TLSConfig.TLS then [Event.DeleteTLSFiles r.id] else []) ∧
    (∀ manager stripped e,
      (serveEndpointProxy manager stripped n e).head? =
        some (Event.GetProxy (stringOfInt n))) ∧
    (∀ manager stripped e extension, e.ID = n →
      storidgeExtensionLoop e.Extensions = some extension →
      (serveStoridgeProxy manager stripped e).head? =
        some (Event.GetExtensionProxy
          (stringOfInt n ++ "_" ++ stringOfInt StoridgeEndpointExtension))) ∧
    (handleDeleteEndpoint Atoi handler store cache r).2.2.GetProxy (stringOfInt n) = none ∧
    (∀ kind, (handleDeleteEndpoint Atoi handler store cache r).2.2.GetExtensionProxy
        (stringOfInt n ++ "_" ++ kind) = none) ∧
    (handleDeleteEndpoint Atoi handler store cache r).2.1.endpoints.Get (uint64 n) = none := by
  have hrun : handleDeleteEndpoint Atoi handler store cache r =
      ([Event.Endpoint n, Event.DeleteProxy (stringOfInt n),
        Event.DeleteExtensionProxies (stringOfInt n), Event.DeleteEndpoint n] ++
          (if endpoint.TLSConfig.TLS then [Event.DeleteTLSFiles r.id] else []),
       { store with endpoints := store.endpoints.Delete (uint64 n) },
       (cache.DeleteProxy (stringOfInt n)).DeleteExtensionProxies (stringOfInt n)) := by
    cases htls : endpoint.TLSConfig.TLS with
    | false =>
      simp [handleDeleteEndpoint, henabled, hid, Bolt.Endpoint, hstored,
        jsonRoundTrip_Unmarshal, Bolt.DeleteEndpoint, htls]
    | true =>
      simp [handleDeleteEndpoint, henabled, hid, Bolt.Endpoint, hstored,
        jsonRoundTrip_Unmarshal, Bolt.DeleteEndpoint, htls, hfiles htls]
  rw [hrun]
  refine ⟨rfl, ?_, ?_, ?_, ?_, ?_⟩
  · intro manager stripped e
    simp [serveEndpointProxy]
  · intro manager stripped e extension hID hext
    simp [serveStoridgeProxy, hext, hID]
  · show ((cache.DeleteProxy (stringOfInt n)).DeleteExtensionProxies (stringOfInt n)).GetProxy
      (stringOfInt n) = none
    have := cache_getProxy_delete cache (stringOfInt n)
    simpa [ProxyCache.DeleteExtensionProxies, ProxyCache.GetProxy] using this
  · intro kind
    exact cache_getExtensionProxy_delete _ _ _
  · exact bucket_get_delete _ _

theorem C20_delete_endpoint_evicts_proxies_witness :
    (handleDeleteEndpoint sampleAtoi sampleEndpointHandler sampleStore sampleProxyCache
        sampleGroupRequest).2.2.GetProxy (stringOfInt 2) = none :=
  (C20_delete_endpoint_evicts_proxies sampleAtoi sampleEndpointHandler sampleStore
    sampleProxyCache sampleGroupRequest 2 (sampleEndpoints.get ⟨1, by decide⟩)
    rfl rfl rfl (fun _ => rfl)).2.2.2.1

/-! ## Endpoint access predicate -/

/-- C23: for all (endpoint, group, user, memberships), `AuthorizedEndpointAccess` is true if
and only if the user is in `endpoint.AuthorizedUsers` or `group.AuthorizedUsers`, or some
membership's `TeamID` is in `endpoint.AuthorizedTeams` or `group.AuthorizedTeams`: the
group's lists are OR-ed with the endpoint's own. An endpoint with `AuthorizedTeams = [T1]`
in a group with empty lists is accessible to a user whose single membership is in `T1`, and
not accessible once the membership is removed. -/
theorem C23_AuthorizedEndpointAccess_iff (endpoint : Endpoint) (group : EndpointGroup)
    (userID : UserID) (memberships : List TeamMembership) :
    (AuthorizedEndpointAccess endpoint group userID memberships = true ↔
      (userID ∈ endpoint.AuthorizedUsers ∨ userID ∈ group.AuthorizedUsers) ∨
      ∃ m ∈ memberships, m.TeamID ∈ endpoint.AuthorizedTeams ∨ m.TeamID ∈ group.AuthorizedTeams) ∧
    (∀ (T1 : TeamID) (U : UserID) (E : Endpoint) (G : EndpointGroup) (m : TeamMembership),
      E.AuthorizedUsers = [] → E.AuthorizedTeams = [T1] →
      G.AuthorizedUsers = [] → G.AuthorizedTeams = [] → m.UserID = U → m.TeamID = T1 →
      AuthorizedEndpointAccess E G U [m] = true ∧ AuthorizedEndpointAccess E G U [] = false) := by
  refine ⟨?_, ?_⟩
  · simp only [AuthorizedEndpointAccess, authorizedAccess, Bool.or_eq_true, List.any_eq_true,
      beq_iff_eq]
    constructor
    · rintro ((⟨x, hx, rfl⟩ | ⟨m, hm, t, ht, rfl⟩) | (⟨x, hx, rfl⟩ | ⟨m, hm, t, ht, rfl⟩))
      · exact Or.inl (Or.inr hx)
      · exact Or.inr ⟨m, hm, Or.inr ht⟩
      · exact Or.inl (Or.inl hx)
      · exact Or.inr ⟨m, hm, Or.inl ht⟩
    · rintro ((hx | hx) | ⟨m, hm, ht | ht⟩)
      · exact Or.inr (Or.inl ⟨userID, hx, rfl⟩)
      · exact Or.inl (Or.inl ⟨userID, hx, rfl⟩)
      · exact Or.inr (Or.inr ⟨m, hm, m.TeamID, ht, rfl⟩)
      · exact Or.inl (Or.inr ⟨m, hm, m.TeamID, ht, rfl⟩)
  · intro T1 U E G m hEU hET hGU hGT _ hmT
    simp [AuthorizedEndpointAccess, authorizedAccess, hEU, hET, hGU, hGT, hmT]

theorem C23_AuthorizedEndpointAccess_iff_witness :
    AuthorizedEndpointAccess (sampleEndpoints.get ⟨0, by decide⟩)
        (sampleGroups.get ⟨0, by decide⟩) 7 [sampleMembership] = true ∧
      AuthorizedEndpointAccess (sampleEndpoints.get ⟨0, by decide⟩)
        (sampleGroups.get ⟨0, by decide⟩) 7 [] = false :=
  (C23_AuthorizedEndpointAccess_iff (sampleEndpoints.get ⟨0, by decide⟩)
    (sampleGroups.get ⟨0, by decide⟩) 7 []).2 5 7 (sampleEndpoints.get ⟨0, by decide⟩)
    (sampleGroups.get ⟨0, by decide⟩) sampleMembership rfl rfl rfl rfl rfl rfl

/-! ## Itob (internal.go) -/

theorem putUint64_value (v : Nat) (hv : v < 2 ^ 64) : bigEndianValue (PutUint64 v) = v := by
  simp only [PutUint64, bigEndianValue, List.length_cons, List.length_nil]
  norm_num
  omega

theorem uint64_lt (v : Int) : uint64 v < 2 ^ 64 := by
  unfold uint64
  have h1 : 0 ≤ v % 2 ^ 64 := Int.emod_nonneg _ (by norm_num)
  have h2 : v % 2 ^ 64 < 2 ^ 64 := Int.emod_lt_of_pos _ (by norm_num)
  omega

theorem uint64_cast (v : Int) : ((uint64 v : Nat) : Int) = v % 2 ^ 64 := by
  unfold uint64
  exact Int.toNat_of_nonneg (Int.emod_nonneg _ (by norm_num))

theorem bigEndianValue_lt (bs : List Nat) (hbytes : ∀ b ∈ bs, b < 256) :
    bigEndianValue bs < 256 ^ bs.length := by
  induction bs with
  | nil => simp [bigEndianValue]
  | cons b rest ih =>
    have hb : b < 256 := hbytes b (List.mem_cons_self _ _)
    have hrest := ih (fun x hx => hbytes x (List.mem_cons_of_mem _ hx))
    simp only [bigEndianValue, List.length_cons, pow_succ]
    nlinarith

/-- On byte sequences of one length the bytewise order is the order of the numbers they
denote. -/
theorem bytesLess_iff (as bs : List Nat) (hlen : as.length = bs.length)
    (ha : ∀ b ∈ as, b < 256) (hb : ∀ b ∈ bs, b < 256) :
    bytesLess as bs = true ↔ bigEndianValue as < bigEndianValue bs := by
  induction as generalizing bs with
  | nil =>
    cases bs with
    | nil => simp [bytesLess, bigEndianValue]
    | cons b rest => simp at hlen
  | cons a as ih =>
    cases bs with
    | nil => simp at hlen
    | cons b bs =>
      have hlen2 : as.length = bs.length := by simpa using hlen
      have ha2 : ∀ x ∈ as, x < 256 := fun x hx => ha x (List.mem_cons_of_mem _ hx)
      have hb2 : ∀ x ∈ bs, x < 256 := fun x hx => hb x (List.mem_cons_of_mem _ hx)
      have hva := bigEndianValue_lt as ha2
      have hvb := bigEndianValue_lt bs hb2
      have ih2 := ih bs hlen2 ha2 hb2
      simp only [bytesLess, bigEndianValue, Bool.or_eq_true, decide_eq_true_eq,
        Bool.and_eq_true, beq_iff_eq, ih2, hlen2]
      rw [hlen2] at hva
      constructor
      · rintro (h | ⟨rfl, h⟩)
        · have : (a + 1) * 256 ^ bs.length ≤ b * 256 ^ bs.length :=
            Nat.mul_le_mul_right _ h
          nlinarith
        · omega
      · intro h
        by_cases hab : a < b
        · exact Or.inl hab
        · right
          have hba : b ≤ a := Nat.le_of_not_lt hab
          by_cases heq : a = b
          · subst heq
            exact ⟨rfl, by omega⟩
          · exfalso
            have hlt : b + 1 ≤ a := by omega
            have : (b + 1) * 256 ^ bs.length ≤ a * 256 ^ bs.length :=
              Nat.mul_le_mul_right _ hlt
            nlinarith

theorem itob_bytes (v : Int) : ∀ b ∈ Itob v, b < 256 := by
  intro b hb
  simp only [Itob, PutUint64, List.mem_cons, List.mem_singleton, List.mem_nil_iff,
    or_false] at hb
  rcases hb with rfl | rfl | rfl | rfl | rfl | rfl | rfl | rfl <;> exact Nat.mod_lt _ (by norm_num)

/-- C24: for every 64-bit `v`, `Itob(v)` is a sequence of exactly 8 bytes whose big-endian
value is `v` modulo 2^64; `Itob` is injective on the 64-bit integers; for non-negative `v`
and `w` the bytewise order of `Itob(v)` and `Itob(w)` is the numeric order of `v` and `w`. -/
theorem C24_Itob_big_endian (v w : Int)
    (hv : -2 ^ 63 ≤ v ∧ v < 2 ^ 63) (hw : -2 ^ 63 ≤ w ∧ w < 2 ^ 63) :
    (Itob v).length = 8 ∧ (∀ b ∈ Itob v, b < 256) ∧
    ((bigEndianValue (Itob v) : Nat) : Int) = v % 2 ^ 64 ∧
    (Itob v = Itob w → v = w) ∧
    (0 ≤ v → 0 ≤ w → (bytesLess (Itob v) (Itob w) = true ↔ v < w)) := by
  have hval : ∀ x : Int, bigEndianValue (Itob x) = uint64 x := fun x =>
    putUint64_value (uint64 x) (uint64_lt x)
  refine ⟨rfl, itob_bytes v, ?_, ?_, ?_⟩
  · rw [hval, uint64_cast]
  · intro h
    have h2 : (uint64 v : Int) = (uint64 w : Int) := by
      rw [← hval v, ← hval w, h]
    rw [uint64_cast, uint64_cast] at h2
    omega
  · intro hv0 hw0
    rw [bytesLess_iff (Itob v) (Itob w) rfl (itob_bytes v) (itob_bytes w), hval, hval]
    have h1 := uint64_cast v
    have h2 := uint64_cast w
    rw [Int.emod_eq_of_lt hv0 (by omega)] at h1
    rw [Int.emod_eq_of_lt hw0 (by omega)] at h2
    omega

theorem C24_Itob_big_endian_witness :
    (Itob 258).length = 8 ∧ (∀ b ∈ Itob 258, b < 256) ∧
    ((bigEndianValue (Itob 258) : Nat) : Int) = (258 : Int) % 2 ^ 64 ∧
    (Itob 258 = Itob 3 → (258 : Int) = 3) ∧
    ((0 : Int) ≤ 258 → (0 : Int) ≤ 3 → (bytesLess (Itob 258) (Itob 3) = true ↔ (258 : Int) < 3)) :=
  C24_Itob_big_endian 258 3 (by decide) (by decide)

/-! ## Endpoint extensions (extensions.go) -/

/-- The loop leaves the slice alone over a stretch of places none of which holds the
type. -/
theorem deleteExtensionsLoop_no_match (extensionType : EndpointExtensionType)
    (remaining idx : Nat) (array : List EndpointExtension) (len : Nat)
    (hbound : idx + remaining ≤ array.length)
    (hnone : ∀ j, idx ≤ j → j < idx + remaining → ∀ ext, array[j]? = some ext →
      ext.Type_ ≠ extensionType) :
    deleteExtensionsLoop extensionType idx remaining array len = some (array, len) := by
  induction remaining generalizing idx with
  | zero => rfl
  | succ n ih =>
    have hidx : idx < array.length := by omega
    have hget : array[idx]? = some array[idx] := List.getElem?_eq_getElem hidx
    have hne : array[idx].Type_ ≠ extensionType := hnone idx (le_refl _) (by omega) _ hget
    have hb : (array[idx].Type_ == extensionType) = false := by simpa using hne
    simp only [deleteExtensionsLoop, hget, hb, Bool.false_eq_true, if_false]
    exact ih (idx + 1) (by omega) (fun j h1 h2 => hnone j (by omega) (by omega))

/-- The loop on a list with exactly one entry of the type, found after the entries
`done ++ before`: it runs to the end and leaves the slice `done ++ before ++ after`. -/
theorem deleteExtensionsLoop_one_match (extensionType : EndpointExtensionType)
    (before done after : List EndpointExtension) (x : EndpointExtension)
    (hx : x.Type_ = extensionType)
    (hbefore : ∀ ext ∈ before, ext.Type_ ≠ extensionType)
    (hafter : ∀ ext ∈ after, ext.Type_ ≠ extensionType) :
    (deleteExtensionsLoop extensionType done.length (before.length + 1 + after.length)
        (done ++ before ++ x :: after) (done ++ before ++ x :: after).length).map
      (fun result => result.1.take result.2) = some (done ++ before ++ after) := by
  induction before generalizing done with
  | nil =>
    have hget : (done ++ x :: after)[done.length]? = some x := by
      rw [List.getElem?_append_right (le_refl _)]
      simp
    have hcount : ([] : List EndpointExtension).length + 1 + after.length = after.length + 1 := by
      simp only [List.length_nil]
      omega
    have hb : (x.Type_ == extensionType) = true := by simpa using hx
    have hrem : removeExtensionAt (done ++ x :: after) (done ++ x :: after).length done.length =
        some (done ++ after ++ (done ++ x :: after).drop (done.length + after.length),
          done.length + after.length) := by
      simp only [removeExtensionAt, List.length_append, List.length_cons]
      have h1 : done.length + 1 ≤ done.length + (after.length + 1) := by omega
      simp only [h1, if_true]
      have h2 : List.take done.length (done ++ x :: after) = done := by simp
      have h3 : List.drop (done.length + 1) (done ++ x :: after) = after := by
        rw [List.drop_append_eq_append_drop]
        simp
      have h4 : done.length + (after.length + 1) - (done.length + 1) = after.length := by omega
      have h5 : done.length + (after.length + 1) - 1 = done.length + after.length := by omega
      rw [h2, h3, h4, h5, List.take_length]
    rw [hcount]
    simp only [List.append_nil, deleteExtensionsLoop, hget, hb, if_true, hrem]
    have hlen : (done ++ after ++ (done ++ x :: after).drop (done.length + after.length)).length
        = done.length + after.length + 1 := by
      simp only [List.length_append, List.length_drop, List.length_cons]
      omega
    rw [deleteExtensionsLoop_no_match extensionType after.length (done.length + 1) _ _
      (by rw [hlen]; omega)]
    · simp only [Option.map_some', Option.some.injEq]
      rw [List.take_append_eq_append_take]
      simp
    · intro j hj1 hj2 ext hext
      have hmem : ext ∈ after := by
        by_cases hjlt : j < done.length + after.length
        · rw [List.getElem?_append_left (by simp; omega)] at hext
          rw [List.getElem?_append_right (by omega)] at hext
          exact List.getElem?_mem hext
        · have hj : j = done.length + after.length := by omega
          subst hj
          rw [List.getElem?_append_right (by simp)] at hext
          simp only [List.length_append, Nat.sub_self] at hext
          have hafterne : after ≠ [] := by
            intro h
            subst h
            simp at hj1
          have hdrop : (done ++ x :: after).drop (done.length + after.length) =
              after.drop (after.length - 1) := by
            rw [List.drop_append_eq_append_drop]
            have : done.length + after.length - done.length = after.length := by omega
            rw [this, List.drop_of_length_le (by omega), List.nil_append]
            cases after with
            | nil => exact absurd rfl hafterne
            | cons a rest => simp
          rw [hdrop] at hext
          exact List.mem_of_mem_drop (List.getElem?_mem hext)
      exact hafter ext hmem
  | cons b rest ih =>
    have hbne : b.Type_ ≠ extensionType := hbefore b (List.mem_cons_self _ _)
    have hb : (b.Type_ == extensionType) = false := by simpa using hbne
    have hget : (done ++ b :: rest ++ x :: after)[done.length]? = some b := by
      rw [List.append_assoc, List.getElem?_append_right (le_refl _)]
      simp
    have hih := ih (done ++ [b]) (fun ext h => hbefore ext (List.mem_cons_of_mem _ h))
    have hsame : done ++ [b] ++ rest ++ x :: after = done ++ b :: rest ++ x :: after := by simp
    have hres : done ++ [b] ++ rest ++ after = done ++ b :: rest ++ after := by simp
    rw [hsame, hres] at hih
    have hlen : (done ++ [b]).length = done.length + 1 := by simp
    rw [hlen] at hih
    have hcount : (b :: rest).length + 1 + after.length = (rest.length + 1 + after.length) + 1 := by
      simp only [List.length_cons]
      omega
    rw [hcount]
    simp only [deleteExtensionsLoop, hget, hb, Bool.false_eq_true, if_false]
    exact hih

theorem deleteExtensions_eq_filter (extensionType : EndpointExtensionType)
    (extensions : List EndpointExtension)
    (hdistinct : (extensions.map (fun ext => ext.Type_)).Nodup) :
    deleteExtensions extensionType extensions =
      some (extensions.filter (fun ext => ext.Type_ != extensionType)) := by
  by_cases hex : ∃ x ∈ extensions, x.Type_ = extensionType
  · obtain ⟨x, hxmem, hx⟩ := hex
    obtain ⟨before, after, rfl⟩ := List.append_of_mem hxmem
    rw [List.map_append, List.map_cons, List.nodup_append] at hdistinct
    obtain ⟨_, hnd, hdisj⟩ := hdistinct
    have hbefore : ∀ ext ∈ before, ext.Type_ ≠ extensionType := by
      intro ext hext heq
      exact hdisj (List.mem_map.mpr ⟨ext, hext, rfl⟩) (by rw [heq, ← hx]; simp)
    have hafter : ∀ ext ∈ after, ext.Type_ ≠ extensionType := by
      intro ext hext heq
      have := (List.nodup_cons.mp hnd).1
      exact this (List.mem_map.mpr ⟨ext, hext, by rw [heq, hx]⟩)
    have h := deleteExtensionsLoop_one_match extensionType before [] after x hx hbefore hafter
    simp only [List.nil_append, List.length_nil] at h
    have hlen : (before ++ x :: after).length = before.length + 1 + after.length := by
      simp only [List.length_append, List.length_cons]
      omega
    unfold deleteExtensions
    rw [hlen] at h ⊢
    rw [h]
    have hf1 : before.filter (fun ext => ext.Type_ != extensionType) = before :=
      List.filter_eq_self.mpr (fun ext h => by simpa using hbefore ext h)
    have hf2 : after.filter (fun ext => ext.Type_ != extensionType) = after :=
      List.filter_eq_self.mpr (fun ext h => by simpa using hafter ext h)
    simp [List.filter_append, List.filter_cons, hx, hf1, hf2]
  · have hnone : ∀ ext ∈ extensions, ext.Type_ ≠ extensionType :=
      fun ext h heq => hex ⟨ext, h, heq⟩
    unfold deleteExtensions
    rw [deleteExtensionsLoop_no_match extensionType extensions.length 0 extensions _ (by omega)
      (fun j _ _ ext hext => hnone ext (List.getElem?_mem hext))]
    have hf : extensions.filter (fun ext => ext.Type_ != extensionType) = extensions :=
      List.filter_eq_self.mpr (fun ext h => by simpa using hnone ext h)
    simp [hf]

/-- C26: for every stored endpoint whose `Extensions` list holds at most one entry per
extension type, `handleDeleteExtensions` for type `t` runs without a slice-bound failure,
writes no error response, and saves (by `UpdateEndpoint(endpoint.ID, endpoint)`) the
endpoint whose `Extensions` are exactly the original entries whose type differs from `t`,
in their original order; the list is unchanged when no entry has type `t`. -/
theorem C26_delete_extension_filters (Atoi : String → Except Error Int) (store : Store)
    (r : Request) (n t : Int) (endpoint : Endpoint)
    (hid : Atoi (r.var "endpointId") = .ok n)
    (htype : Atoi (r.var "extensionType") = .ok t)
    (hstored : store.endpoints.Get (uint64 n) = some endpoint)
    (hdistinct : (endpoint.Extensions.map (fun ext => ext.Type_)).Nodup) :
    deleteExtensions t endpoint.Extensions =
      some (endpoint.Extensions.filter (fun ext => ext.Type_ != t)) ∧
    (handleDeleteExtensions Atoi store r).1 =
      [Event.Endpoint n,
       Event.UpdateEndpoint endpoint.ID
        { endpoint with Extensions := endpoint.Extensions.filter (fun ext => ext.Type_ != t) }] ∧
    (handleDeleteExtensions Atoi store r).2.endpoints =
      store.endpoints.Put (uint64 endpoint.ID)
        { endpoint with Extensions := endpoint.Extensions.filter (fun ext => ext.Type_ != t) } ∧
    ((∀ ext ∈ endpoint.Extensions, ext.Type_ ≠ t) →
      endpoint.Extensions.filter (fun ext => ext.Type_ != t) = endpoint.Extensions) := by
  have hloop := deleteExtensions_eq_filter t endpoint.Extensions hdistinct
  refine ⟨hloop, ?_, ?_, ?_⟩
  · simp [handleDeleteExtensions, hid, htype, Bolt.Endpoint, hstored, jsonRoundTrip_Unmarshal,
      jsonRoundTrip_Marshal, hloop, Bolt.UpdateEndpoint]
  · simp [handleDeleteExtensions, hid, htype, Bolt.Endpoint, hstored, jsonRoundTrip_Unmarshal,
      jsonRoundTrip_Marshal, hloop, Bolt.UpdateEndpoint]
  · intro hnone
    exact List.filter_eq_self.mpr (fun ext h => by simpa using hnone ext h)

theorem C26_delete_extension_filters_witness :
    (handleDeleteExtensions sampleAtoi sampleExtensionStore sampleDeleteExtensionRequest).1 =
      [Event.Endpoint 1,
       Event.UpdateEndpoint 1
        { ID := 1, Name := "a", URL := "tcp://a", GroupID := 1, AuthorizedUsers := [],
          AuthorizedTeams := [],
          Extensions := [ { Type_ := 1, URL := "tcp://old" },
                          { Type_ := 2, URL := "tcp://two" } ].filter
            (fun ext => ext.Type_ != 1) }] :=
  (C26_delete_extension_filters sampleAtoi sampleExtensionStore sampleDeleteExtensionRequest 1 1
    { ID := 1, Name := "a", URL := "tcp://a", GroupID := 1, AuthorizedUsers := [],
      AuthorizedTeams := [],
      Extensions := [ { Type_ := 1, URL := "tcp://old" }, { Type_ := 2, URL := "tcp://two" } ] }
    rfl rfl rfl (by decide)).2.1

/-- C27 (the code at the failing input): endpoint 1 has the single extension
`{Type: 1, URL: "tcp://old"}` and the request asks for type 1 at "tcp://new".
`handlePostExtensions` writes the new URL into the loop variable, a copy of the element,
and saves the endpoint with its `Extensions` unchanged: the saved entry of type 1 still has
the URL "tcp://old", while the response shows `{Type: 1, URL: "tcp://new"}`. When endpoint
1 has the extensions `[{Type: 1, URL: "tcp://old"}, {Type: 2, URL: "tcp://two"}]` the saved
list is unchanged as well, and the extension returned is the copy of the last element with
the new URL, `{Type: 2, URL: "tcp://new"}`, not an extension of the requested type. -/
theorem C27_post_extension_keeps_old_url :
    (handlePostExtensions sampleAtoi sampleDecodeExtension sampleSingleExtensionStore
        samplePostExtensionRequest).1 =
      [Event.Endpoint 1,
       Event.UpdateEndpoint 1
        { ID := 1, Name := "a", URL := "tcp://a", GroupID := 1, AuthorizedUsers := [],
          AuthorizedTeams := [], Extensions := [ { Type_ := 1, URL := "tcp://old" } ] },
       Event.encodeJSONExtension (some { Type_ := 1, URL := "tcp://new" })] ∧
    (handlePostExtensions sampleAtoi sampleDecodeExtension sampleSingleExtensionStore
        samplePostExtensionRequest).2.endpoints.entries =
      sampleSingleExtensionStore.endpoints.entries ∧
    (handlePostExtensions sampleAtoi sampleDecodeExtension sampleExtensionStore
        samplePostExtensionRequest).1 =
      [Event.Endpoint 1,
       Event.UpdateEndpoint 1
        { ID := 1, Name := "a", URL := "tcp://a", GroupID := 1, AuthorizedUsers := [],
          AuthorizedTeams := [],
          Extensions := [ { Type_ := 1, URL := "tcp://old" },
                          { Type_ := 2, URL := "tcp://two" } ] },
       Event.encodeJSONExtension (some { Type_ := 2, URL := "tcp://new" })] ∧
    (handlePostExtensions sampleAtoi sampleDecodeExtension sampleExtensionStore
        samplePostExtensionRequest).2.endpoints.entries =
      sampleExtensionStore.endpoints.entries ∧
    (∀ endpoint ∈ (handlePostExtensions sampleAtoi sampleDecodeExtension sampleExtensionStore
        samplePostExtensionRequest).2.endpoints.entries,
      ∀ ext ∈ endpoint.2.Extensions, ext.Type_ = 1 → ext.URL = "tcp://old") := by
  refine ⟨by decide, by decide, by decide, by decide, by decide⟩

/-! ## Stack handlers: the resource control of a stack, and the stack mutexes -/

/-- C22: for an existing stack of an existing endpoint, `handleGetStack` answers by the
outcome of the resource-control lookup on the stack's name. `ErrResourceControlNotFound`:
the stack is returned with an empty `ResourceControl`, whoever the caller is, and no error
is written. A record: an administrator, or a caller for whom `CanAccessStack` holds,
receives the stack with the record, any other caller 403 `ErrResourceAccessDenied`. Any
other lookup error: 500 with that error. -/
theorem C22_handleGetStack_resource_control (Atoi : String → Except Error Int)
    (handler : StackHandler) (r : Request) (securityContext : RestrictedRequestContext)
    (endpointID : Int) (endpoint : Endpoint) (stack : Stack)
    (hcontext : RetrieveRestrictedRequestContext r = .ok securityContext)
    (hatoi : Atoi (r.var "endpointId") = .ok endpointID)
    (hendpoint : handler.EndpointService.Endpoint endpointID = .ok endpoint)
    (hstack : handler.StackService.Stack (r.var "id") = .ok stack) :
    (handler.ResourceControlByResourceID stack.Name = .error Error.ErrResourceControlNotFound →
      handleGetStack Atoi handler r =
        [Event.Endpoint endpointID, Event.Stack (r.var "id"),
         Event.ResourceControlByResourceID stack.Name,
         Event.encodeJSONStack stack emptyResourceControl]) ∧
    (∀ resourceControl : ResourceControl,
      handler.ResourceControlByResourceID stack.Name = .ok resourceControl →
      handleGetStack Atoi handler r =
        [Event.Endpoint endpointID, Event.Stack (r.var "id"),
         Event.ResourceControlByResourceID stack.Name,
         if securityContext.IsAdmin = true ∨
             handler.CanAccessStack stack resourceControl securityContext.UserID
               securityContext.UserMemberships = true then
           Event.encodeJSONStack stack resourceControl
         else Event.WriteErrorResponse Error.ErrResourceAccessDenied StatusForbidden]) ∧
    (∀ err : Error, err ≠ Error.ErrResourceControlNotFound →
      handler.ResourceControlByResourceID stack.Name = .error err →
      handleGetStack Atoi handler r =
        [Event.Endpoint endpointID, Event.Stack (r.var "id"),
         Event.ResourceControlByResourceID stack.Name,
         Event.WriteErrorResponse err StatusInternalServerError]) := by
  refine ⟨?_, ?_, ?_⟩
  · intro hlookup
    simp [handleGetStack, hcontext, hatoi, hendpoint, hstack, hlookup]
  · intro resourceControl hlookup
    by_cases hadmin : securityContext.IsAdmin = true
    · simp [handleGetStack, hcontext, hatoi, hendpoint, hstack, hlookup, hadmin]
    · by_cases haccess : handler.CanAccessStack stack resourceControl securityContext.UserID
          securityContext.UserMemberships = true
      · simp [handleGetStack, hcontext, hatoi, hendpoint, hstack, hlookup, haccess]
      · simp [handleGetStack, hcontext, hatoi, hendpoint, hstack, hlookup, hadmin, haccess]
  · intro err herr hlookup
    simp [handleGetStack, hcontext, hatoi, hendpoint, hstack, hlookup, herr]

/-- C22 at the non-administrator user 7 asking for the stack "web_swarm1", which has no
resource control: the stack is returned. -/
theorem C22_handleGetStack_resource_control_witness :
    handleGetStack sampleAtoi sampleStackHandler sampleStackRequest =
      [Event.Endpoint 1, Event.Stack "web_swarm1", Event.ResourceControlByResourceID "web",
       Event.encodeJSONStack sampleStack emptyResourceControl] :=
  (C22_handleGetStack_resource_control sampleAtoi sampleStackHandler sampleStackRequest
    sampleUserContext 1
    sampleStackEndpoint
    sampleStack rfl rfl rfl rfl).1 rfl

/-- C25: `deployStack` leaves `stackCreationMutex` unlocked whatever its collaborators
answer, but `handleDeleteStack` does not release `stackDeletionMutex` when
`StackManager.Remove` fails: for an existing stack of an existing endpoint, a failed removal
ends the run with 500 and the mutex still held. -/
theorem C25_delete_stack_keeps_mutex_locked (Atoi : String → Except Error Int)
    (handler : StackHandler) (r : Request) (endpointID : Int) (endpoint : Endpoint)
    (stack : Stack) (err : Error)
    (hatoi : Atoi (r.var "endpointId") = .ok endpointID)
    (hendpoint : handler.EndpointService.Endpoint endpointID = .ok endpoint)
    (hstack : handler.StackService.Stack (r.var "id") = .ok stack)
    (hremove : handler.Remove stack endpoint = some err) :
    handleDeleteStack Atoi handler r =
      [Event.Endpoint endpointID, Event.Stack (r.var "id"), Event.Lock "stackDeletionMutex",
       Event.Remove stack endpoint, Event.WriteErrorResponse err StatusInternalServerError] ∧
    mutexHeld "stackDeletionMutex" (handleDeleteStack Atoi handler r) false = true ∧
    (∀ (deployed : Stack) (prune : Bool) (registries : List Registry) (held : Bool),
      mutexHeld "stackCreationMutex"
        (deployStack handler deployed prune endpoint registries).1 held = false) := by
  have hrun : handleDeleteStack Atoi handler r =
      [Event.Endpoint endpointID, Event.Stack (r.var "id"), Event.Lock "stackDeletionMutex",
       Event.Remove stack endpoint, Event.WriteErrorResponse err StatusInternalServerError] := by
    simp [handleDeleteStack, hatoi, hendpoint, hstack, hremove]
  refine ⟨hrun, ?_, ?_⟩
  · rw [hrun]
    simp [mutexHeld]
  · intro deployed prune registries held
    unfold deployStack
    split
    · simp [mutexHeld]
    · split <;> simp [mutexHeld]

/-- C25 at the deletion of the stack "web_swarm1" when the stack manager fails. -/
theorem C25_delete_stack_keeps_mutex_locked_witness :
    mutexHeld "stackDeletionMutex"
      (handleDeleteStack sampleAtoi failingRemoveStackHandler sampleStackRequest) false = true :=
  (C25_delete_stack_keeps_mutex_locked sampleAtoi failingRemoveStackHandler sampleStackRequest
    1
    sampleStackEndpoint
    sampleStack (Error.other "docker stack rm failed") rfl rfl rfl rfl).2.1

/-! ## Stack identifiers -/

/-- Two lists that agree once an element is put between front and back have the same
front, or the element is in the longer front and in the back that goes with the shorter
front. -/
theorem append_separator_split {α : Type} (x : α) :
    ∀ (l1 l2 r1 r2 : List α), l1 ++ x :: r1 = l2 ++ x :: r2 →
      l1 = l2 ∨ (x ∈ l2 ∧ x ∈ r1) ∨ (x ∈ l1 ∧ x ∈ r2)
  | [], [], _, _, _ => Or.inl rfl
  | [], y :: l2, r1, r2, h => by
    simp only [List.nil_append, List.cons_append, List.cons.injEq] at h
    refine Or.inr (Or.inl ⟨?_, ?_⟩)
    · rw [h.1]
      exact List.mem_cons_self _ _
    · rw [h.2]
      simp
  | y :: l1, [], r1, r2, h => by
    simp only [List.nil_append, List.cons_append, List.cons.injEq] at h
    refine Or.inr (Or.inr ⟨?_, ?_⟩)
    · rw [← h.1]
      exact List.mem_cons_self _ _
    · rw [← h.2]
      simp
  | y :: l1, z :: l2, r1, r2, h => by
    simp only [List.cons_append, List.cons.injEq] at h
    rcases append_separator_split x l1 l2 r1 r2 h.2 with htail | ⟨h2, h1⟩ | ⟨h1, h2⟩
    · exact Or.inl (by rw [h.1, htail])
    · exact Or.inr (Or.inl ⟨List.mem_cons_of_mem _ h2, h1⟩)
    · exact Or.inr (Or.inr ⟨List.mem_cons_of_mem _ h1, h2⟩)

theorem stackIdentifier_data (stackName swarmID : String) :
    (stackIdentifier stackName swarmID).data = stackName.data ++ '_' :: swarmID.data := by
  simp [stackIdentifier, String.data_append]

/-- Two stacks with the same identifier have the same name, or the separator is in the
name of one and in the swarm identifier of the other. -/
theorem stackIdentifier_collision (name1 swarmID1 name2 swarmID2 : String)
    (h : stackIdentifier name2 swarmID2 = stackIdentifier name1 swarmID1) :
    name1 = name2 ∨ ('_' ∈ name2.data ∧ '_' ∈ swarmID1.data) ∨
      ('_' ∈ name1.data ∧ '_' ∈ swarmID2.data) := by
  have hdata := congrArg String.data h
  rw [stackIdentifier_data, stackIdentifier_data] at hdata
  rcases append_separator_split _ _ _ _ _ hdata.symm with hnames | hsplit | hsplit
  · exact Or.inl (String.ext hnames)
  · exact Or.inr (Or.inl hsplit)
  · exact Or.inr (Or.inr hsplit)

theorem stackNameExistsLoop_false (EqualFold : String → String → Bool) (stackName : String) :
    ∀ (stored : List Stack), stackNameExistsLoop EqualFold stackName stored = false →
      ∀ stack ∈ stored, EqualFold stack.Name stackName = false
  | [], _, _, hmem => by simp at hmem
  | first :: rest, h, stack, hmem => by
    unfold stackNameExistsLoop at h
    by_cases hfold : EqualFold first.Name stackName = true
    · simp [hfold] at h
    · simp only [hfold] at h
      rcases List.mem_cons.mp hmem with hfirst | hrest
      · rw [hfirst]
        simpa using hfold
      · exact stackNameExistsLoop_false EqualFold stackName rest (by simpa using h) stack hrest

/-- What the name check of the three creation methods does give: a name that passes it
against the stored stacks yields an identifier different from that of every stored stack
for which the separator is not both in one name and in the other swarm identifier.
`EqualFold` is any reflexive comparison, as `strings.EqualFold` is. -/
theorem stackIdentifier_unique_after_name_check (EqualFold : String → String → Bool)
    (hreflexive : ∀ s, EqualFold s s = true) (stackName swarmID : String)
    (stored : List Stack)
    (hloop : stackNameExistsLoop EqualFold stackName stored = false) (stack : Stack)
    (hstored : stack ∈ stored)
    (hseparator : ('_' ∉ stackName.data ∨ '_' ∉ stack.SwarmID.data) ∧
      ('_' ∉ stack.Name.data ∨ '_' ∉ swarmID.data)) :
    stackIdentifier stackName swarmID ≠ stackIdentifier stack.Name stack.SwarmID := by
  intro hsame
  have hfold := stackNameExistsLoop_false EqualFold stackName stored hloop stack hstored
  rcases stackIdentifier_collision stack.Name stack.SwarmID stackName swarmID hsame with
    hnames | hsplit | hsplit
  · rw [hnames, hreflexive] at hfold
    exact Bool.noConfusion hfold
  · rcases hseparator.1 with hno | hno
    · exact hno hsplit.1
    · exact hno hsplit.2
  · rcases hseparator.2 with hno | hno
    · exact hno hsplit.1
    · exact hno hsplit.2

/-- C28 (the code at the failing input): the store holds the stack "a_b" of swarm "c",
whose identifier and project directory are "a_b_c" and "/data/compose/a_b_c", and the
request asks for the stack "a" of swarm "b_c". Every field is non-empty and the names differ
under case-insensitive comparison, so the name check, which answers 409 to the name "A_B",
lets the request pass. Each of the three creation methods then builds the identifier
"a_b_c" of the stored stack and uses it: `handlePostStacksStringMethod` and
`handlePostStacksFileMethod` store the stack file under it,
`handlePostStacksRepositoryMethod` empties the project directory of the stored stack and
clones into it, and all three hand a stack with the identifier "a_b_c" to `CreateStack`
and deploy it. -/
theorem C28_stack_identifier_collision :
    collidingStackService.Stacks =
      ([ { ID := "a_b_c", Name := "a_b", EntryPoint := "docker-compose.yml", SwarmID := "c",
           ProjectPath := "/data/compose/a_b_c", Env := [] } ], none) ∧
    stackIdentifier "a_b" "c" = "a_b_c" ∧
    asciiEqualFold "a_b" "a" = false ∧
    stackNameExistsLoop asciiEqualFold "A_B" collidingStackService.Stacks.1 = true ∧
    stackNameExistsLoop asciiEqualFold "a" collidingStackService.Stacks.1 = false ∧
    stackIdentifier "a" "b_c" = stackIdentifier "a_b" "c" ∧
    handlePostStacksStringMethod sampleAtoi sampleDecodeStack asciiEqualFold
        collidingStackHandler collidingStackRequest =
      [Event.Endpoint 1, Event.Stacks,
       Event.StoreStackFileFromString "a_b_c" "docker-compose.yml" "version: 3",
       Event.CreateStack
         { ID := "a_b_c", Name := "a", EntryPoint := "docker-compose.yml", SwarmID := "b_c",
           ProjectPath := "/data/compose/a_b_c", Env := [] },
       Event.DockerHub, Event.Registries,
       Event.Lock "stackCreationMutex", Event.Login sampleRegistries sampleStackEndpoint,
       Event.Deploy
         { ID := "a_b_c", Name := "a", EntryPoint := "docker-compose.yml", SwarmID := "b_c",
           ProjectPath := "/data/compose/a_b_c", Env := [] } false sampleStackEndpoint,
       Event.Logout sampleStackEndpoint, Event.Unlock "stackCreationMutex",
       Event.encodeJSONString "a_b_c"] ∧
    handlePostStacksRepositoryMethod sampleAtoi sampleDecodeRepositoryStack asciiEqualFold
        collidingStackHandler sampleGetStackProjectPath sampleGitService
        collidingRepositoryRequest =
      [Event.Endpoint 1, Event.Stacks, Event.StackSource (.GetStackProjectPath "a_b_c"),
       Event.RemoveDirectory "/data/compose/a_b_c",
       Event.StackSource
         (.ClonePublicRepository "https://git.example/app" "/data/compose/a_b_c"),
       Event.CreateStack
         { ID := "a_b_c", Name := "a", EntryPoint := "docker-compose.yml", SwarmID := "b_c",
           ProjectPath := "/data/compose/a_b_c", Env := [] },
       Event.DockerHub, Event.Registries,
       Event.Lock "stackCreationMutex", Event.Login sampleRegistries sampleStackEndpoint,
       Event.Deploy
         { ID := "a_b_c", Name := "a", EntryPoint := "docker-compose.yml", SwarmID := "b_c",
           ProjectPath := "/data/compose/a_b_c", Env := [] } false sampleStackEndpoint,
       Event.Logout sampleStackEndpoint, Event.Unlock "stackCreationMutex",
       Event.encodeJSONString "a_b_c"] ∧
    handlePostStacksFileMethod sampleAtoi sampleUnmarshalEnv asciiEqualFold
        collidingStackHandler sampleStoreStackFileFromReader collidingFileRequest =
      [Event.Endpoint 1, Event.Stacks,
       Event.StackSource
         (.StoreStackFileFromReader "a_b_c" "docker-compose.yml" "version: 3"),
       Event.CreateStack
         { ID := "a_b_c", Name := "a", EntryPoint := "docker-compose.yml", SwarmID := "b_c",
           ProjectPath := "/data/compose/a_b_c", Env := [] },
       Event.DockerHub, Event.Registries,
       Event.Lock "stackCreationMutex", Event.Login sampleRegistries sampleStackEndpoint,
       Event.Deploy
         { ID := "a_b_c", Name := "a", EntryPoint := "docker-compose.yml", SwarmID := "b_c",
           ProjectPath := "/data/compose/a_b_c", Env := [] } false sampleStackEndpoint,
       Event.Logout sampleStackEndpoint, Event.Unlock "stackCreationMutex",
       Event.encodeJSONString "a_b_c"] := by
  refine ⟨rfl, by decide, by decide, by decide, by decide, by decide, ?_, ?_, ?_⟩
  · rfl
  · rfl
  · rfl

/-! ## Uniqueness of (user, team) pairs among team memberships -/

theorem teamMembershipsByUserIDLoop_roundTrip (userID : UserID) :
    ∀ (entries : List (Nat × TeamMembership)) (memberships : List TeamMembership),
      teamMembershipsByUserIDLoop (jsonRoundTrip TeamMembership) userID entries memberships =
        .ok (memberships ++
          (entries.map (fun entry => entry.2)).filter (fun m => m.UserID == userID))
  | [], memberships => by simp [teamMembershipsByUserIDLoop]
  | (k, v) :: rest, memberships => by
    unfold teamMembershipsByUserIDLoop
    simp only [jsonRoundTrip_Unmarshal]
    by_cases h : (v.UserID == userID) = true
    · simp [h, teamMembershipsByUserIDLoop_roundTrip userID rest]
    · simp [h, teamMembershipsByUserIDLoop_roundTrip userID rest]

theorem membershipExistsLoop_false (userID : UserID) (teamID : TeamID) :
    ∀ (memberships : List TeamMembership),
      membershipExistsLoop userID teamID memberships = false →
      ∀ m ∈ memberships, ¬ (m.UserID = userID ∧ m.TeamID = teamID)
  | [], _, _, hmem => by simp at hmem
  | first :: rest, h, m, hmem => by
    unfold membershipExistsLoop at h
    by_cases hpair : (first.UserID == userID && first.TeamID == teamID) = true
    · simp [hpair] at h
    · simp only [hpair] at h
      rcases List.mem_cons.mp hmem with hfirst | hrest
      · rw [hfirst]
        simpa using hpair
      · exact membershipExistsLoop_false userID teamID rest (by simpa using h) m hrest

theorem putEntries_pairs_nodup {V β : Type} (pair : V → β) (key : Nat) (value : V) :
    ∀ (entries : List (Nat × V)),
      (entries.map (fun entry => pair entry.2)).Nodup →
      pair value ∉ entries.map (fun entry => pair entry.2) →
      ((putEntries key value entries).map (fun entry => pair entry.2)).Nodup ∧
      ∀ b, b ∈ (putEntries key value entries).map (fun entry => pair entry.2) →
        b = pair value ∨ b ∈ entries.map (fun entry => pair entry.2)
  | [], _, _ => by simp [putEntries]
  | (k, v) :: rest, hnodup, hnew => by
    unfold putEntries
    simp only [List.map_cons, List.nodup_cons, List.mem_cons, not_or] at hnodup hnew
    by_cases hlt : key < k
    · simp only [hlt, if_true, List.map_cons, List.nodup_cons, List.mem_cons, not_or]
      refine ⟨⟨⟨hnew.1, hnew.2⟩, hnodup.1, hnodup.2⟩, ?_⟩
      intro b hb
      exact hb
    · by_cases heq : key = k
      · subst heq
        simp only [Nat.lt_irrefl, if_true, if_false, List.map_cons, List.nodup_cons,
          List.mem_cons]
        refine ⟨⟨hnew.2, hnodup.2⟩, ?_⟩
        intro b hb
        rcases hb with hb | hb
        · exact Or.inl hb
        · exact Or.inr (Or.inr hb)
      · simp only [hlt, heq, if_false, List.map_cons, List.nodup_cons, List.mem_cons]
        obtain ⟨ih1, ih2⟩ := putEntries_pairs_nodup pair key value rest hnodup.2 hnew.2
        refine ⟨⟨?_, ih1⟩, ?_⟩
        · intro hmem
          rcases ih2 _ hmem with hv | hv
          · exact hnew.1 hv.symm
          · exact hnodup.1 hv
        · intro b hb
          rcases hb with hb | hb
          · exact Or.inr (Or.inl hb)
          · rcases ih2 b hb with hv | hv
            · exact Or.inl hv
            · exact Or.inr (Or.inr hv)

/-- Every run of `handlePostTeamMemberships`, successful or not, keeps the (user, team)
pairs of the stored memberships distinct. -/
theorem handlePostTeamMemberships_pairs_unique (Decode : String → Option teamMembershipRequest)
    (store : Store) (r : Request) (hunique : membershipPairsUnique store.teamMemberships) :
    membershipPairsUnique (handlePostTeamMemberships Decode store r).2.teamMemberships := by
  unfold handlePostTeamMemberships
  split
  · exact hunique
  · split
    · exact hunique
    · rename_i req _
      split
      · exact hunique
      · dsimp only
        split
        · exact hunique
        · simp only [Bolt.TeamMembershipsByUserID, teamMembershipsByUserIDLoop_roundTrip,
            List.nil_append]
          split
          · exact hunique
          · rename_i hloop
            simp only [Bolt.CreateTeamMembership, jsonRoundTrip_Marshal]
            have hnone := membershipExistsLoop_false req.UserID req.TeamID _
              (by simpa using hloop)
            have hnew : (req.UserID, req.TeamID) ∉
                store.teamMemberships.entries.map
                  (fun entry => (entry.2.UserID, entry.2.TeamID)) := by
              intro hmem
              obtain ⟨entry, hentry, hpair⟩ := List.mem_map.mp hmem
              simp only [Prod.mk.injEq] at hpair
              refine hnone entry.2 ?_ hpair
              simp only [List.mem_filter, List.mem_map, beq_iff_eq]
              exact ⟨⟨entry, hentry, rfl⟩, hpair.1⟩
            exact (putEntries_pairs_nodup (fun m : TeamMembership => (m.UserID, m.TeamID)) _
              { ID := intOfUint64 store.teamMemberships.NextSequence.1, UserID := req.UserID,
                TeamID := req.TeamID, Role := req.Role }
              store.teamMemberships.entries hunique hnew).1

/-- C29 (the code at the failing input): the store holds membership 1 of user 7 in team 5
and membership 3 of user 8 in team 5, and its (user, team) pairs are distinct. An
administrator sends `PUT /team_memberships/3` with `{UserID: 7, TeamID: 5, Role: member}`.
`handlePutTeamMembership` has no duplicate check: it writes no error response and saves
membership 3 as (user 7, team 5), the pair of membership 1, so the pairs are no longer
distinct. `handlePostTeamMemberships` answers 409 `ErrTeamMembershipAlreadyExists` to the
same body and leaves the store as it was. -/
theorem C29_put_membership_duplicates_pair :
    membershipPairsUnique sampleStore.teamMemberships ∧
    (handlePutTeamMembership sampleAtoi sampleDecodeDuplicate sampleStore
        sampleDuplicateRequest).1 =
      [Event.TeamMembership 3,
       Event.UpdateTeamMembership 3 { ID := 3, UserID := 7, TeamID := 5, Role := TeamMember }] ∧
    (handlePutTeamMembership sampleAtoi sampleDecodeDuplicate sampleStore
        sampleDuplicateRequest).2.teamMemberships.entries =
      [(1, { ID := 1, UserID := 7, TeamID := 5, Role := TeamMember }),
       (2, { ID := 2, UserID := 7, TeamID := 6, Role := TeamLeader }),
       (3, { ID := 3, UserID := 7, TeamID := 5, Role := TeamMember })] ∧
    ¬ membershipPairsUnique (handlePutTeamMembership sampleAtoi sampleDecodeDuplicate
        sampleStore sampleDuplicateRequest).2.teamMemberships ∧
    (handlePostTeamMemberships sampleDecodeDuplicate sampleStore sampleDuplicateRequest).1 =
      [Event.TeamMembershipsByUserID 7,
       Event.WriteErrorResponse Error.ErrTeamMembershipAlreadyExists StatusConflict] ∧
    (handlePostTeamMemberships sampleDecodeDuplicate sampleStore
        sampleDuplicateRequest).2.teamMemberships.entries =
      sampleStore.teamMemberships.entries := by
  refine ⟨by decide, by decide, by decide, by decide, by decide, by decide⟩

/-! ## Endpoints and the groups they name -/

/-- C30 (the code at the failing input): the store holds the groups 1 and 2 and the
endpoints 1, 2 and 3 of groups 1, 2 and 1; every endpoint names a stored group, and
`FilterEndpoints` gives the non-administrator user 7 the endpoints 1 and 2. An
administrator sends `PUT /endpoints/1` with `{GroupID: 99}`. `handlePutEndpoint` copies the
group identifier of the request into the endpoint without looking the group up: it writes
no error response and saves endpoint 1 with `GroupID = 99`, though no group 99 is stored.
On the endpoints and groups of the resulting store `getAssociatedGroup` finds no group for
endpoint 1 and `FilterEndpoints` stops with a nil-pointer dereference for user 7. -/
theorem C30_put_endpoint_stores_missing_group :
    endpointGroupsExist sampleStore = true ∧
    FilterEndpoints (sampleStore.endpoints.entries.map (fun entry => entry.2))
        (sampleStore.endpointGroups.entries.map (fun entry => entry.2)) sampleUserContext =
      some ([ { ID := 1, Name := "a", URL := "tcp://a", GroupID := 1, AuthorizedUsers := [],
                AuthorizedTeams := [5], Extensions := [] },
              { ID := 2, Name := "b", URL := "tcp://b", GroupID := 2, AuthorizedUsers := [],
                AuthorizedTeams := [], Extensions := [] } ], none) ∧
    (handlePutEndpoint sampleAtoi sampleDecodeEndpoint sampleEndpointHandler
        sampleGetPathForTLSFile sampleProxyManager sampleStore samplePutEndpointRequest).1 =
      [Event.Endpoint 1, Event.DeleteTLSFiles "1",
       Event.CreateAndRegisterProxy
         { ID := 1, Name := "a", URL := "tcp://a", GroupID := 99, AuthorizedUsers := [],
           AuthorizedTeams := [5], Extensions := [] },
       Event.UpdateEndpoint 1
         { ID := 1, Name := "a", URL := "tcp://a", GroupID := 99, AuthorizedUsers := [],
           AuthorizedTeams := [5], Extensions := [] }] ∧
    (handlePutEndpoint sampleAtoi sampleDecodeEndpoint sampleEndpointHandler
        sampleGetPathForTLSFile sampleProxyManager sampleStore
        samplePutEndpointRequest).2.endpoints.Get 1 =
      some { ID := 1, Name := "a", URL := "tcp://a", GroupID := 99, AuthorizedUsers := [],
             AuthorizedTeams := [5], Extensions := [] } ∧
    (handlePutEndpoint sampleAtoi sampleDecodeEndpoint sampleEndpointHandler
        sampleGetPathForTLSFile sampleProxyManager sampleStore
        samplePutEndpointRequest).2.endpointGroups.Get (uint64 99) = none ∧
    endpointGroupsExist (handlePutEndpoint sampleAtoi sampleDecodeEndpoint
        sampleEndpointHandler sampleGetPathForTLSFile sampleProxyManager sampleStore
        samplePutEndpointRequest).2 = false ∧
    getAssociatedGroup
        { ID := 1, Name := "a", URL := "tcp://a", GroupID := 99, AuthorizedUsers := [],
          AuthorizedTeams := [5], Extensions := [] }
        (sampleStore.endpointGroups.entries.map (fun entry => entry.2)) = none ∧
    FilterEndpoints
        ((handlePutEndpoint sampleAtoi sampleDecodeEndpoint sampleEndpointHandler
          sampleGetPathForTLSFile sampleProxyManager sampleStore
          samplePutEndpointRequest).2.endpoints.entries.map (fun entry => entry.2))
        ((handlePutEndpoint sampleAtoi sampleDecodeEndpoint sampleEndpointHandler
          sampleGetPathForTLSFile sampleProxyManager sampleStore
          samplePutEndpointRequest).2.endpointGroups.entries.map (fun entry => entry.2))
        sampleUserContext = none := by
  refine ⟨by decide, by decide, by decide, by decide, by decide, by decide, by decide,
    by decide⟩

end Chainid
